import Mathlib

/-! # arduinopc: the host-side protocol engine of `arduino.cpp`

A shallow embedding of `src/C++/arduino/src/arduino.cpp`.

* C++ `std::string` is `Str`, a list of characters, so that every string
  operation is a structural recursion that evaluates in the kernel.
* A C++ exception is a value of `Fault`; a function that can throw returns
  `Except Fault _`.
* The serial port is explicit state (`TStream`), threaded through every call;
  the device at the other end of the wire is a `Device` over an arbitrary
  state type.
* The constants, enumerations and helper functions that `arduino.cpp` takes
  from headers that are not part of the sources at hand are collected in
  `Protocol` and are parameters of every definition.
-/

namespace ArduinoPC

/-! ## Strings and the standard library -/

/-- A `std::string`. -/
abbrev Str := List Char

/-- What a C++ `throw` carries. -/
inductive Fault where
  /-- A `std::out_of_range` of `vector::at` or `string::substr`. -/
  | out_of_range
  /-- A `std::runtime_error` thrown by the driver itself, with its message. -/
  | runtime_error (what : Str)
  /-- An exception thrown by a helper that is not defined in `arduino.cpp`. -/
  | helper_error
  /-- Not an exception: the statement has undefined behaviour in C++. -/
  | undefined_behaviour
  deriving DecidableEq, Repr

/-- `IOStatus` of `arduino.h`. -/
inductive IOStatus where
  | OPERATION_SUCCESS
  | OPERATION_FAILURE
  deriving DecidableEq, Repr

/-- The count `s.length() - 1` in `size_t` arithmetic: for the empty string
`0 - 1` wraps to the largest `size_t`. -/
def lengthMinusOne (s : Str) : Nat := if s.length = 0 then 2 ^ 64 - 1 else s.length - 1

/-- `std::string::substr(pos)`: throws when `pos` is beyond the end. -/
def substr (s : Str) (pos : Nat) : Except Fault Str :=
  if pos > s.length then .error .out_of_range else .ok (s.drop pos)

/-- `std::string::substr(pos, count)`: throws when `pos` is beyond the end,
otherwise at most `count` characters from `pos` on. -/
def substrN (s : Str) (pos count : Nat) : Except Fault Str :=
  if pos > s.length then .error .out_of_range else .ok ((s.drop pos).take count)

/-- `std::vector::at`. -/
def vat (v : List Str) (i : Nat) : Except Fault Str :=
  match v[i]? with
  | some x => .ok x
  | none => .error .out_of_range

/-- `std::string::find(pattern)`: the first position at which `pattern`
occurs, `none` for `npos`. -/
def find : Str → Str → Option Nat
  | [], pat => if pat = [] then some 0 else none
  | c :: cs, pat =>
    if pat.isPrefixOf (c :: cs) then some 0 else (find cs pat).map (· + 1)

/-- `std::to_string(int)`: the decimal digits, with a leading `-` for a
negative number. -/
def to_string : Int → Str
  | Int.ofNat n => Nat.toDigits 10 n
  | Int.negSucc n => '-' :: Nat.toDigits 10 (n + 1)

/-- Modelled from the spec: `GeneralUtilities::startsWith(string, string)`,
whose body is not in `arduino.cpp`; the response "starts with" the header. -/
def startsWith (s header : Str) : Bool := header.isPrefixOf s

/-- Modelled from the spec: `GeneralUtilities::endsWith(string, char)`,
whose body is not in `arduino.cpp`; the response "ends with" the character. -/
def endsWith (s : Str) (c : Char) : Bool := s.getLast? == some c

/-- Modelled from the spec: `GeneralUtilities::endsWith(string, string)`,
whose body is not in `arduino.cpp`; the buffer "ends with" the suffix. -/
def endsWithStr (s suffix : Str) : Bool := suffix.reverse.isPrefixOf s.reverse

/-- Modelled from the spec: `GeneralUtilities::stripAllFromString(string, char)`,
whose body is not in `arduino.cpp`; every occurrence of the character is
"stripped". -/
def stripAllFromString (s : Str) (c : Char) : Str := s.filter (· != c)

/-! ## What the headers declare -/

/-- `CanMessage` of `canmessage.h`: the four constructor arguments of
`CanMessage{0, 0, 0, CanDataPacket()}`. -/
structure CanMessage where
  id : Nat
  frame : Nat
  length : Nat
  dataPacket : List Nat
  deriving DecidableEq, Repr

/-- `IOType` of `arduino.h`. -/
inductive IOType where
  | DIGITAL_INPUT
  | DIGITAL_OUTPUT
  | ANALOG_INPUT
  | ANALOG_OUTPUT
  | DIGITAL_INPUT_PULLUP
  | UNSPECIFIED
  deriving DecidableEq, Repr

/-- `CanMaskType` of `arduino.h`; `removeAllCanMasks` has a branch for a
value that is neither `POSITIVE` nor `NEGATIVE`. -/
inductive CanMaskType where
  | POSITIVE
  | NEGATIVE
  | ALL
  deriving DecidableEq, Repr

/-- The constants, enumerators and helpers that `arduino.cpp` uses and
`arduino.h`, `generalutilities.h` and `canmessage.h` declare. Their values
are not in `arduino.cpp`, so they are parameters. -/
structure Protocol where
  LINE_ENDING : Char
  TERMINATING_CHARACTER : Char
  OPERATION_FAILURE_STRING : Str
  SERIAL_REPORT_REQUEST_TIME_LIMIT : Nat
  /-- The compile-time retry bound used by the CAN operations. -/
  IO_TRY_COUNT : Nat
  -- headers
  ARDUINO_TYPE_HEADER : Str
  FIRMWARE_VERSION_HEADER : Str
  CURRENT_A_TO_D_THRESHOLD_HEADER : Str
  PIN_TYPE_CHANGE_HEADER : Str
  PIN_TYPE_HEADER : Str
  SOFT_DIGITAL_READ_HEADER : Str
  ANALOG_READ_HEADER : Str
  SOFT_ANALOG_READ_HEADER : Str
  ANALOG_WRITE_HEADER : Str
  DIGITAL_READ_HEADER : Str
  DIGITAL_WRITE_HEADER : Str
  DIGITAL_WRITE_ALL_HEADER : Str
  CHANGE_A_TO_D_THRESHOLD_HEADER : Str
  CAN_BUS_ENABLED_HEADER : Str
  IO_REPORT_HEADER : Str
  IO_REPORT_END_HEADER : Str
  CAN_READ_HEADER : Str
  CAN_WRITE_HEADER : Str
  ADD_POSITIVE_CAN_MASK_HEADER : Str
  ADD_NEGATIVE_CAN_MASK_HEADER : Str
  REMOVE_POSITIVE_CAN_MASK_HEADER : Str
  REMOVE_NEGATIVE_CAN_MASK_HEADER : Str
  CLEAR_ALL_POSITIVE_CAN_MASKS_HEADER : Str
  CLEAR_ALL_NEGATIVE_CAN_MASKS_HEADER : Str
  CLEAR_ALL_CAN_MASKS_HEADER : Str
  /-- The text `canListen` looks for in front of a frame. -/
  CAN_EMPTY_READ_SUCCESS_STRING : Str
  -- messages
  IO_TRY_COUNT_TOO_LOW_STRING : Str
  IO_REPORT_INVALID_DATA_STRING : Str
  CAN_REPORT_INVALID_DATA_STRING : Str
  /-- The initial value of `m_streamSendDelay`. -/
  DEFAULT_IO_STREAM_SEND_DELAY : Nat
  -- `enum ArduinoTypeEnum` and its size
  ARDUINO_TYPE_RETURN_SIZE : Nat
  RETURN_STATE : Nat
  OPERATION_RESULT : Nat
  PIN_TYPE_RETURN_SIZE : Nat
  -- `enum IOState` and its size
  IO_STATE_RETURN_SIZE : Nat
  PIN_NUMBER : Nat
  STATE : Nat
  RETURN_CODE : Nat
  DIGITAL_WRITE_ALL_MINIMIM_RETURN_SIZE : Nat
  -- `enum ADThresholdReq` and its size
  A_TO_D_THRESHOLD_RETURN_SIZE : Nat
  AD_RETURN_STATE : Nat
  AD_OPERATION_RESULT : Nat
  -- `enum CanEnabledStatus` and its size
  CAN_BUS_ENABLED_RETURN_SIZE : Nat
  CAN_RETURN_STATE : Nat
  CAN_OPERATION_RESULT : Nat
  -- `enum IOReportEnum` and its size
  IO_REPORT_RETURN_SIZE : Nat
  IO_PIN_NUMBER : Nat
  IO_TYPE : Nat
  IO_STATE : Nat
  -- `enum CanIOStatus` and its sizes
  CAN_READ_RETURN_SIZE : Nat
  CAN_READ_BLANK_RETURN_SIZE : Nat
  CAN_WRITE_RETURN_SIZE : Nat
  MESSAGE_ID : Nat
  BYTE_0 : Nat
  CAN_IO_OPERATION_RESULT : Nat
  -- `enum CanMask` and its sizes
  ADD_CAN_MASK_RETURN_SIZE : Nat
  REMOVE_CAN_MASK_RETURN_SIZE : Nat
  CAN_MASK_RETURN_STATE : Nat
  CAN_MASK_OPERATION_RESULT : Nat
  /-- `GeneralUtilities::parseToContainer(begin, end, delimiter)`. -/
  parseToContainer : Str → Char → List Str
  /-- `GeneralUtilities::decStringToInt`; `none` when it throws. -/
  decStringToInt : Str → Option Int
  /-- `GeneralUtilities::isWhitespace`. -/
  isWhitespace : Str → Bool
  /-- `parseIOTypeFromString`; `none` when it throws. -/
  parseIOTypeFromString : Str → Option IOType
  /-- `parseIOType`, the token of an I/O mode. -/
  parseIOType : IOType → Str
  /-- `CanMessage::parseCanMessage`; `none` when it throws. -/
  parseCanMessage : Str → Option CanMessage
  /-- `CanMessage::toString`. -/
  canMessageToString : CanMessage → Str

/-! ## The serial port -/

/-- The far end of the wire: what the board does with a line written to it
and what a read obtains. `polls` is the number of further reads of an idle
line that fit before the event timer of a request reaches the time-out. -/
structure Device (σ : Type) where
  writeLine : σ → Str → σ
  readUntil : σ → Char → Str × σ
  readLine : σ → Str × σ
  polls : Nat

/-- `TStream`, the transport: the state of the wire, whether the port is
open, its read time-out, and the lines written so far (oldest first). -/
structure TStream (σ : Type) where
  wire : σ
  isOpen : Bool
  timeout : Nat
  written : List Str

/-- `TStream::openPort`. -/
def TStream.openPort {σ : Type} (s : TStream σ) : TStream σ := { s with isOpen := true }

/-- `TStream::setTimeout`. -/
def TStream.setTimeout {σ : Type} (s : TStream σ) (t : Nat) : TStream σ :=
  { s with timeout := t }

/-- `TStream::writeLine`. -/
def TStream.writeLine {σ : Type} (dev : Device σ) (s : TStream σ) (line : Str) : TStream σ :=
  { s with wire := dev.writeLine s.wire line, written := s.written ++ [line] }

/-- `TStream::readUntil`. -/
def TStream.readUntil {σ : Type} (dev : Device σ) (s : TStream σ) (c : Char) :
    Str × TStream σ :=
  ((dev.readUntil s.wire c).1, { s with wire := (dev.readUntil s.wire c).2 })

/-- `TStream::readLine`. -/
def TStream.readLine {σ : Type} (dev : Device σ) (s : TStream σ) : Str × TStream σ :=
  ((dev.readLine s.wire).1, { s with wire := (dev.readLine s.wire).2 })

/-- The polling loop of `genericIOTask` and `genericIOReportTask`:
`do { str = readUntil(LINE_ENDING); if (str != "") { returnString = str; break; } }
 while (elapsed < timeout)`, where `more` is the number of times the `while`
condition still holds. The result is the first non-empty line, the empty
string if none arrives. -/
def pollLine {σ : Type} (dev : Device σ) (c : Char) : Nat → TStream σ → Str × TStream σ
  | 0, s => s.readUntil dev c
  | more + 1, s =>
    if (s.readUntil dev c).1 ≠ [] then s.readUntil dev c
    else pollLine dev c more (s.readUntil dev c).2

/-- The session object `Arduino`. -/
structure Arduino (σ : Type) where
  m_ioStream : TStream σ
  m_streamSendDelay : Nat
  m_ioTryCount : Nat

/-- `Arduino::ioTryCount`. -/
def ioTryCount {σ : Type} (a : Arduino σ) : Nat := a.m_ioTryCount

/-- `Arduino::setStreamSendDelay`. -/
def setStreamSendDelay {σ : Type} (a : Arduino σ) (streamSendDelay : Nat) : Arduino σ :=
  { a with m_streamSendDelay := streamSendDelay }

/-- `Arduino::setIOTryCount`: throws for a count below one, stores it
otherwise. The argument is an `unsigned int`. -/
def setIOTryCount {σ : Type} (P : Protocol) (a : Arduino σ) (ioTryCount : Nat) :
    Except Fault Unit × Arduino σ :=
  if ioTryCount < 1 then
    (.error (.runtime_error
      (P.IO_TRY_COUNT_TOO_LOW_STRING ++ to_string ioTryCount ++ " < 1) ".toList)), a)
  else
    (.ok (), { a with m_ioTryCount := ioTryCount })

/-- The part of `genericIOTask` after the read: strip one trailing
`LINE_ENDING`, test header and terminator, cut both off, split on `:`. -/
def genericIOTaskParse (P : Protocol) (returnString header : Str) : Except Fault (List Str) :=
  let returnString :=
    if endsWith returnString P.LINE_ENDING then
      substrN returnString 0 (lengthMinusOne returnString)
    else .ok returnString
  match returnString with
  | .error e => .error e
  | .ok returnString =>
    if startsWith returnString header && endsWith returnString P.TERMINATING_CHARACTER then
      match substr returnString (header.length + 1) with
      | .error e => .error e
      | .ok returnString =>
        match substrN returnString 0 (lengthMinusOne returnString) with
        | .error e => .error e
        | .ok returnString => .ok (P.parseToContainer returnString ':')
    else .ok []

/-- The part of `genericIOTask` up to the restoring of the time-out: open
the port if need be, install the per-call time-out, write the request, wait,
poll for a line, restore the time-out. The result is `returnString`. -/
def genericIOTaskRead {σ : Type} (P : Protocol) (dev : Device σ) (s : TStream σ)
    (stringToSend : Str) (delay : Nat) : Str × TStream σ :=
  let _ := delay
  let s := if !s.isOpen then s.openPort else s
  let tempTimeout := s.timeout
  let s := s.setTimeout P.SERIAL_REPORT_REQUEST_TIME_LIMIT
  let s := s.writeLine dev stringToSend
  let r := pollLine dev P.LINE_ENDING dev.polls s
  (r.1, r.2.setTimeout tempTimeout)

/-- `Arduino::genericIOTask`. -/
def genericIOTask {σ : Type} (P : Protocol) (dev : Device σ) (s : TStream σ)
    (stringToSend header : Str) (delay : Nat) : Except Fault (List Str) × TStream σ :=
  (genericIOTaskParse P (genericIOTaskRead P dev s stringToSend delay).1 header,
    (genericIOTaskRead P dev s stringToSend delay).2)

/-- The port after `k` successive exchanges. -/
def afterExchanges {σ : Type} (exchange : TStream σ → Except Fault (List Str) × TStream σ) :
    Nat → TStream σ → TStream σ
  | 0, s => s
  | k + 1, s => afterExchanges exchange k (exchange s).2

/-- What exchange number `k` (counted from zero) returns. -/
def answer {σ : Type} (exchange : TStream σ → Except Fault (List Str) × TStream σ)
    (k : Nat) (s : TStream σ) : Except Fault (List Str) :=
  (exchange (afterExchanges exchange k s)).1

/-! ## The retry loop -/

/-- The loop of every typed operation,
`for (int i = 0; i < bound; i++) { states = exchange(); body } return fallthrough;`.
`body i states` is `none` when iteration `i` ends in `continue`, and
`some r` when it returns `r` or throws. The first argument counts the
iterations that are left, `bound - i`; it is `bound` at the start, so it
reaches zero exactly when `i < bound` fails. The counter is an `int` compared
with an unsigned bound after conversion; counting in `Nat` gives the same
comparisons for every bound of 32 bits. -/
def tryLoop {σ R : Type} (bound : Nat)
    (exchange : TStream σ → Except Fault (List Str) × TStream σ)
    (body : Nat → List Str → Option (Except Fault R)) (fallthrough : R) :
    Nat → Nat → TStream σ → Except Fault R × TStream σ
  | 0, _, s => (.ok fallthrough, s)
  | left + 1, i, s =>
    if i < bound then
      match (exchange s).1 with
      | .error e => (.error e, (exchange s).2)
      | .ok states =>
        match body i states with
        | some r => (r, (exchange s).2)
        | none => tryLoop bound exchange body fallthrough left (i + 1) (exchange s).2
    else (.ok fallthrough, s)

/-- The recurring
`if (i+1 == tryCount) { return failure; } else { continue; }`. -/
def failOrContinue {R : Type} (tryCount i : Nat) (failure : R) : Option (Except Fault R) :=
  if i + 1 = tryCount then some (.ok failure) else none

/-! ## Typed operations -/

/-- One iteration of the loop of `Arduino::digitalRead`, after the exchange. -/
def digitalReadBody (P : Protocol) (tryCount : Nat) (pinNumber : Int) (i : Nat)
    (states : List Str) : Option (Except Fault (IOStatus × Bool)) :=
  if states.length ≠ P.IO_STATE_RETURN_SIZE then
    failOrContinue tryCount i (.OPERATION_FAILURE, false)
  else
    match vat states P.PIN_NUMBER with
    | .error e => some (.error e)
    | .ok pin =>
      if to_string pinNumber ≠ pin then
        failOrContinue tryCount i (.OPERATION_FAILURE, false)
      else
        match vat states P.RETURN_CODE with
        | .error e => some (.error e)
        | .ok code =>
          if code = P.OPERATION_FAILURE_STRING then
            failOrContinue tryCount i (.OPERATION_FAILURE, false)
          else
            -- try { ... } catch (std::exception &e) { ... }
            match vat states P.STATE with
            | .error _ => failOrContinue tryCount i (.OPERATION_FAILURE, false)
            | .ok state =>
              match P.decStringToInt state with
              | none => failOrContinue tryCount i (.OPERATION_FAILURE, false)
              | some n => some (.ok (.OPERATION_SUCCESS, n == 1))

/-- The request frame of `digitalRead`. -/
def digitalReadRequest (P : Protocol) (pinNumber : Int) : Str :=
  P.DIGITAL_READ_HEADER ++ ":".toList ++ to_string pinNumber ++ [P.LINE_ENDING]

/-- The exchange `digitalRead` repeats. -/
def digitalReadExchange {σ : Type} (P : Protocol) (dev : Device σ) (delay : Nat)
    (pinNumber : Int) (s : TStream σ) : Except Fault (List Str) × TStream σ :=
  genericIOTask P dev s (digitalReadRequest P pinNumber) P.DIGITAL_READ_HEADER delay

/-- `Arduino::digitalRead`. -/
def digitalRead {σ : Type} (P : Protocol) (dev : Device σ) (a : Arduino σ) (pinNumber : Int) :
    Except Fault (IOStatus × Bool) × Arduino σ :=
  let r := tryLoop a.m_ioTryCount (digitalReadExchange P dev a.m_streamSendDelay pinNumber)
    (digitalReadBody P a.m_ioTryCount pinNumber) (.OPERATION_FAILURE, false)
    a.m_ioTryCount 0 a.m_ioStream
  (r.1, { a with m_ioStream := r.2 })

/-- One iteration of the loop of `Arduino::canCapability`, after the exchange.
The first two tests have no `else continue`: when the attempt is not the
last one, control falls through to the next statement. -/
def canCapabilityBody (P : Protocol) (tryCount : Nat) (i : Nat) (states : List Str) :
    Option (Except Fault (IOStatus × Bool)) :=
  if states.length ≠ P.CAN_BUS_ENABLED_RETURN_SIZE ∧ i + 1 = tryCount then
    some (.ok (.OPERATION_FAILURE, false))
  else
    match vat states P.CAN_OPERATION_RESULT with
    | .error e => some (.error e)
    | .ok code =>
      if code = P.OPERATION_FAILURE_STRING ∧ i + 1 = tryCount then
        some (.ok (.OPERATION_FAILURE, false))
      else
        match vat states P.CAN_RETURN_STATE with
        | .error _ => failOrContinue tryCount i (.OPERATION_FAILURE, false)
        | .ok state =>
          match P.decStringToInt state with
          | none => failOrContinue tryCount i (.OPERATION_FAILURE, false)
          | some n => some (.ok (.OPERATION_SUCCESS, n == 1))

/-- `Arduino::canCapability`. -/
def canCapability {σ : Type} (P : Protocol) (dev : Device σ) (a : Arduino σ) :
    Except Fault (IOStatus × Bool) × Arduino σ :=
  let stringToSend := P.CAN_BUS_ENABLED_HEADER ++ [P.LINE_ENDING]
  let r := tryLoop a.m_ioTryCount
    (fun s => genericIOTask P dev s stringToSend P.CAN_BUS_ENABLED_HEADER a.m_streamSendDelay)
    (canCapabilityBody P a.m_ioTryCount) (.OPERATION_FAILURE, false)
    a.m_ioTryCount 0 a.m_ioStream
  (r.1, { a with m_ioStream := r.2 })

/-- `CanMessage emptyMessage{0, 0, 0, CanDataPacket()}`. -/
def emptyMessage : CanMessage := { id := 0, frame := 0, length := 0, dataPacket := [] }

/-- The loop `for (i = BYTE_0; i < CAN_IO_OPERATION_RESULT; i++) message += ":" + states.at(i);`
over the positions `is`. -/
def appendBytes (states : List Str) : List Nat → Str → Except Fault Str
  | [], message => .ok message
  | i :: is, message =>
    match vat states i with
    | .error e => .error e
    | .ok b => appendBytes states is (message ++ ":".toList ++ b)

/-- The positions `BYTE_0, ..., CAN_IO_OPERATION_RESULT - 1`. -/
def bytePositions (P : Protocol) : List Nat :=
  List.range' P.BYTE_0 (P.CAN_IO_OPERATION_RESULT - P.BYTE_0)

/-- The tail shared by `canRead` and `canWrite`: decode `message` and return. -/
def decodeCan (P : Protocol) (message : Except Fault Str) :
    Option (Except Fault (IOStatus × CanMessage)) :=
  match message with
  | .error e => some (.error e)
  | .ok message =>
    match P.parseCanMessage message with
    | none => some (.error .helper_error)
    | some m => some (.ok (.OPERATION_SUCCESS, m))

/-- One iteration of the loop of `Arduino::canRead`, after the exchange. -/
def canReadBody (P : Protocol) (i : Nat) (states : List Str) :
    Option (Except Fault (IOStatus × CanMessage)) :=
  if states.length = P.CAN_READ_RETURN_SIZE ∧ states.length ≠ P.CAN_READ_BLANK_RETURN_SIZE then
    failOrContinue P.IO_TRY_COUNT i (.OPERATION_FAILURE, emptyMessage)
  else if states.length = P.CAN_READ_BLANK_RETURN_SIZE then
    match vat states 0 with
    | .error e => some (.error e)
    | .ok code =>
      if code = P.OPERATION_FAILURE_STRING then
        failOrContinue P.IO_TRY_COUNT i (.OPERATION_FAILURE, emptyMessage)
      else some (.ok (.OPERATION_SUCCESS, emptyMessage))
  else
    match vat states P.CAN_IO_OPERATION_RESULT with
    | .error e => some (.error e)
    | .ok code =>
      if code = P.OPERATION_FAILURE_STRING then
        failOrContinue P.IO_TRY_COUNT i (.OPERATION_FAILURE, emptyMessage)
      else
        match vat states P.MESSAGE_ID with
        | .error e => some (.error e)
        | .ok id => decodeCan P (appendBytes states (bytePositions P) id)

/-- The exchange `canRead` repeats. -/
def canReadExchange {σ : Type} (P : Protocol) (dev : Device σ) (delay : Nat)
    (s : TStream σ) : Except Fault (List Str) × TStream σ :=
  genericIOTask P dev s (P.CAN_READ_HEADER ++ [P.TERMINATING_CHARACTER]) P.CAN_READ_HEADER delay

/-- `Arduino::canRead`. The loop is bounded by `IO_TRY_COUNT`. -/
def canRead {σ : Type} (P : Protocol) (dev : Device σ) (a : Arduino σ) :
    Except Fault (IOStatus × CanMessage) × Arduino σ :=
  let r := tryLoop P.IO_TRY_COUNT (canReadExchange P dev a.m_streamSendDelay)
    (canReadBody P) (.OPERATION_FAILURE, emptyMessage) P.IO_TRY_COUNT 0 a.m_ioStream
  (r.1, { a with m_ioStream := r.2 })

/-- One iteration of the loop of `Arduino::canWrite`, after the exchange. -/
def canWriteBody (P : Protocol) (i : Nat) (states : List Str) :
    Option (Except Fault (IOStatus × CanMessage)) :=
  if states.length = P.CAN_READ_RETURN_SIZE ∧ states.length ≠ P.CAN_READ_BLANK_RETURN_SIZE then
    failOrContinue P.IO_TRY_COUNT i (.OPERATION_FAILURE, emptyMessage)
  else if states.length ≠ P.CAN_WRITE_RETURN_SIZE then
    failOrContinue P.IO_TRY_COUNT i (.OPERATION_FAILURE, emptyMessage)
  else
    match vat states P.CAN_IO_OPERATION_RESULT with
    | .error e => some (.error e)
    | .ok code =>
      if code = P.OPERATION_FAILURE_STRING then
        failOrContinue P.IO_TRY_COUNT i (.OPERATION_FAILURE, emptyMessage)
      else
        match vat states P.MESSAGE_ID with
        | .error e => some (.error e)
        | .ok id => decodeCan P (appendBytes states (bytePositions P) (id ++ ":".toList))

/-- `Arduino::canWrite`. The loop is bounded by `IO_TRY_COUNT`. -/
def canWrite {σ : Type} (P : Protocol) (dev : Device σ) (a : Arduino σ)
    (message : CanMessage) : Except Fault (IOStatus × CanMessage) × Arduino σ :=
  let stringToSend := P.CAN_WRITE_HEADER ++ ":".toList ++ P.canMessageToString message
    ++ [P.TERMINATING_CHARACTER]
  let r := tryLoop P.IO_TRY_COUNT
    (fun s => genericIOTask P dev s stringToSend P.CAN_WRITE_HEADER a.m_streamSendDelay)
    (canWriteBody P) (.OPERATION_FAILURE, emptyMessage) P.IO_TRY_COUNT 0 a.m_ioStream
  (r.1, { a with m_ioStream := r.2 })

/-- The C library `isspace` in the "C" locale. -/
def isspace (c : Char) : Bool :=
  c == ' ' || c == '\t' || c == '\n' || c == '\x0b' || c == '\x0c' || c == '\r'

/-- The value of a run of decimal digits, most significant first. -/
def digitsValue (ds : Str) : Nat := ds.foldl (fun v c => 10 * v + (c.toNat - '0'.toNat)) 0

/-- `std::stoi(str)` in base ten: leading white space is skipped, a sign is
optional, the longest run of digits is converted and what follows is ignored.
`none` when it throws: `std::invalid_argument` without a digit,
`std::out_of_range` outside the range of `int`. -/
def stoi (str : Str) : Option Int :=
  let body := str.dropWhile isspace
  let negative := body.head? == some '-'
  let unsigned := if body.head? == some '-' || body.head? == some '+' then body.tail else body
  let digits := unsigned.takeWhile Char.isDigit
  let value : Int := if negative then -(digitsValue digits : Int) else (digitsValue digits : Int)
  if digits = [] then none
  else if value < -(2 ^ 31 : Int) ∨ value > (2 ^ 31 : Int) - 1 then none
  else some value

/-- The conversion of an `int` to `uint32_t`. -/
def uint32_t (n : Int) : Nat := (n % (2 ^ 32 : Int)).toNat

/-- One iteration of the loops of `Arduino::addCanMask` and
`Arduino::removeCanMask`, after the exchange; the branches for the two mask
types have the same text, and so have the two functions but for the
expected size. -/
def canMaskBody (P : Protocol) (returnSize : Nat) (mask : Str) (i : Nat) (states : List Str) :
    Option (Except Fault (IOStatus × Nat)) :=
  if states.length ≠ returnSize then
    failOrContinue P.IO_TRY_COUNT i (.OPERATION_FAILURE, 0)
  else
    match vat states P.CAN_MASK_RETURN_STATE with
    | .error e => some (.error e)
    | .ok echoed =>
      if mask ≠ echoed then failOrContinue P.IO_TRY_COUNT i (.OPERATION_FAILURE, 0)
      else
        match vat states P.CAN_MASK_OPERATION_RESULT with
        | .error e => some (.error e)
        | .ok code =>
          if code = P.OPERATION_FAILURE_STRING then
            failOrContinue P.IO_TRY_COUNT i (.OPERATION_FAILURE, 0)
          else
            match vat states P.CAN_MASK_RETURN_STATE with
            | .error _ => failOrContinue P.IO_TRY_COUNT i (.OPERATION_FAILURE, 0)
            | .ok state =>
              match stoi state with
              | none => failOrContinue P.IO_TRY_COUNT i (.OPERATION_FAILURE, 0)
              | some n => some (.ok (.OPERATION_SUCCESS, uint32_t n))

/-- The exchange of a mask operation with header `header`. -/
def canMaskExchange {σ : Type} (P : Protocol) (dev : Device σ) (delay : Nat)
    (header mask : Str) (s : TStream σ) : Except Fault (List Str) × TStream σ :=
  genericIOTask P dev s (header ++ [':'] ++ mask ++ [P.TERMINATING_CHARACTER]) header delay

/-- `Arduino::addCanMask`. A mask type that is neither `POSITIVE` nor
`NEGATIVE` returns before the loop. -/
def addCanMask {σ : Type} (P : Protocol) (dev : Device σ) (a : Arduino σ)
    (canMaskType : CanMaskType) (mask : Str) : Except Fault (IOStatus × Nat) × Arduino σ :=
  match canMaskType with
  | .ALL => (.ok (.OPERATION_FAILURE, 0), a)
  | .POSITIVE =>
    let r := tryLoop P.IO_TRY_COUNT
      (canMaskExchange P dev a.m_streamSendDelay P.ADD_POSITIVE_CAN_MASK_HEADER mask)
      (canMaskBody P P.ADD_CAN_MASK_RETURN_SIZE mask) (.OPERATION_FAILURE, 0)
      P.IO_TRY_COUNT 0 a.m_ioStream
    (r.1, { a with m_ioStream := r.2 })
  | .NEGATIVE =>
    let r := tryLoop P.IO_TRY_COUNT
      (canMaskExchange P dev a.m_streamSendDelay P.ADD_NEGATIVE_CAN_MASK_HEADER mask)
      (canMaskBody P P.ADD_CAN_MASK_RETURN_SIZE mask) (.OPERATION_FAILURE, 0)
      P.IO_TRY_COUNT 0 a.m_ioStream
    (r.1, { a with m_ioStream := r.2 })

/-- `Arduino::removeCanMask`. -/
def removeCanMask {σ : Type} (P : Protocol) (dev : Device σ) (a : Arduino σ)
    (canMaskType : CanMaskType) (mask : Str) : Except Fault (IOStatus × Nat) × Arduino σ :=
  match canMaskType with
  | .ALL => (.ok (.OPERATION_FAILURE, 0), a)
  | .POSITIVE =>
    let r := tryLoop P.IO_TRY_COUNT
      (canMaskExchange P dev a.m_streamSendDelay P.REMOVE_POSITIVE_CAN_MASK_HEADER mask)
      (canMaskBody P P.REMOVE_CAN_MASK_RETURN_SIZE mask) (.OPERATION_FAILURE, 0)
      P.IO_TRY_COUNT 0 a.m_ioStream
    (r.1, { a with m_ioStream := r.2 })
  | .NEGATIVE =>
    let r := tryLoop P.IO_TRY_COUNT
      (canMaskExchange P dev a.m_streamSendDelay P.REMOVE_NEGATIVE_CAN_MASK_HEADER mask)
      (canMaskBody P P.REMOVE_CAN_MASK_RETURN_SIZE mask) (.OPERATION_FAILURE, 0)
      P.IO_TRY_COUNT 0 a.m_ioStream
    (r.1, { a with m_ioStream := r.2 })

/-- One iteration of the loop of `Arduino::removeAllCanMasks`, after the
exchange; the three branches have the same text. -/
def removeAllCanMasksBody (P : Protocol) (i : Nat) (states : List Str) :
    Option (Except Fault (IOStatus × Bool)) :=
  if states.length ≠ 1 then failOrContinue P.IO_TRY_COUNT i (.OPERATION_FAILURE, false)
  else
    match vat states 0 with
    | .error e => some (.error e)
    | .ok code =>
      if code = P.OPERATION_FAILURE_STRING then
        failOrContinue P.IO_TRY_COUNT i (.OPERATION_FAILURE, false)
      else some (.ok (.OPERATION_SUCCESS, true))

/-- The header `removeAllCanMasks` uses for a mask type. -/
def clearAllHeader (P : Protocol) : CanMaskType → Str
  | .POSITIVE => P.CLEAR_ALL_POSITIVE_CAN_MASKS_HEADER
  | .NEGATIVE => P.CLEAR_ALL_NEGATIVE_CAN_MASKS_HEADER
  | .ALL => P.CLEAR_ALL_CAN_MASKS_HEADER

/-- The exchange `removeAllCanMasks` repeats. -/
def removeAllCanMasksExchange {σ : Type} (P : Protocol) (dev : Device σ) (delay : Nat)
    (canMaskType : CanMaskType) (s : TStream σ) : Except Fault (List Str) × TStream σ :=
  genericIOTask P dev s (clearAllHeader P canMaskType ++ [P.TERMINATING_CHARACTER])
    (clearAllHeader P canMaskType) delay

/-- `Arduino::removeAllCanMasks`. -/
def removeAllCanMasks {σ : Type} (P : Protocol) (dev : Device σ) (a : Arduino σ)
    (canMaskType : CanMaskType) : Except Fault (IOStatus × Bool) × Arduino σ :=
  let r := tryLoop P.IO_TRY_COUNT
    (removeAllCanMasksExchange P dev a.m_streamSendDelay canMaskType)
    (removeAllCanMasksBody P) (.OPERATION_FAILURE, false) P.IO_TRY_COUNT 0 a.m_ioStream
  (r.1, { a with m_ioStream := r.2 })

/-! ## Bulk reports -/

/-- `IOReport`: the four lists of (pin, state) pairs, in the order added. -/
structure IOReport where
  digitalInputResults : List (Int × Int)
  digitalOutputResults : List (Int × Int)
  analogInputResults : List (Int × Int)
  analogOutputResults : List (Int × Int)
  deriving DecidableEq, Repr

/-- `IOReport{}`. -/
def IOReport.empty : IOReport := ⟨[], [], [], []⟩

/-- The part of `genericIOReportTask` after the read. -/
def genericIOReportTaskParse (P : Protocol) (returnString header endHeader : Str) :
    Except Fault (List Str) :=
  let returnString :=
    if endsWith returnString P.LINE_ENDING then
      substrN returnString 0 (lengthMinusOne returnString)
    else .ok returnString
  match returnString with
  | .error e => .error e
  | .ok returnString =>
    if startsWith returnString header && endsWithStr returnString endHeader then
      match substr returnString (header.length + 1) with
      | .error e => .error e
      | .ok returnString =>
        match substrN returnString 0 (lengthMinusOne returnString) with
        | .error e => .error e
        | .ok returnString => .ok (P.parseToContainer returnString ';')
    else .ok []

/-- `Arduino::genericIOReportTask`. -/
def genericIOReportTask {σ : Type} (P : Protocol) (dev : Device σ) (s : TStream σ)
    (stringToSend header endHeader : Str) (delay : Nat) :
    Except Fault (List Str) × TStream σ :=
  let _ := delay
  let s := if !s.isOpen then s.openPort else s
  let s := s.writeLine dev stringToSend
  let r := pollLine dev P.LINE_ENDING dev.polls s
  (genericIOReportTaskParse P r.1 header endHeader, r.2)

/-- The pair `(decStringToInt(states.at(IO_PIN_NUMBER)), decStringToInt(states.at(IO_STATE)))`
of a record; neither call is inside a `try`. -/
def ioReportPair (P : Protocol) (states : List Str) : Except Fault (Int × Int) :=
  match vat states P.IO_PIN_NUMBER with
  | .error e => .error e
  | .ok pin =>
    match P.decStringToInt pin with
    | none => .error .helper_error
    | some p =>
      match vat states P.IO_STATE with
      | .error e => .error e
      | .ok state =>
        match P.decStringToInt state with
        | none => .error .helper_error
        | some v => .ok (p, v)

/-- The inner loop `for (auto &it : allStates)` of `Arduino::ioReportRequest`
in attempt `i`, followed by `return ioReport;`: a `break` leaves the inner
loop and the report built so far is returned. -/
def ioReportRecords (P : Protocol) (tryCount i : Nat) : List Str → IOReport → Except Fault IOReport
  | [], ioReport => .ok ioReport
  | it :: rest, ioReport =>
    let it := stripAllFromString (stripAllFromString it P.TERMINATING_CHARACTER) '\x7b'
    let states := P.parseToContainer it ':'
    let endCheck :=
      stripAllFromString (stripAllFromString P.IO_REPORT_END_HEADER '\x7b') P.TERMINATING_CHARACTER
    if (find it endCheck).isSome then ioReportRecords P tryCount i rest ioReport
    else if states.length ≠ P.IO_REPORT_RETURN_SIZE ∧ states.length ≠ 0 then
      if i + 1 = tryCount then .error (.runtime_error P.IO_REPORT_INVALID_DATA_STRING)
      else .ok ioReport
    else if states.length = 0 then ioReportRecords P tryCount i rest ioReport
    else
      match vat states P.IO_TYPE with
      | .error e => .error e
      | .ok t =>
        match P.parseIOTypeFromString t with
        | none => .error .helper_error
        | some ioType =>
          if ioType = .DIGITAL_INPUT ∨ ioType = .DIGITAL_INPUT_PULLUP then
            match ioReportPair P states with
            | .error e => .error e
            | .ok pr => ioReportRecords P tryCount i rest
                { ioReport with digitalInputResults := ioReport.digitalInputResults ++ [pr] }
          else if ioType = .DIGITAL_OUTPUT then
            match ioReportPair P states with
            | .error e => .error e
            | .ok pr => ioReportRecords P tryCount i rest
                { ioReport with digitalOutputResults := ioReport.digitalOutputResults ++ [pr] }
          else if ioType = .ANALOG_INPUT then
            match ioReportPair P states with
            | .error e => .error e
            | .ok pr => ioReportRecords P tryCount i rest
                { ioReport with analogInputResults := ioReport.analogInputResults ++ [pr] }
          else if ioType = .ANALOG_OUTPUT then
            match ioReportPair P states with
            | .error e => .error e
            | .ok pr => ioReportRecords P tryCount i rest
                { ioReport with analogOutputResults := ioReport.analogOutputResults ++ [pr] }
          else ioReportRecords P tryCount i rest ioReport

/-- The exchange `ioReportRequest` makes. -/
def ioReportExchange {σ : Type} (P : Protocol) (dev : Device σ) (s : TStream σ) :
    Except Fault (List Str) × TStream σ :=
  genericIOReportTask P dev s (P.IO_REPORT_HEADER ++ [P.LINE_ENDING]) P.IO_REPORT_HEADER
    (P.IO_REPORT_END_HEADER ++ [P.LINE_ENDING]) 100

/-- `Arduino::ioReportRequest`. Every path through the body of the outer
loop ends in `return` or `throw`. -/
def ioReportRequest {σ : Type} (P : Protocol) (dev : Device σ) (a : Arduino σ) :
    Except Fault IOReport × Arduino σ :=
  let r := tryLoop a.m_ioTryCount (ioReportExchange P dev)
    (fun i allStates => some (ioReportRecords P a.m_ioTryCount i allStates IOReport.empty))
    IOReport.empty a.m_ioTryCount 0 a.m_ioStream
  (r.1, { a with m_ioStream := r.2 })

/-- The loop `while (returnString.find("}{") != npos)` of
`Arduino::serialReportRequest`: the text up to and including the `}` is
emitted, the text from the `{` on is what remains. The first argument bounds
the number of iterations. -/
def splitLoop : Nat → Str → List Str → List Str
  | 0, _, stringsToPrint => stringsToPrint
  | fuel + 1, returnString, stringsToPrint =>
    match find returnString "\x7d\x7b".toList with
    | none => stringsToPrint
    | some pos =>
      splitLoop fuel (returnString.drop (pos + "\x7d\x7b".toList.length - 1))
        (stringsToPrint ++ [returnString.take (pos + 1)])

/-- The splitting step of `Arduino::serialReportRequest`: the vector
`stringsToPrint` computed from the accumulated `returnString`. -/
def stringsToPrint (returnString : Str) : List Str :=
  if (find returnString "\x7d\x7b".toList).isSome then splitLoop returnString.length returnString []
  else [returnString]

/-- The accumulation loop of `Arduino::serialReportRequest`,
`do { ... } while (timers && !endsWith(returnString, delimiter))`, where
`more` is the number of times the two timer conditions still hold. -/
def accumulate {σ : Type} (P : Protocol) (dev : Device σ) (delimiter : Str) :
    Nat → Str → TStream σ → Str × TStream σ
  | 0, returnString, s =>
    if (s.readLine dev).1 = [] ∨ P.isWhitespace (s.readLine dev).1 then
      (returnString, (s.readLine dev).2)
    else (returnString ++ (s.readLine dev).1, (s.readLine dev).2)
  | more + 1, returnString, s =>
    let returnString :=
      if (s.readLine dev).1 = [] ∨ P.isWhitespace (s.readLine dev).1 then returnString
      else returnString ++ (s.readLine dev).1
    if !endsWithStr returnString delimiter then
      accumulate P dev delimiter more returnString (s.readLine dev).2
    else (returnString, (s.readLine dev).2)

/-- `Arduino::serialReportRequest`; a `SerialReport` is the list of the
strings added to it. -/
def serialReportRequest {σ : Type} (P : Protocol) (dev : Device σ) (a : Arduino σ)
    (delimiter : Str) : List Str × Arduino σ :=
  let s := if !a.m_ioStream.isOpen then a.m_ioStream.openPort else a.m_ioStream
  if delimiter = [] then
    (stringsToPrint [], { a with m_ioStream := s })
  else
    let r := accumulate P dev delimiter dev.polls [] s
    (stringsToPrint r.1, { a with m_ioStream := r.2 })

/-! ## A concrete protocol and a concrete board, for evaluation -/

/-- The pieces of `s` between the delimiters `d`; the first argument is the
piece being read. -/
def pieces (d : Char) : Str → Str → List Str
  | cur, [] => [cur]
  | cur, c :: cs => if c = d then cur :: pieces d [] cs else pieces d (cur ++ [c]) cs

/-- A splitting function: the non-empty pieces between the delimiters
(`ioReportRequest` tests for a record that splits into no field at all). -/
def splitNonEmpty (s : Str) (d : Char) : List Str := (pieces d [] s).filter (· ≠ [])

/-- A decimal parser: an optional `-` and then digits only. -/
def parseDecimal (s : Str) : Option Int :=
  match s with
  | '-' :: ds => if ds ≠ [] ∧ ds.all Char.isDigit then some (-(digitsValue ds : Int)) else none
  | ds => if ds ≠ [] ∧ ds.all Char.isDigit then some (digitsValue ds : Int) else none

/-- A decoder of `id:byte:...:byte`, all fields decimal. -/
def parseCanFields (s : Str) : Option CanMessage :=
  match (pieces ':' [] s).map parseDecimal with
  | some id :: bytes =>
    if bytes.all Option.isSome then
      some { id := id.toNat, frame := 0, length := bytes.length,
             dataPacket := bytes.map (fun b => (b.getD 0).toNat) }
    else none
  | _ => none

/-- Modelled from the spec: values for the constants of `arduino.h`, which
is not among the sources. The frame is `<open-marker><HEADER>[:field]*<terminator>`
with `{` and `}`; the layouts are those of the table of typed operations
(`[pin, resultCode, state]`, `[id, 8 data bytes, resultCode]`, the
single-field blank marker, `[echoedMask, resultCode]`, `[resultCode, value]`);
the compile-time retry bound is the default try count of `arduino.cpp`. -/
def specProtocol : Protocol where
  LINE_ENDING := '\r'
  TERMINATING_CHARACTER := '\x7d'
  OPERATION_FAILURE_STRING := "-1".toList
  SERIAL_REPORT_REQUEST_TIME_LIMIT := 100
  IO_TRY_COUNT := 3
  ARDUINO_TYPE_HEADER := "\x7bardtype".toList
  FIRMWARE_VERSION_HEADER := "\x7bversion".toList
  CURRENT_A_TO_D_THRESHOLD_HEADER := "\x7batodthresh".toList
  PIN_TYPE_CHANGE_HEADER := "\x7bptchange".toList
  PIN_TYPE_HEADER := "\x7bptype".toList
  SOFT_DIGITAL_READ_HEADER := "\x7bsdread".toList
  ANALOG_READ_HEADER := "\x7baread".toList
  SOFT_ANALOG_READ_HEADER := "\x7bsaread".toList
  ANALOG_WRITE_HEADER := "\x7bawrite".toList
  CAN_EMPTY_READ_SUCCESS_STRING := "\x7bcanread:1\x7d".toList
  CAN_REPORT_INVALID_DATA_STRING := "invalid can report data".toList
  DEFAULT_IO_STREAM_SEND_DELAY := 10
  ARDUINO_TYPE_RETURN_SIZE := 2
  OPERATION_RESULT := 0
  RETURN_STATE := 1
  PIN_TYPE_RETURN_SIZE := 3
  DIGITAL_READ_HEADER := "\x7bdread".toList
  DIGITAL_WRITE_HEADER := "\x7bdwrite".toList
  DIGITAL_WRITE_ALL_HEADER := "\x7bdwriteall".toList
  CHANGE_A_TO_D_THRESHOLD_HEADER := "\x7batodchange".toList
  CAN_BUS_ENABLED_HEADER := "\x7bcanbus".toList
  IO_REPORT_HEADER := "\x7bioreport".toList
  IO_REPORT_END_HEADER := "\x7bioreportend\x7d".toList
  CAN_READ_HEADER := "\x7bcanread".toList
  CAN_WRITE_HEADER := "\x7bcanwrite".toList
  ADD_POSITIVE_CAN_MASK_HEADER := "\x7baddpcanmask".toList
  ADD_NEGATIVE_CAN_MASK_HEADER := "\x7baddncanmask".toList
  REMOVE_POSITIVE_CAN_MASK_HEADER := "\x7brempcanmask".toList
  REMOVE_NEGATIVE_CAN_MASK_HEADER := "\x7bremncanmask".toList
  CLEAR_ALL_POSITIVE_CAN_MASKS_HEADER := "\x7bclearpcanmasks".toList
  CLEAR_ALL_NEGATIVE_CAN_MASKS_HEADER := "\x7bclearncanmasks".toList
  CLEAR_ALL_CAN_MASKS_HEADER := "\x7bclearallcanmasks".toList
  IO_TRY_COUNT_TOO_LOW_STRING := "try count too low (".toList
  IO_REPORT_INVALID_DATA_STRING := "invalid io report data".toList
  IO_STATE_RETURN_SIZE := 3
  PIN_NUMBER := 0
  RETURN_CODE := 1
  STATE := 2
  DIGITAL_WRITE_ALL_MINIMIM_RETURN_SIZE := 2
  A_TO_D_THRESHOLD_RETURN_SIZE := 2
  AD_OPERATION_RESULT := 0
  AD_RETURN_STATE := 1
  CAN_BUS_ENABLED_RETURN_SIZE := 2
  CAN_OPERATION_RESULT := 0
  CAN_RETURN_STATE := 1
  IO_REPORT_RETURN_SIZE := 3
  IO_PIN_NUMBER := 0
  IO_TYPE := 1
  IO_STATE := 2
  CAN_READ_RETURN_SIZE := 10
  CAN_READ_BLANK_RETURN_SIZE := 1
  CAN_WRITE_RETURN_SIZE := 10
  MESSAGE_ID := 0
  BYTE_0 := 1
  CAN_IO_OPERATION_RESULT := 9
  ADD_CAN_MASK_RETURN_SIZE := 2
  REMOVE_CAN_MASK_RETURN_SIZE := 2
  CAN_MASK_RETURN_STATE := 0
  CAN_MASK_OPERATION_RESULT := 1
  parseToContainer := splitNonEmpty
  decStringToInt := parseDecimal
  isWhitespace := fun s => s.all isspace
  parseIOTypeFromString := fun s =>
    if s = "din".toList then some .DIGITAL_INPUT
    else if s = "dout".toList then some .DIGITAL_OUTPUT
    else if s = "ain".toList then some .ANALOG_INPUT
    else if s = "aout".toList then some .ANALOG_OUTPUT
    else if s = "dinpup".toList then some .DIGITAL_INPUT_PULLUP
    else none
  parseIOType := fun t =>
    match t with
    | .DIGITAL_INPUT => "din".toList
    | .DIGITAL_OUTPUT => "dout".toList
    | .ANALOG_INPUT => "ain".toList
    | .ANALOG_OUTPUT => "aout".toList
    | .DIGITAL_INPUT_PULLUP => "dinpup".toList
    | .UNSPECIFIED => "unspecified".toList
  parseCanMessage := parseCanFields
  canMessageToString := fun m =>
    Nat.toDigits 10 m.id ++ (m.dataPacket.map (fun b => ':' :: Nat.toDigits 10 b)).flatten

/-- A board that ignores what is written to it and answers the successive
reads with the lines of a script, and with nothing once the script is used
up; no further poll fits in the time-out. -/
def scripted : Device (List Str) where
  writeLine := fun w _ => w
  readUntil := fun w _ => (w.headD [], w.tail)
  readLine := fun w => (w.headD [], w.tail)
  polls := 0

/-- An I/O report of three records whose second record, `a:b`, has two
fields. The line ends in the end header and two line endings: one is
stripped, and the end of what is left is compared with
`IO_REPORT_END_HEADER + LINE_ENDING`. -/
def reportWithShortRecord : Str :=
  "\x7bioreport:\x7b1:din:0\x7d;\x7ba:b\x7d;\x7b2:dout:1\x7d\x7bioreportend\x7d\r\r".toList

/-- A `canRead` response of the full layout: message id 1, the data bytes
2 to 9, and the result code 1, which is not the failure sentinel. -/
def fullCanFrame : Str := "\x7bcanread:1:2:3:4:5:6:7:8:9:1\x7d".toList

/-- A well-formed digital-read response behind the analog-read header. -/
def otherHeaderFrame : Str := "\x7baread:7:1:1\x7d".toList

/-- A session on the scripted board with try count `n`: port open, nothing
written yet. -/
def session (n : Nat) (script : List Str) : Arduino (List Str) where
  m_ioStream := { wire := script, isOpen := true, timeout := 25, written := [] }
  m_streamSendDelay := 0
  m_ioTryCount := n

/-! ## Responses as `digitalRead` classifies them -/

/-- A predicate on field sequences, applied to what an exchange returned;
an exchange that threw satisfies none. -/
def answerIs (p : List Str → Bool) : Except Fault (List Str) → Bool
  | .ok states => p states
  | .error _ => false

/-- A protocol mismatch for `digitalRead(pinNumber)`: wrong field count, a
pin field different from the decimal pin number, a result field equal to the
failure sentinel, or a state field that is not a decimal integer. -/
def digitalReadMismatch (P : Protocol) (pinNumber : Int) (states : List Str) : Bool :=
  states.length != P.IO_STATE_RETURN_SIZE
    || states[P.PIN_NUMBER]? != some (to_string pinNumber)
    || states[P.RETURN_CODE]? == some P.OPERATION_FAILURE_STRING
    || ((states[P.STATE]?).bind P.decStringToInt).isNone

/-- A well-formed response to `digitalRead(pinNumber)`: expected field
count, matching pin echo, a result code that is not the failure sentinel, an
integer state. -/
def digitalReadWellFormed (P : Protocol) (pinNumber : Int) (states : List Str) : Bool :=
  states.length == P.IO_STATE_RETURN_SIZE
    && states[P.PIN_NUMBER]? == some (to_string pinNumber)
    && (states[P.RETURN_CODE]?).isSome
    && states[P.RETURN_CODE]? != some P.OPERATION_FAILURE_STRING
    && ((states[P.STATE]?).bind P.decStringToInt).isSome

/-- The value `digitalRead` computes from a response: whether its state
field is the integer one. -/
def digitalReadValue (P : Protocol) (states : List Str) : Bool :=
  (states[P.STATE]?).bind P.decStringToInt == some 1

/-! ## The response parser as the specification words it -/

/-- The lines that `n` successive `readUntil(c)` calls obtain from the wire. -/
def reads {σ : Type} (dev : Device σ) (c : Char) : Nat → σ → List Str
  | 0, _ => []
  | n + 1, w => (dev.readUntil w c).1 :: reads dev c n (dev.readUntil w c).2

/-- The first non-empty line of a list of lines, the empty string if there
is none. -/
def firstNonEmpty : List Str → Str
  | [] => []
  | l :: ls => if l ≠ [] then l else firstNonEmpty ls

/-- The function of the first non-empty line that the specification gives
for the field sequence: remove one trailing line-ending character if
present; if the rest starts with the expected header and ends with the
terminator character, drop its first (header length + 1) characters and its
final character and split the remainder on `:`; otherwise no field. -/
def parseResponse (P : Protocol) (line expectedHeader : Str) : List Str :=
  let rest := if [P.LINE_ENDING] <:+ line then line.dropLast else line
  if expectedHeader <+: rest ∧ [P.TERMINATING_CHARACTER] <:+ rest then
    P.parseToContainer ((rest.drop (expectedHeader.length + 1)).dropLast) ':'
  else []

/-- The header token of a response frame: the text before its first `:`. -/
def headerToken (line : Str) : Str := line.takeWhile (· != ':')

/-- The line that exchange number `k` (counted from zero) of `digitalRead`
reads from the port. -/
def digitalReadLine {σ : Type} (P : Protocol) (dev : Device σ) (a : Arduino σ)
    (pinNumber : Int) (k : Nat) : Str :=
  (genericIOTaskRead P dev
    (afterExchanges (digitalReadExchange P dev a.m_streamSendDelay pinNumber) k a.m_ioStream)
    (digitalReadRequest P pinNumber) a.m_streamSendDelay).1

/-- A protocol mismatch for `removeAllCanMasks`: a field count other than
one, or a single field equal to the failure sentinel. -/
def removeAllCanMasksMismatch (P : Protocol) (states : List Str) : Bool :=
  states.length != 1 || states[0]? == some P.OPERATION_FAILURE_STRING

/-- A response of exactly the full `canRead` layout: as many fields as
`CAN_READ_RETURN_SIZE`. -/
def canReadFullLayout (P : Protocol) (states : List Str) : Bool :=
  states.length == P.CAN_READ_RETURN_SIZE

/-! ## Further typed operations -/

/-- `std::to_string(state)` for a `bool`, which is promoted to `int`: `1` or `0`. -/
def to_string_bool (state : Bool) : Str := to_string (if state then 1 else 0)

/-- The request frame of `digitalWrite`. -/
def digitalWriteRequest (P : Protocol) (pinNumber : Int) (state : Bool) : Str :=
  P.DIGITAL_WRITE_HEADER ++ ":".toList ++ to_string pinNumber ++ ":".toList
    ++ to_string_bool state ++ [P.LINE_ENDING]

/-- The exchange `digitalWrite` repeats. -/
def digitalWriteExchange {σ : Type} (P : Protocol) (dev : Device σ) (delay : Nat)
    (pinNumber : Int) (state : Bool) (s : TStream σ) : Except Fault (List Str) × TStream σ :=
  genericIOTask P dev s (digitalWriteRequest P pinNumber state) P.DIGITAL_WRITE_HEADER delay

/-- `Arduino::digitalWrite`. The body of its loop has the text of the body
of the loop of `digitalRead`: size, pin echo, result code, and the value
`decStringToInt(states.at(STATE)) == 1`. -/
def digitalWrite {σ : Type} (P : Protocol) (dev : Device σ) (a : Arduino σ) (pinNumber : Int)
    (state : Bool) : Except Fault (IOStatus × Bool) × Arduino σ :=
  let r := tryLoop a.m_ioTryCount
    (digitalWriteExchange P dev a.m_streamSendDelay pinNumber state)
    (digitalReadBody P a.m_ioTryCount pinNumber) (.OPERATION_FAILURE, false)
    a.m_ioTryCount 0 a.m_ioStream
  (r.1, { a with m_ioStream := r.2 })

/-- The loop `for (auto &it : states) writtenPins.push_back(decStringToInt(it));`:
`none` when one of the conversions throws. -/
def pushPins (P : Protocol) : List Str → Option (List Int)
  | [] => some []
  | it :: rest =>
    match P.decStringToInt it with
    | none => none
    | some pin =>
      match pushPins P rest with
      | none => none
      | some pins => some (pin :: pins)

/-- The text `(state ? "1" : "0")` that `digitalWriteAll(state)` compares
the echoed state field with. -/
def expectedEcho (state : Bool) : Str := if state then "1".toList else "0".toList

/-- One iteration of the loop of `Arduino::digitalWriteAll`, after the
exchange. `*(states.end()-1)` of a vector that `pop_back` has emptied is
undefined. `std::sort` is the sorting into ascending order. -/
def digitalWriteAllBody (P : Protocol) (tryCount : Nat) (state : Bool) (i : Nat)
    (states : List Str) : Option (Except Fault (IOStatus × List Int)) :=
  if states.length = 0 then failOrContinue tryCount i (.OPERATION_FAILURE, [])
  else if states.length < P.DIGITAL_WRITE_ALL_MINIMIM_RETURN_SIZE then
    failOrContinue tryCount i (.OPERATION_FAILURE, [])
  else
    match states.getLast? with
    | none => some (.error .undefined_behaviour)
    | some code =>
      if code = P.OPERATION_FAILURE_STRING then failOrContinue tryCount i (.OPERATION_FAILURE, [])
      else
        -- states.pop_back();
        match states.dropLast.getLast? with
        | none => some (.error .undefined_behaviour)
        | some echoed =>
          if echoed ≠ expectedEcho state then
            failOrContinue tryCount i (.OPERATION_FAILURE, [])
          else
            -- states.pop_back(); try { ... } catch (std::exception &e) { ... }
            match pushPins P states.dropLast.dropLast with
            | none => failOrContinue tryCount i (.OPERATION_FAILURE, [])
            | some writtenPins =>
              some (.ok (.OPERATION_SUCCESS, writtenPins.insertionSort (· ≤ ·)))

/-- The request frame of `digitalWriteAll`. -/
def digitalWriteAllRequest (P : Protocol) (state : Bool) : Str :=
  P.DIGITAL_WRITE_ALL_HEADER ++ ":".toList ++ to_string_bool state ++ [P.LINE_ENDING]

/-- The exchange `digitalWriteAll` repeats. -/
def digitalWriteAllExchange {σ : Type} (P : Protocol) (dev : Device σ) (delay : Nat)
    (state : Bool) (s : TStream σ) : Except Fault (List Str) × TStream σ :=
  genericIOTask P dev s (digitalWriteAllRequest P state) P.DIGITAL_WRITE_ALL_HEADER delay

/-- `Arduino::digitalWriteAll`. -/
def digitalWriteAll {σ : Type} (P : Protocol) (dev : Device σ) (a : Arduino σ)
    (state : Bool) : Except Fault (IOStatus × List Int) × Arduino σ :=
  let r := tryLoop a.m_ioTryCount (digitalWriteAllExchange P dev a.m_streamSendDelay state)
    (digitalWriteAllBody P a.m_ioTryCount state) (.OPERATION_FAILURE, [])
    a.m_ioTryCount 0 a.m_ioStream
  (r.1, { a with m_ioStream := r.2 })

/-- One iteration of the loop of `Arduino::setAnalogToDigitalThreshold`,
after the exchange: size, echo of the threshold, result code, value. -/
def setAnalogToDigitalThresholdBody (P : Protocol) (tryCount : Nat) (threshold : Int) (i : Nat)
    (states : List Str) : Option (Except Fault (IOStatus × Int)) :=
  if states.length ≠ P.A_TO_D_THRESHOLD_RETURN_SIZE then
    failOrContinue tryCount i (.OPERATION_FAILURE, 0)
  else
    match vat states P.AD_RETURN_STATE with
    | .error e => some (.error e)
    | .ok echoed =>
      if to_string threshold ≠ echoed then failOrContinue tryCount i (.OPERATION_FAILURE, 0)
      else
        match vat states P.AD_OPERATION_RESULT with
        | .error e => some (.error e)
        | .ok code =>
          if code = P.OPERATION_FAILURE_STRING then
            failOrContinue tryCount i (.OPERATION_FAILURE, 0)
          else
            match vat states P.AD_RETURN_STATE with
            | .error _ => failOrContinue tryCount i (.OPERATION_FAILURE, 0)
            | .ok state =>
              match P.decStringToInt state with
              | none => failOrContinue tryCount i (.OPERATION_FAILURE, 0)
              | some n => some (.ok (.OPERATION_SUCCESS, n))

/-- The exchange `setAnalogToDigitalThreshold` repeats. -/
def setAnalogToDigitalThresholdExchange {σ : Type} (P : Protocol) (dev : Device σ)
    (delay : Nat) (threshold : Int) (s : TStream σ) : Except Fault (List Str) × TStream σ :=
  genericIOTask P dev s
    (P.CHANGE_A_TO_D_THRESHOLD_HEADER ++ ":".toList ++ to_string threshold ++ [P.LINE_ENDING])
    P.CHANGE_A_TO_D_THRESHOLD_HEADER delay

/-- `Arduino::setAnalogToDigitalThreshold`. -/
def setAnalogToDigitalThreshold {σ : Type} (P : Protocol) (dev : Device σ) (a : Arduino σ)
    (threshold : Int) : Except Fault (IOStatus × Int) × Arduino σ :=
  let r := tryLoop a.m_ioTryCount
    (setAnalogToDigitalThresholdExchange P dev a.m_streamSendDelay threshold)
    (setAnalogToDigitalThresholdBody P a.m_ioTryCount threshold) (.OPERATION_FAILURE, 0)
    a.m_ioTryCount 0 a.m_ioStream
  (r.1, { a with m_ioStream := r.2 })

/-! ## A board that keeps what is written to it -/

/-- The response `[pin, success code, state]` in the layout of `IOState`: the
expected number of fields, the pin echoed, a result code that is not the
failure sentinel, and the given state field. -/
def ioStateFields (P : Protocol) (pinNumber : Int) (state : Str) (states : List Str) : Bool :=
  states.length == P.IO_STATE_RETURN_SIZE
    && states[P.PIN_NUMBER]? == some (to_string pinNumber)
    && (states[P.RETURN_CODE]?).isSome
    && states[P.RETURN_CODE]? != some P.OPERATION_FAILURE_STRING
    && states[P.STATE]? == some state

/-- The state of the simulated firmware: the last state written per pin,
newest first, and the answer that has not been read yet. -/
structure Board where
  stored : List (Str × Str)
  pending : Str
  deriving DecidableEq, Repr

/-- The state the firmware holds for a pin, `0` for a pin never written. -/
def Board.lookup (w : Board) (pin : Str) : Str :=
  match w.stored.find? (fun e => e.1 == pin) with
  | some e => e.2
  | none => "0".toList

/-- A simulated firmware for the frames of `specProtocol`. A digital-write
frame `{dwrite:pin:state` stores the state for the pin and is answered with
`{dwrite:pin:1:state}`; a digital-read frame `{dread:pin` is answered with
`{dread:pin:1:stored}`; anything else gets no answer. A read delivers the
pending answer once. -/
def echoBoard : Device Board where
  writeLine := fun w line =>
    match pieces ':' [] (stripAllFromString line '\r') with
    | [header, pin, state] =>
      if header = "\x7bdwrite".toList then
        { stored := (pin, state) :: w.stored,
          pending := "\x7bdwrite:".toList ++ pin ++ ":1:".toList ++ state ++ "\x7d".toList }
      else { w with pending := [] }
    | [header, pin] =>
      if header = "\x7bdread".toList then
        { w with
          pending := "\x7bdread:".toList ++ pin ++ ":1:".toList ++ w.lookup pin ++ "\x7d".toList }
      else { w with pending := [] }
    | _ => { w with pending := [] }
  readUntil := fun w _ => (w.pending, { w with pending := [] })
  readLine := fun w => (w.pending, { w with pending := [] })
  polls := 0

/-- A session on the simulated firmware with try count `n`: port open,
nothing written, nothing stored. -/
def boardSession (n : Nat) : Arduino Board where
  m_ioStream := { wire := { stored := [], pending := [] }, isOpen := true, timeout := 25,
                  written := [] }
  m_streamSendDelay := 0
  m_ioTryCount := n

/-- The echoed state field of a response to `digitalWriteAll`, the last
field but one, differs from the one expected (or is not there). -/
def echoDiffers (state : Bool) (states : List Str) : Bool :=
  states.dropLast.getLast? != some (expectedEcho state)

/-- `ArduinoType` of `arduino.h`: the three boards `assignPinsAndIdentifiers`
knows. -/
inductive ArduinoType where
  | UNO
  | NANO
  | MEGA
  deriving DecidableEq, Repr

/-- `GPIO`: a pin number and its I/O mode, the arguments of
`std::make_shared<GPIO>(it, ioType)`. -/
structure GPIO where
  pinNumber : Int
  ioType : IOType
  deriving DecidableEq, Repr

/-- `ArduinoUno::s_availableAnalogPins`; a `std::set<int>` is the list of
its elements in ascending order, the order of iteration. -/
def ArduinoUno.s_availableAnalogPins : List Int := [14, 15, 16, 17, 18, 19]

/-- `ArduinoUno::s_availablePwmPins`. -/
def ArduinoUno.s_availablePwmPins : List Int := [3, 5, 6, 9, 10, 11]

/-- `ArduinoUno::s_availablePins`. -/
def ArduinoUno.s_availablePins : List Int :=
  [2, 3, 4, 5, 6, 7, 8, 9, 10, 11, 12, 13, 14, 15, 16, 17, 18, 19]

/-- `ArduinoUno::s_numberOfDigitalPins`. -/
def ArduinoUno.s_numberOfDigitalPins : Int := 13

/-- `ArduinoNano::s_availableAnalogPins`. -/
def ArduinoNano.s_availableAnalogPins : List Int := [14, 15, 16, 17, 18, 19, 20, 21]

/-- `ArduinoNano::s_availablePwmPins`. -/
def ArduinoNano.s_availablePwmPins : List Int := [3, 5, 6, 9, 10, 11]

/-- `ArduinoNano::s_availablePins`. -/
def ArduinoNano.s_availablePins : List Int :=
  [2, 3, 4, 5, 6, 7, 8, 9, 10, 11, 12, 13, 14, 15, 16, 17, 18, 19, 20, 21]

/-- `ArduinoNano::s_numberOfDigitalPins`. -/
def ArduinoNano.s_numberOfDigitalPins : Int := 13

/-- `ArduinoMega::s_availableAnalogPins`. -/
def ArduinoMega.s_availableAnalogPins : List Int :=
  [54, 55, 56, 57, 58, 59, 60, 61, 62, 63, 64, 65, 66, 67, 68, 69]

/-- `ArduinoMega::s_availablePwmPins`. -/
def ArduinoMega.s_availablePwmPins : List Int :=
  [2, 3, 4, 5, 6, 7, 8, 9, 10, 11, 12, 13, 44, 45, 46]

/-- `ArduinoMega::s_availablePins`. -/
def ArduinoMega.s_availablePins : List Int :=
  [2, 3, 4, 5, 6, 7, 8, 9, 10, 11, 12,
   13, 14, 15, 16, 17, 18, 19, 20, 21,
   22, 23, 24, 25, 26, 27, 28, 29, 30,
   31, 32, 33, 34, 35, 36, 37, 38, 39,
   40, 41, 42, 43, 44, 45, 46, 47, 48,
   49, 50, 51, 52, 53, 54, 55, 56, 57,
   58, 59, 60, 61, 62, 63, 64, 65, 66,
   67, 68, 69]

/-- `ArduinoMega::s_numberOfDigitalPins`. -/
def ArduinoMega.s_numberOfDigitalPins : Int := 53

/-- The members of `Arduino` that `assignPinsAndIdentifiers` assigns.
`m_gpioPins`, a `std::map<int, std::shared_ptr<GPIO>>`, is the list of its
entries in the order of the keys. -/
structure PinMembers where
  m_arduinoType : ArduinoType
  m_availablePins : List Int
  m_availablePwmPins : List Int
  m_availableAnalogPins : List Int
  m_numberOfDigitalPins : Int
  m_identifier : Str
  m_longName : Str
  m_gpioPins : List (Int × GPIO)
  deriving DecidableEq, Repr

/-- `Arduino::isValidAnalogInputPin`. -/
def isValidAnalogInputPin (m : PinMembers) (pinNumber : Int) : Bool :=
  m.m_availableAnalogPins.any (fun it => pinNumber == it)

/-- `std::map::emplace`: nothing happens when the key is there already,
otherwise the entry is put at the place of its key. -/
def mapEmplace (gpioPins : List (Int × GPIO)) (key : Int) (value : GPIO) :
    List (Int × GPIO) :=
  if gpioPins.any (fun e => e.1 == key) then gpioPins
  else List.orderedInsert (fun x y => x.1 ≤ y.1) (key, value) gpioPins

/-- `Arduino::assignPinsAndIdentifiers`, on the members as the constructor
leaves them: the type is set, the containers are empty. -/
def assignPinsAndIdentifiers (arduinoType : ArduinoType) : PinMembers :=
  let m : PinMembers :=
    match arduinoType with
    | .UNO =>
      { m_arduinoType := arduinoType
        m_availablePins := ArduinoUno.s_availablePins
        m_availablePwmPins := ArduinoUno.s_availablePwmPins
        m_availableAnalogPins := ArduinoUno.s_availableAnalogPins
        m_numberOfDigitalPins := ArduinoUno.s_numberOfDigitalPins
        m_identifier := "arduino_uno".toList
        m_longName := "Arduino Uno".toList
        m_gpioPins := [] }
    | .NANO =>
      { m_arduinoType := arduinoType
        m_availablePins := ArduinoNano.s_availablePins
        m_availablePwmPins := ArduinoNano.s_availablePwmPins
        m_availableAnalogPins := ArduinoNano.s_availableAnalogPins
        m_numberOfDigitalPins := ArduinoNano.s_numberOfDigitalPins
        m_identifier := "arduino_nano".toList
        m_longName := "Arduino Nano".toList
        m_gpioPins := [] }
    | .MEGA =>
      { m_arduinoType := arduinoType
        m_availablePins := ArduinoMega.s_availablePins
        m_availablePwmPins := ArduinoMega.s_availablePwmPins
        m_availableAnalogPins := ArduinoMega.s_availableAnalogPins
        m_numberOfDigitalPins := ArduinoMega.s_numberOfDigitalPins
        m_identifier := "arduino_mega".toList
        m_longName := "Arduino Mega".toList
        m_gpioPins := [] }
  { m with
    m_gpioPins := m.m_availablePins.foldl
      (fun gpioPins it =>
        if isValidAnalogInputPin m it then mapEmplace gpioPins it ⟨it, .ANALOG_INPUT⟩
        else mapEmplace gpioPins it ⟨it, .DIGITAL_INPUT_PULLUP⟩)
      m.m_gpioPins }

/-- The pin catalogue of a board: its `s_availablePins`. -/
def pinCatalog : ArduinoType → List Int
  | .UNO => ArduinoUno.s_availablePins
  | .NANO => ArduinoNano.s_availablePins
  | .MEGA => ArduinoMega.s_availablePins

/-- The analog pin set of a board: its `s_availableAnalogPins`. -/
def analogPinSet : ArduinoType → List Int
  | .UNO => ArduinoUno.s_availableAnalogPins
  | .NANO => ArduinoNano.s_availableAnalogPins
  | .MEGA => ArduinoMega.s_availableAnalogPins

/-! ## The remaining typed operations -/

/-- The type `double` and the helpers on it that `arduino.cpp` calls and
does not define. -/
structure Doubles where
  Double : Type
  /-- The literal `0.00`. -/
  zero : Double
  /-- The conversion of an `int` to `double`. -/
  ofInt : Int → Double
  /-- `Arduino::analogToVoltage`. -/
  analogToVoltage : Int → Double
  /-- `Arduino::voltageToAnalog`. -/
  voltageToAnalog : Double → Int
  /-- `std::to_string(double)`. -/
  to_string : Double → Str
  /-- `GeneralUtilities::decStringToDouble`; `none` when it throws. -/
  decStringToDouble : Str → Option Double

/-- One iteration of the loop that `pinMode`, `currentPinMode`, `softDigitalRead`,
`analogRead`, `analogReadRaw`, `softAnalogRead`, `softAnalogReadRaw`, `analogWrite`
and `analogWriteRaw` share word for word, after the exchange: the size test
against `returnSize`, the pin echo test, the result code test, and inside
`try` the conversion `convert` of the state field. `failure` is the value
paired with `OPERATION_FAILURE`. -/
def ioStateBody {R : Type} (P : Protocol) (returnSize : Nat) (convert : Str → Option R)
    (failure : R) (tryCount : Nat) (pinNumber : Int) (i : Nat) (states : List Str) :
    Option (Except Fault (IOStatus × R)) :=
  if states.length ≠ returnSize then
    failOrContinue tryCount i (.OPERATION_FAILURE, failure)
  else
    match vat states P.PIN_NUMBER with
    | .error e => some (.error e)
    | .ok pin =>
      if to_string pinNumber ≠ pin then
        failOrContinue tryCount i (.OPERATION_FAILURE, failure)
      else
        match vat states P.RETURN_CODE with
        | .error e => some (.error e)
        | .ok code =>
          if code = P.OPERATION_FAILURE_STRING then
            failOrContinue tryCount i (.OPERATION_FAILURE, failure)
          else
            -- try { ... } catch (std::exception &e) { ... }
            match vat states P.STATE with
            | .error _ => failOrContinue tryCount i (.OPERATION_FAILURE, failure)
            | .ok state =>
              match convert state with
              | none => failOrContinue tryCount i (.OPERATION_FAILURE, failure)
              | some v => some (.ok (.OPERATION_SUCCESS, v))

/-- The loop of those operations: `m_ioTryCount` attempts, each one exchange
of `stringToSend` under `header` followed by `ioStateBody`. -/
def ioStateOperation {σ R : Type} (P : Protocol) (dev : Device σ) (a : Arduino σ)
    (stringToSend header : Str) (returnSize : Nat) (convert : Str → Option R) (failure : R)
    (pinNumber : Int) : Except Fault (IOStatus × R) × Arduino σ :=
  let r := tryLoop a.m_ioTryCount
    (fun s => genericIOTask P dev s stringToSend header a.m_streamSendDelay)
    (ioStateBody P returnSize convert failure a.m_ioTryCount pinNumber)
    (.OPERATION_FAILURE, failure) a.m_ioTryCount 0 a.m_ioStream
  (r.1, { a with m_ioStream := r.2 })

/-- The request frame `header + ":" + std::to_string(pinNumber) + LINE_ENDING`. -/
def pinRequest (P : Protocol) (header : Str) (pinNumber : Int) : Str :=
  header ++ ":".toList ++ to_string pinNumber ++ [P.LINE_ENDING]

/-- `Arduino::pinMode`. -/
def pinMode {σ : Type} (P : Protocol) (dev : Device σ) (a : Arduino σ) (pinNumber : Int)
    (ioType : IOType) : Except Fault (IOStatus × IOType) × Arduino σ :=
  ioStateOperation P dev a
    (P.PIN_TYPE_CHANGE_HEADER ++ ":".toList ++ to_string pinNumber ++ ":".toList
      ++ P.parseIOType ioType ++ [P.LINE_ENDING])
    P.PIN_TYPE_CHANGE_HEADER P.IO_STATE_RETURN_SIZE P.parseIOTypeFromString .UNSPECIFIED pinNumber

/-- `Arduino::currentPinMode`. -/
def currentPinMode {σ : Type} (P : Protocol) (dev : Device σ) (a : Arduino σ)
    (pinNumber : Int) : Except Fault (IOStatus × IOType) × Arduino σ :=
  ioStateOperation P dev a (pinRequest P P.PIN_TYPE_HEADER pinNumber)
    P.PIN_TYPE_HEADER P.PIN_TYPE_RETURN_SIZE P.parseIOTypeFromString .UNSPECIFIED pinNumber

/-- The conversion of an `int` to `bool`. -/
def intToBool (n : Int) : Bool := n != 0

/-- `Arduino::softDigitalRead`. The pairs are built from `int`s (`0` on
failure, `decStringToInt(...)` on success) and returned as
`std::pair<IOStatus, bool>`. -/
def softDigitalRead {σ : Type} (P : Protocol) (dev : Device σ) (a : Arduino σ)
    (pinNumber : Int) : Except Fault (IOStatus × Bool) × Arduino σ :=
  ioStateOperation P dev a (pinRequest P P.SOFT_DIGITAL_READ_HEADER pinNumber)
    P.SOFT_DIGITAL_READ_HEADER P.IO_STATE_RETURN_SIZE
    (fun state => (P.decStringToInt state).map intToBool) (intToBool 0) pinNumber

/-- `Arduino::analogRead`. -/
def analogRead {σ : Type} (P : Protocol) (D : Doubles) (dev : Device σ) (a : Arduino σ)
    (pinNumber : Int) : Except Fault (IOStatus × D.Double) × Arduino σ :=
  ioStateOperation P dev a (pinRequest P P.ANALOG_READ_HEADER pinNumber)
    P.ANALOG_READ_HEADER P.IO_STATE_RETURN_SIZE
    (fun state => (P.decStringToInt state).map D.analogToVoltage) D.zero pinNumber

/-- `Arduino::analogReadRaw`. -/
def analogReadRaw {σ : Type} (P : Protocol) (dev : Device σ) (a : Arduino σ)
    (pinNumber : Int) : Except Fault (IOStatus × Int) × Arduino σ :=
  ioStateOperation P dev a (pinRequest P P.ANALOG_READ_HEADER pinNumber)
    P.ANALOG_READ_HEADER P.IO_STATE_RETURN_SIZE P.decStringToInt 0 pinNumber

/-- `Arduino::softAnalogRead`. -/
def softAnalogRead {σ : Type} (P : Protocol) (D : Doubles) (dev : Device σ) (a : Arduino σ)
    (pinNumber : Int) : Except Fault (IOStatus × D.Double) × Arduino σ :=
  ioStateOperation P dev a (pinRequest P P.SOFT_ANALOG_READ_HEADER pinNumber)
    P.SOFT_ANALOG_READ_HEADER P.IO_STATE_RETURN_SIZE
    (fun state => (P.decStringToInt state).map D.analogToVoltage) D.zero pinNumber

/-- `Arduino::softAnalogReadRaw`. -/
def softAnalogReadRaw {σ : Type} (P : Protocol) (dev : Device σ) (a : Arduino σ)
    (pinNumber : Int) : Except Fault (IOStatus × Int) × Arduino σ :=
  ioStateOperation P dev a (pinRequest P P.SOFT_ANALOG_READ_HEADER pinNumber)
    P.SOFT_ANALOG_READ_HEADER P.IO_STATE_RETURN_SIZE P.decStringToInt 0 pinNumber

/-- The request frame of `analogWrite`:
`ANALOG_WRITE_HEADER + ":" + std::to_string(voltageToAnalog(pinNumber)) + ":"
 + std::to_string(state) + LINE_ENDING`. The pin number, an `int`, is converted
to `double` for `voltageToAnalog`. -/
def analogWriteRequest (P : Protocol) (D : Doubles) (pinNumber : Int) (state : D.Double) : Str :=
  P.ANALOG_WRITE_HEADER ++ ":".toList ++ to_string (D.voltageToAnalog (D.ofInt pinNumber))
    ++ ":".toList ++ D.to_string state ++ [P.LINE_ENDING]

/-- `Arduino::analogWrite`. -/
def analogWrite {σ : Type} (P : Protocol) (D : Doubles) (dev : Device σ) (a : Arduino σ)
    (pinNumber : Int) (state : D.Double) : Except Fault (IOStatus × D.Double) × Arduino σ :=
  ioStateOperation P dev a (analogWriteRequest P D pinNumber state)
    P.ANALOG_WRITE_HEADER P.IO_STATE_RETURN_SIZE D.decStringToDouble D.zero pinNumber

/-- The request frame of `analogWriteRaw`. -/
def analogWriteRawRequest (P : Protocol) (pinNumber state : Int) : Str :=
  P.ANALOG_WRITE_HEADER ++ ":".toList ++ to_string pinNumber ++ ":".toList ++ to_string state
    ++ [P.LINE_ENDING]

/-- `Arduino::analogWriteRaw`. -/
def analogWriteRaw {σ : Type} (P : Protocol) (dev : Device σ) (a : Arduino σ)
    (pinNumber state : Int) : Except Fault (IOStatus × Int) × Arduino σ :=
  ioStateOperation P dev a (analogWriteRawRequest P pinNumber state)
    P.ANALOG_WRITE_HEADER P.IO_STATE_RETURN_SIZE P.decStringToInt 0 pinNumber

/-- One iteration of the loop of `Arduino::arduinoTypeString` and of
`Arduino::firmwareVersion`, after the exchange. -/
def arduinoTypeBody (P : Protocol) (tryCount : Nat) (i : Nat) (states : List Str) :
    Option (Except Fault (IOStatus × Str)) :=
  if states.length ≠ P.ARDUINO_TYPE_RETURN_SIZE then
    failOrContinue tryCount i (.OPERATION_FAILURE, [])
  else
    match vat states P.OPERATION_RESULT with
    | .error e => some (.error e)
    | .ok code =>
      if code = P.OPERATION_FAILURE_STRING then
        failOrContinue tryCount i (.OPERATION_FAILURE, [])
      else
        match vat states P.RETURN_STATE with
        | .error e => some (.error e)
        | .ok value => some (.ok (.OPERATION_SUCCESS, value))

/-- `Arduino::arduinoTypeString`. -/
def arduinoTypeString {σ : Type} (P : Protocol) (dev : Device σ) (a : Arduino σ) :
    Except Fault (IOStatus × Str) × Arduino σ :=
  let r := tryLoop a.m_ioTryCount
    (fun s => genericIOTask P dev s (P.ARDUINO_TYPE_HEADER ++ [P.LINE_ENDING])
      P.ARDUINO_TYPE_HEADER a.m_streamSendDelay)
    (arduinoTypeBody P a.m_ioTryCount) (.OPERATION_FAILURE, []) a.m_ioTryCount 0 a.m_ioStream
  (r.1, { a with m_ioStream := r.2 })

/-- `Arduino::firmwareVersion`. -/
def firmwareVersion {σ : Type} (P : Protocol) (dev : Device σ) (a : Arduino σ) :
    Except Fault (IOStatus × Str) × Arduino σ :=
  let r := tryLoop a.m_ioTryCount
    (fun s => genericIOTask P dev s (P.FIRMWARE_VERSION_HEADER ++ [P.LINE_ENDING])
      P.FIRMWARE_VERSION_HEADER a.m_streamSendDelay)
    (arduinoTypeBody P a.m_ioTryCount) (.OPERATION_FAILURE, []) a.m_ioTryCount 0 a.m_ioStream
  (r.1, { a with m_ioStream := r.2 })

/-- One iteration of the loop of `Arduino::analogToDigitalThreshold`, after
the exchange. -/
def analogToDigitalThresholdBody (P : Protocol) (tryCount : Nat) (i : Nat)
    (states : List Str) : Option (Except Fault (IOStatus × Int)) :=
  if states.length ≠ P.A_TO_D_THRESHOLD_RETURN_SIZE then
    failOrContinue tryCount i (.OPERATION_FAILURE, 0)
  else
    match vat states P.AD_OPERATION_RESULT with
    | .error e => some (.error e)
    | .ok code =>
      if code = P.OPERATION_FAILURE_STRING then
        failOrContinue tryCount i (.OPERATION_FAILURE, 0)
      else
        -- try { ... } catch (std::exception &e) { ... }
        match vat states P.AD_RETURN_STATE with
        | .error _ => failOrContinue tryCount i (.OPERATION_FAILURE, 0)
        | .ok state =>
          match P.decStringToInt state with
          | none => failOrContinue tryCount i (.OPERATION_FAILURE, 0)
          | some n => some (.ok (.OPERATION_SUCCESS, n))

/-- `Arduino::analogToDigitalThreshold`. -/
def analogToDigitalThreshold {σ : Type} (P : Protocol) (dev : Device σ) (a : Arduino σ) :
    Except Fault (IOStatus × Int) × Arduino σ :=
  let r := tryLoop a.m_ioTryCount
    (fun s => genericIOTask P dev s (P.CURRENT_A_TO_D_THRESHOLD_HEADER ++ [P.LINE_ENDING])
      P.CURRENT_A_TO_D_THRESHOLD_HEADER a.m_streamSendDelay)
    (analogToDigitalThresholdBody P a.m_ioTryCount) (.OPERATION_FAILURE, 0)
    a.m_ioTryCount 0 a.m_ioStream
  (r.1, { a with m_ioStream := r.2 })

/-! ## Listening on the CAN bus -/

/-- The first statement of an attempt of `canListen` after its read: a line
that contains `CAN_EMPTY_READ_SUCCESS_STRING` somewhere and is more than ten
characters longer than it loses its first
`CAN_EMPTY_READ_SUCCESS_STRING.length()` characters. -/
def canListenCut (P : Protocol) (returnString : Str) : Str :=
  if (find returnString P.CAN_EMPTY_READ_SUCCESS_STRING).isSome ∧
      returnString.length > P.CAN_EMPTY_READ_SUCCESS_STRING.length + 10 then
    returnString.drop P.CAN_EMPTY_READ_SUCCESS_STRING.length
  else returnString

/-- The branch `if (canRead)` of `canListen`, on the fields of the line. -/
def canListenRead (P : Protocol) (i : Nat) (states : List Str) :
    Option (Except Fault (IOStatus × CanMessage)) :=
  if states.length ≠ P.CAN_READ_RETURN_SIZE ∧ states.length ≠ P.CAN_READ_BLANK_RETURN_SIZE then
    failOrContinue P.IO_TRY_COUNT i (.OPERATION_FAILURE, emptyMessage)
  else if states.length = P.CAN_READ_BLANK_RETURN_SIZE then
    match vat states 0 with
    | .error e => some (.error e)
    | .ok code =>
      if code = P.OPERATION_FAILURE_STRING then
        failOrContinue P.IO_TRY_COUNT i (.OPERATION_FAILURE, emptyMessage)
      else some (.ok (.OPERATION_SUCCESS, emptyMessage))
  else
    match vat states P.CAN_IO_OPERATION_RESULT with
    | .error e => some (.error e)
    | .ok code =>
      if code = P.OPERATION_FAILURE_STRING then
        failOrContinue P.IO_TRY_COUNT i (.OPERATION_FAILURE, emptyMessage)
      else
        match vat states P.MESSAGE_ID with
        | .error e => some (.error e)
        | .ok id => decodeCan P (appendBytes states (bytePositions P) id)

/-- The branch `else` of `if (canRead)` in `canListen`, on the fields of the
line. -/
def canListenWrite (P : Protocol) (i : Nat) (states : List Str) :
    Option (Except Fault (IOStatus × CanMessage)) :=
  if states.length ≠ P.CAN_WRITE_RETURN_SIZE then
    failOrContinue P.IO_TRY_COUNT i (.OPERATION_FAILURE, emptyMessage)
  else
    match vat states P.CAN_IO_OPERATION_RESULT with
    | .error e => some (.error e)
    | .ok code =>
      if code = P.OPERATION_FAILURE_STRING then
        failOrContinue P.IO_TRY_COUNT i (.OPERATION_FAILURE, emptyMessage)
      else
        match vat states P.MESSAGE_ID with
        | .error e => some (.error e)
        | .ok id => decodeCan P (appendBytes states (bytePositions P) id)

/-- The count `returnString->find(TERMINATING_CHARACTER) + 1` in `size_t`
arithmetic: `npos + 1` wraps to `0`. -/
def findPlusOne (returnString : Str) (c : Char) : Nat :=
  match find returnString [c] with
  | none => 0
  | some pos => pos + 1

/-- One iteration of the loop of `Arduino::canListen`, after the read of
`returnString`. -/
def canListenBody (P : Protocol) (i : Nat) (returnString : Str) :
    Option (Except Fault (IOStatus × CanMessage)) :=
  let returnString := canListenCut P returnString
  if startsWith returnString P.CAN_READ_HEADER
      && endsWith returnString P.TERMINATING_CHARACTER then
    match substr returnString (P.CAN_READ_HEADER.length + 1) with
    | .error e => some (.error e)
    | .ok returnString =>
      match substrN returnString 0 (lengthMinusOne returnString) with
      | .error e => some (.error e)
      | .ok returnString => canListenRead P i (P.parseToContainer returnString ':')
  else if startsWith returnString P.CAN_WRITE_HEADER
      && endsWith returnString P.TERMINATING_CHARACTER then
    match substr returnString (P.CAN_WRITE_HEADER.length + 1) with
    | .error e => some (.error e)
    | .ok returnString =>
      match substrN returnString 0 (findPlusOne returnString P.TERMINATING_CHARACTER) with
      | .error e => some (.error e)
      | .ok returnString => canListenWrite P i (P.parseToContainer returnString ':')
  else failOrContinue P.IO_TRY_COUNT i (.OPERATION_FAILURE, emptyMessage)

/-- The read `canListen` repeats: one `readUntil(TERMINATING_CHARACTER)`.
The line is handed to the loop as a sequence of one string. -/
def canListenExchange {σ : Type} (P : Protocol) (dev : Device σ) (s : TStream σ) :
    Except Fault (List Str) × TStream σ :=
  (.ok [(s.readUntil dev P.TERMINATING_CHARACTER).1],
    (s.readUntil dev P.TERMINATING_CHARACTER).2)

/-- `Arduino::canListen`: the request is written once, before the loop; the
loop is bounded by `IO_TRY_COUNT` and each iteration reads one line. The
argument `delay` is not used. -/
def canListen {σ : Type} (P : Protocol) (dev : Device σ) (a : Arduino σ) (delay : Nat) :
    Except Fault (IOStatus × CanMessage) × Arduino σ :=
  let _ := delay
  let stringToSend := P.CAN_READ_HEADER ++ [P.TERMINATING_CHARACTER]
  let s := a.m_ioStream.writeLine dev stringToSend
  let r := tryLoop P.IO_TRY_COUNT (canListenExchange P dev)
    (fun i line => canListenBody P i (line.headD []))
    (.OPERATION_FAILURE, emptyMessage) P.IO_TRY_COUNT 0 s
  (r.1, { a with m_ioStream := r.2 })

/-- The loop of `Arduino::canReportRequest`; a `CanReport` is the sequence of
the messages added to it. -/
def canReportLoop {σ : Type} (P : Protocol) (dev : Device σ) :
    Nat → Nat → Arduino σ → Except Fault (List CanMessage) × Arduino σ
  | 0, _, a => (.ok [], a)
  | left + 1, i, a =>
    if i < P.IO_TRY_COUNT then
      match (canListen P dev a P.DEFAULT_IO_STREAM_SEND_DELAY).1 with
      | .error e => (.error e, (canListen P dev a P.DEFAULT_IO_STREAM_SEND_DELAY).2)
      | .ok result =>
        if result.1 = .OPERATION_FAILURE then
          if i + 1 = P.IO_TRY_COUNT then
            (.error (.runtime_error P.CAN_REPORT_INVALID_DATA_STRING),
              (canListen P dev a P.DEFAULT_IO_STREAM_SEND_DELAY).2)
          else canReportLoop P dev left (i + 1) (canListen P dev a P.DEFAULT_IO_STREAM_SEND_DELAY).2
        else (.ok [result.2], (canListen P dev a P.DEFAULT_IO_STREAM_SEND_DELAY).2)
    else (.ok [], a)

/-- `Arduino::canReportRequest`. -/
def canReportRequest {σ : Type} (P : Protocol) (dev : Device σ) (a : Arduino σ) :
    Except Fault (List CanMessage) × Arduino σ :=
  canReportLoop P dev P.IO_TRY_COUNT 0 a

/-! ## The session -/

/-- `DEFAULT_IO_TRY_COUNT` of `arduino.cpp`. -/
def DEFAULT_IO_TRY_COUNT : Nat := 3

/-- The constructor `Arduino::Arduino(arduinoType, tStream)`: the member
initialisers, the opening of a closed port, and the pin catalogue of
`assignPinsAndIdentifiers`. -/
def construct {σ : Type} (P : Protocol) (arduinoType : ArduinoType) (tStream : TStream σ) :
    Arduino σ × PinMembers :=
  let a : Arduino σ :=
    { m_ioStream := tStream
      m_streamSendDelay := P.DEFAULT_IO_STREAM_SEND_DELAY
      m_ioTryCount := DEFAULT_IO_TRY_COUNT }
  let a := if !a.m_ioStream.isOpen then
    { a with
      m_ioStream := a.m_ioStream.openPort }
    else a
  (a, assignPinsAndIdentifiers arduinoType)

/-- A call of a public member function that is not `const`, with its
arguments. -/
inductive Call (D : Doubles) where
  | setStreamSendDelay (streamSendDelay : Nat)
  | setIOTryCount (ioTryCount : Nat)
  | arduinoTypeString
  | firmwareVersion
  | canCapability
  | analogToDigitalThreshold
  | ioReportRequest
  | serialReportRequest (delimiter : Str)
  | setAnalogToDigitalThreshold (threshold : Int)
  | pinMode (pinNumber : Int) (ioType : IOType)
  | currentPinMode (pinNumber : Int)
  | digitalRead (pinNumber : Int)
  | digitalWrite (pinNumber : Int) (state : Bool)
  | digitalWriteAll (state : Bool)
  | softDigitalRead (pinNumber : Int)
  | analogRead (pinNumber : Int)
  | analogReadRaw (pinNumber : Int)
  | softAnalogRead (pinNumber : Int)
  | softAnalogReadRaw (pinNumber : Int)
  | analogWrite (pinNumber : Int) (state : D.Double)
  | analogWriteRaw (pinNumber : Int) (state : Int)
  | canRead
  | canWrite (message : CanMessage)
  | canReportRequest
  | canListen (delay : Nat)
  | addCanMask (canMaskType : CanMaskType) (mask : Str)
  | removeCanMask (canMaskType : CanMaskType) (mask : Str)
  | removeAllCanMasks (canMaskType : CanMaskType)

/-- The session object after a call, whatever the call returned or threw. -/
def runCall {σ : Type} (P : Protocol) (D : Doubles) (dev : Device σ) (a : Arduino σ) :
    Call D → Arduino σ
  | .setStreamSendDelay streamSendDelay => setStreamSendDelay a streamSendDelay
  | .setIOTryCount ioTryCount => (setIOTryCount P a ioTryCount).2
  | .arduinoTypeString => (arduinoTypeString P dev a).2
  | .firmwareVersion => (firmwareVersion P dev a).2
  | .canCapability => (canCapability P dev a).2
  | .analogToDigitalThreshold => (analogToDigitalThreshold P dev a).2
  | .ioReportRequest => (ioReportRequest P dev a).2
  | .serialReportRequest delimiter => (serialReportRequest P dev a delimiter).2
  | .setAnalogToDigitalThreshold threshold =>
    (setAnalogToDigitalThreshold P dev a threshold).2
  | .pinMode pinNumber ioType => (pinMode P dev a pinNumber ioType).2
  | .currentPinMode pinNumber => (currentPinMode P dev a pinNumber).2
  | .digitalRead pinNumber => (digitalRead P dev a pinNumber).2
  | .digitalWrite pinNumber state => (digitalWrite P dev a pinNumber state).2
  | .digitalWriteAll state => (digitalWriteAll P dev a state).2
  | .softDigitalRead pinNumber => (softDigitalRead P dev a pinNumber).2
  | .analogRead pinNumber => (analogRead P D dev a pinNumber).2
  | .analogReadRaw pinNumber => (analogReadRaw P dev a pinNumber).2
  | .softAnalogRead pinNumber => (softAnalogRead P D dev a pinNumber).2
  | .softAnalogReadRaw pinNumber => (softAnalogReadRaw P dev a pinNumber).2
  | .analogWrite pinNumber state => (analogWrite P D dev a pinNumber state).2
  | .analogWriteRaw pinNumber state => (analogWriteRaw P dev a pinNumber state).2
  | .canRead => (canRead P dev a).2
  | .canWrite message => (canWrite P dev a message).2
  | .canReportRequest => (canReportRequest P dev a).2
  | .canListen delay => (canListen P dev a delay).2
  | .addCanMask canMaskType mask => (addCanMask P dev a canMaskType mask).2
  | .removeCanMask canMaskType mask => (removeCanMask P dev a canMaskType mask).2
  | .removeAllCanMasks canMaskType => (removeAllCanMasks P dev a canMaskType).2

/-- The session object after a sequence of calls on it. -/
def session_after {σ : Type} (P : Protocol) (D : Doubles) (dev : Device σ) (a : Arduino σ)
    (calls : List (Call D)) : Arduino σ :=
  calls.foldl (runCall P D dev) a

/-! ## The splitting step of `serialReportRequest` -/

/-- The value of `returnString` when the splitting loop stops, after at most
`fuel` iterations. -/
def splitRest : Nat → Str → Str
  | 0, returnString => returnString
  | fuel + 1, returnString =>
    match find returnString "\x7d\x7b".toList with
    | none => returnString
    | some pos => splitRest fuel (returnString.drop (pos + "\x7d\x7b".toList.length - 1))

/-- The number of positions of `s` at which `pat` occurs. -/
def occurrences (pat : Str) : Str → Nat
  | [] => 0
  | c :: cs => (if pat.isPrefixOf (c :: cs) then 1 else 0) + occurrences pat cs

/-! ## Concrete values for the helpers on `double` -/

/-- The `%f` rendering of a number of millionths: sign, integral part, a
point, six decimal places. -/
def fixedSix (v : Int) : Str :=
  (if v < 0 then "-".toList else []) ++ Nat.toDigits 10 (v.natAbs / 1000000) ++ ".".toList
    ++ List.leftpad 6 '0' (Nat.toDigits 10 (v.natAbs % 1000000))

/-- A parser of decimals with at most six decimal places, to millionths. -/
def parseFixedSix (s : Str) : Option Int :=
  let whole := s.takeWhile (· != '.')
  let places := (s.dropWhile (· != '.')).drop 1
  match parseDecimal whole with
  | none => none
  | some n =>
    if places.all Char.isDigit ∧ places.length ≤ 6 then
      let fraction : Int := digitsValue places * 10 ^ (6 - places.length)
      some (if whole.head? = some '-' then n * 1000000 - fraction else n * 1000000 + fraction)
    else none

/-- Modelled from the spec: the helpers on `double` that `arduino.h`
declares, with a `double` taken as a whole number of millionths, the six
decimal places `std::to_string` prints. The conversion to voltage is
"`voltage = raw / 1023 * 5.0`" with the constants `ANALOG_MAX` and
`VOLTAGE_MAX` of `arduino.cpp`; `voltageToAnalog` is the opposite scaling. -/
def specDoubles : Doubles where
  Double := Int
  zero := 0
  ofInt := fun n => n * 1000000
  analogToVoltage := fun raw => raw * 5000000 / 1023
  voltageToAnalog := fun v => v * 1023 / 5000000
  to_string := fixedSix
  decStringToDouble := parseFixedSix

/-- A simulated firmware that answers a request `header:pin:state` with
`header:pin:1:state}` and a request `header:pin` with `header:pin:1:0}`,
echoing the header and the pin field as it received them; anything else
gets no answer. A read delivers the pending answer once. -/
def mirrorBoard : Device Str where
  writeLine := fun _ line =>
    match pieces ':' [] (stripAllFromString line '\r') with
    | [header, pin, state] => header ++ ":".toList ++ pin ++ ":1:".toList ++ state ++ "\x7d".toList
    | [header, pin] => header ++ ":".toList ++ pin ++ ":1:0\x7d".toList
    | _ => []
  readUntil := fun w _ => (w, [])
  readLine := fun w => (w, [])
  polls := 0

/-- A session on the mirroring firmware with try count `n`: port open,
nothing written, nothing pending. -/
def mirrorSession (n : Nat) : Arduino Str where
  m_ioStream := { wire := [], isOpen := true, timeout := 25, written := [] }
  m_streamSendDelay := 0
  m_ioTryCount := n

/-- The fields `[1, 2, ..., 9, 1]` of the full CAN layout: message id 1, the
data bytes 2 to 9, and the result code 1. -/
def fullCanFields : List Str :=
  ["1", "2", "3", "4", "5", "6", "7", "8", "9", "1"].map String.toList

/-- A `canWrite` acknowledgement of the full layout, with the fields of
`fullCanFields`. -/
def fullCanWriteFrame : Str := "\x7bcanwrite:1:2:3:4:5:6:7:8:9:1\x7d".toList

/-- A line of eleven other characters followed by the blank-success marker
of `canRead`. -/
def markerAfterNoise : Str := "JJJJJJJJJJJ\x7bcanread:1\x7d".toList

/-- The number of iterations the splitting loop makes on `returnString`,
at most `fuel`. -/
def splitIterations : Nat → Str → Nat
  | 0, _ => 0
  | fuel + 1, returnString =>
    match find returnString "\x7d\x7b".toList with
    | none => 0
    | some pos =>
      splitIterations fuel (returnString.drop (pos + "\x7d\x7b".toList.length - 1)) + 1

/-! ## The conversion to voltage -/

/-- `ANALOG_MAX` of `arduino.cpp`. -/
def ANALOG_MAX : Int := 1023

/-- `VOLTAGE_MAX` of `arduino.cpp`, the `double` `5.0` as an exact rational. -/
def VOLTAGE_MAX : ℚ := 5

/-- Modelled from the spec: `Arduino::analogToVoltage`, which `arduino.h`
declares and whose body is not in `arduino.cpp`: "`voltage = raw / 1023 * 5.0`",
with the constants `ANALOG_MAX` and `VOLTAGE_MAX` of `arduino.cpp`, in exact
rational arithmetic in place of `double`. -/
def analogToVoltage (raw : Int) : ℚ := (raw : ℚ) / (ANALOG_MAX : ℚ) * VOLTAGE_MAX

/-- Modelled from the spec: the helpers on `double` that `arduino.h`
declares, with a `double` taken as an exact rational: the conversion to
voltage is `analogToVoltage`, `voltageToAnalog` is the opposite scaling
rounded down, and the renderings are those of `specDoubles` at millionths. -/
def exactDoubles : Doubles where
  Double := ℚ
  zero := 0
  ofInt := fun n => (n : ℚ)
  analogToVoltage := analogToVoltage
  voltageToAnalog := fun v => ⌊v / VOLTAGE_MAX * (ANALOG_MAX : ℚ)⌋
  to_string := fun v => fixedSix ⌊v * 1000000⌋
  decStringToDouble := fun s => (parseFixedSix s).map (fun n => (n : ℚ) / 1000000)

/-! # Theorems -/

/-! ## The port and the retry loop -/

theorem vat_eq_ok {v : List Str} {i : Nat} {x : Str} (h : v[i]? = some x) :
    vat v i = .ok x := by
  simp [vat, h]

theorem vat_eq_error {v : List Str} {i : Nat} (h : v[i]? = none) :
    vat v i = .error .out_of_range := by
  simp [vat, h]

theorem vat_error {v : List Str} {i : Nat} {e : Fault} (h : vat v i = .error e) :
    e = .out_of_range := by
  unfold vat at h
  split at h
  · cases h
  · cases h; rfl

theorem substr_error {s : Str} {pos : Nat} {e : Fault} (h : substr s pos = .error e) :
    e = .out_of_range := by
  unfold substr at h
  split at h
  · cases h; rfl
  · cases h

theorem substrN_lengthMinusOne (s : Str) : substrN s 0 (lengthMinusOne s) = .ok s.dropLast := by
  unfold substrN lengthMinusOne
  cases s with
  | nil => simp
  | cons c cs => simp [List.dropLast_eq_take]

theorem endsWith_iff_suffix (s : Str) (c : Char) : endsWith s c = true ↔ [c] <:+ s := by
  unfold endsWith
  rw [beq_iff_eq]
  constructor
  · intro h
    obtain ⟨h1, h2⟩ := List.getLast?_eq_some_iff.mp h
    exact ⟨h1, h2.symm⟩
  · rintro ⟨t, rfl⟩
    simp

theorem startsWith_iff_begins (s header : Str) : startsWith s header = true ↔ header <+: s := by
  unfold startsWith
  exact List.isPrefixOf_iff_prefix

theorem pollLine_written {σ : Type} (dev : Device σ) (c : Char) (n : Nat) (s : TStream σ) :
    (pollLine dev c n s).2.written = s.written
      ∧ (pollLine dev c n s).2.isOpen = s.isOpen
      ∧ (pollLine dev c n s).2.timeout = s.timeout := by
  induction n generalizing s with
  | zero => simp [pollLine, TStream.readUntil]
  | succ n ih =>
    unfold pollLine
    split
    · simp [TStream.readUntil]
    · have := ih (s.readUntil dev c).2
      simpa [TStream.readUntil] using this

theorem pollLine_eq_firstNonEmpty {σ : Type} (dev : Device σ) (c : Char) (n : Nat)
    (s : TStream σ) : (pollLine dev c n s).1 = firstNonEmpty (reads dev c (n + 1) s.wire) := by
  induction n generalizing s with
  | zero =>
    simp only [pollLine, TStream.readUntil, reads, firstNonEmpty]
    split <;> simp_all
  | succ n ih =>
    rw [pollLine]
    split
    · rename_i h
      show _ = firstNonEmpty
        ((dev.readUntil s.wire c).1 :: reads dev c (n + 1) (dev.readUntil s.wire c).2)
      rw [firstNonEmpty, if_pos (by simpa [TStream.readUntil] using h)]
      rfl
    · rename_i h
      rw [ih]
      show _ = firstNonEmpty
        ((dev.readUntil s.wire c).1 :: reads dev c (n + 1) (dev.readUntil s.wire c).2)
      rw [firstNonEmpty, if_neg (by simpa [TStream.readUntil] using h)]
      rfl

theorem genericIOTask_written {σ : Type} (P : Protocol) (dev : Device σ) (s : TStream σ)
    (stringToSend header : Str) (delay : Nat) :
    (genericIOTask P dev s stringToSend header delay).2.written = s.written ++ [stringToSend] := by
  unfold genericIOTask genericIOTaskRead
  simp only [TStream.setTimeout]
  rw [(pollLine_written dev _ _ _).1]
  cases s.isOpen <;> simp [TStream.writeLine, TStream.openPort]

theorem afterExchanges_succ {σ : Type}
    (exchange : TStream σ → Except Fault (List Str) × TStream σ) (k : Nat) (s : TStream σ) :
    afterExchanges exchange (k + 1) s
      = (exchange (afterExchanges exchange k s)).2 := by
  induction k generalizing s with
  | zero => rfl
  | succ k ih =>
    show afterExchanges exchange (k + 1) (exchange s).2 = _
    rw [ih]
    rfl

theorem afterExchanges_written {σ : Type} (P : Protocol) (dev : Device σ)
    (stringToSend header : Str) (delay : Nat) (k : Nat) (s : TStream σ) :
    (afterExchanges (fun s => genericIOTask P dev s stringToSend header delay) k s).written
      = s.written ++ List.replicate k stringToSend := by
  induction k with
  | zero => simp [afterExchanges]
  | succ k ih =>
    rw [afterExchanges_succ, genericIOTask_written, ih, List.replicate_succ',
      List.append_assoc]

theorem answerIs_ok {p : List Str → Bool} {r : Except Fault (List Str)}
    (h : answerIs p r = true) : ∃ states, r = .ok states ∧ p states = true := by
  cases r with
  | error e => simp [answerIs] at h
  | ok states => exact ⟨states, rfl, h⟩

theorem failOrContinue_not_last {R : Type} (tryCount i : Nat) (failure : R)
    (h : i + 1 ≠ tryCount) : failOrContinue tryCount i failure = none := by
  simp [failOrContinue, h]

theorem failOrContinue_last {R : Type} (tryCount i : Nat) (failure : R)
    (h : i + 1 = tryCount) : failOrContinue tryCount i failure = some (.ok failure) := by
  simp [failOrContinue, h]

/-- Iterations that all end in `continue` are skipped over. -/
theorem tryLoop_continue {σ R : Type} (bound : Nat)
    (exchange : TStream σ → Except Fault (List Str) × TStream σ)
    (body : Nat → List Str → Option (Except Fault R)) (fallthrough : R) (m : Nat) :
    ∀ (left i : Nat) (s : TStream σ), m ≤ left → i + m ≤ bound →
      (∀ j, j < m → ∃ states, answer exchange j s = .ok states ∧ body (i + j) states = none) →
      tryLoop bound exchange body fallthrough left i s
        = tryLoop bound exchange body fallthrough (left - m) (i + m)
            (afterExchanges exchange m s) := by
  induction m with
  | zero => intro left i s _ _ _; rfl
  | succ m ih =>
    intro left i s hleft hbound hcont
    obtain ⟨left, rfl⟩ : ∃ l, left = l + 1 := ⟨left - 1, by omega⟩
    obtain ⟨states, hans, hbody⟩ := hcont 0 (by omega)
    have hans0 : (exchange s).1 = .ok states := hans
    have hlt : i < bound := by omega
    rw [tryLoop, if_pos hlt]
    simp only [hans0]
    rw [show body i states = none from hbody]
    simp only []
    rw [ih left (i + 1) (exchange s).2 (by omega) (by omega)]
    · have e1 : left + 1 - (m + 1) = left - m := by omega
      have e2 : i + 1 + m = i + (m + 1) := by omega
      rw [e1, e2]
      rfl
    · intro j hj
      obtain ⟨st, h1, h2⟩ := hcont (j + 1) (by omega)
      refine ⟨st, h1, ?_⟩
      have e : i + 1 + j = i + (j + 1) := by omega
      rw [e]; exact h2

/-- An iteration whose body returns ends the loop. -/
theorem tryLoop_return {σ R : Type} (bound : Nat)
    (exchange : TStream σ → Except Fault (List Str) × TStream σ)
    (body : Nat → List Str → Option (Except Fault R)) (fallthrough : R)
    (left i : Nat) (s : TStream σ) (states : List Str) (r : Except Fault R)
    (hleft : 0 < left) (hi : i < bound) (hans : (exchange s).1 = .ok states)
    (hbody : body i states = some r) :
    tryLoop bound exchange body fallthrough left i s = (r, (exchange s).2) := by
  obtain ⟨left, rfl⟩ : ∃ l, left = l + 1 := ⟨left - 1, by omega⟩
  rw [tryLoop, if_pos hi]
  simp only [hans, hbody]

/-- When every one of `bound ≥ 1` iterations ends in the recurring
`if (i+1 == bound) return failure; else continue;`, the loop returns the
failure value after exactly `bound` exchanges. -/
theorem tryLoop_all_fail {σ R : Type} (bound : Nat)
    (exchange : TStream σ → Except Fault (List Str) × TStream σ)
    (body : Nat → List Str → Option (Except Fault R)) (fallthrough failure : R)
    (s : TStream σ) (hbound : 1 ≤ bound)
    (hfail : ∀ k, k < bound → ∃ states, answer exchange k s = .ok states
      ∧ body k states = failOrContinue bound k failure) :
    tryLoop bound exchange body fallthrough bound 0 s
      = (.ok failure, afterExchanges exchange bound s) := by
  obtain ⟨M, rfl⟩ : ∃ M, bound = M + 1 := ⟨bound - 1, by omega⟩
  rw [tryLoop_continue (M + 1) _ _ _ M (M + 1) 0 s (by omega) (by omega)]
  · obtain ⟨states, hans, hb⟩ := hfail M (by omega)
    rw [tryLoop_return (M + 1) _ _ _ (M + 1 - M) (0 + M) _ states (.ok failure)
      (by omega) (by omega) hans]
    · rw [afterExchanges_succ]
    · rw [Nat.zero_add, hb]
      exact failOrContinue_last _ _ _ rfl
  · intro j hj
    obtain ⟨states, hans, hb⟩ := hfail j (by omega)
    refine ⟨states, hans, ?_⟩
    rw [Nat.zero_add, hb]
    exact failOrContinue_not_last _ _ _ (by omega)

/-! ## The retry loop of `digitalRead` -/

theorem digitalReadBody_mismatch (P : Protocol) (tryCount : Nat) (pinNumber : Int) (i : Nat)
    (states : List Str) (hpin : P.PIN_NUMBER < P.IO_STATE_RETURN_SIZE)
    (hcode : P.RETURN_CODE < P.IO_STATE_RETURN_SIZE)
    (h : digitalReadMismatch P pinNumber states = true) :
    digitalReadBody P tryCount pinNumber i states
      = failOrContinue tryCount i (.OPERATION_FAILURE, false) := by
  unfold digitalReadBody
  by_cases hlen : states.length = P.IO_STATE_RETURN_SIZE
  · rw [if_neg (by simpa using hlen)]
    obtain ⟨pin, hp⟩ : ∃ pin, states[P.PIN_NUMBER]? = some pin :=
      ⟨states[P.PIN_NUMBER], List.getElem?_eq_getElem (by omega)⟩
    obtain ⟨code, hc⟩ : ∃ code, states[P.RETURN_CODE]? = some code :=
      ⟨states[P.RETURN_CODE], List.getElem?_eq_getElem (by omega)⟩
    rw [vat_eq_ok hp]
    simp only []
    by_cases hpe : to_string pinNumber = pin
    · rw [if_neg (by simpa using hpe), vat_eq_ok hc]
      simp only []
      by_cases hce : code = P.OPERATION_FAILURE_STRING
      · rw [if_pos hce]
      · rw [if_neg hce]
        have hstate : ((states[P.STATE]?).bind P.decStringToInt) = none := by
          simpa [digitalReadMismatch, hlen, hp, hc, hpe, hce] using h
        cases hs : states[P.STATE]? with
        | none => rw [vat_eq_error hs]
        | some state =>
          rw [vat_eq_ok hs]
          have : P.decStringToInt state = none := by simpa [hs] using hstate
          simp only [this]
    · rw [if_pos hpe]
  · rw [if_pos hlen]

theorem digitalReadBody_wellFormed (P : Protocol) (tryCount : Nat) (pinNumber : Int) (i : Nat)
    (states : List Str) (h : digitalReadWellFormed P pinNumber states = true) :
    digitalReadBody P tryCount pinNumber i states
      = some (.ok (.OPERATION_SUCCESS, digitalReadValue P states)) := by
  simp only [digitalReadWellFormed, Bool.and_eq_true, beq_iff_eq, bne_iff_ne, ne_eq,
    Option.isSome_iff_exists] at h
  obtain ⟨⟨⟨⟨hlen, hp⟩, ⟨code, hc⟩⟩, hne⟩, ⟨n, hn⟩⟩ := h
  obtain ⟨state, hs, hd⟩ := Option.bind_eq_some.mp hn
  unfold digitalReadBody
  rw [if_neg (by simpa using hlen), vat_eq_ok hp]
  simp only [ne_eq, not_true_eq_false, if_false]
  rw [vat_eq_ok hc]
  simp only []
  rw [if_neg (by intro hce; exact hne (by rw [hc, hce])), vat_eq_ok hs]
  simp only [hd, digitalReadValue, hs, Option.some_bind]
  have hb : (some n == some (1 : Int)) = (n == 1) := by
    by_cases h1 : n = 1 <;> simp [h1]
  rw [hb]

/-- With a try count of at least one, `digitalRead` facing protocol
mismatches only returns failure after as many exchanges as the try count. -/
theorem digitalRead_of_mismatches {σ : Type} (P : Protocol) (dev : Device σ)
    (a : Arduino σ) (pinNumber : Int) (hN : 1 ≤ a.m_ioTryCount)
    (hpin : P.PIN_NUMBER < P.IO_STATE_RETURN_SIZE)
    (hcode : P.RETURN_CODE < P.IO_STATE_RETURN_SIZE)
    (hmis : ∀ k, k < a.m_ioTryCount → answerIs (digitalReadMismatch P pinNumber)
      (answer (digitalReadExchange P dev a.m_streamSendDelay pinNumber) k a.m_ioStream) = true) :
    digitalRead P dev a pinNumber
      = (.ok (.OPERATION_FAILURE, false),
          { a with
            m_ioStream := afterExchanges
              (digitalReadExchange P dev a.m_streamSendDelay pinNumber)
              a.m_ioTryCount a.m_ioStream }) := by
  unfold digitalRead
  simp only []
  rw [tryLoop_all_fail a.m_ioTryCount _ _ _ (.OPERATION_FAILURE, false) _ hN]
  intro k hk
  obtain ⟨states, hans, hm⟩ := answerIs_ok (hmis k hk)
  exact ⟨states, hans, digitalReadBody_mismatch P _ _ _ _ hpin hcode hm⟩

/-- C1: for every try count `N ≥ 1` installed with `setIOTryCount` and every
pin, if each of the `N` responses `digitalRead` obtains is a protocol
mismatch, then `digitalRead` returns `(OPERATION_FAILURE, false)`, leaves the
port in the state reached after exactly `N` exchanges, and has written the
request frame exactly `N` times. -/
theorem digitalRead_mismatches_exhaust_tries {σ : Type} (P : Protocol) (dev : Device σ)
    (a : Arduino σ) (N : Nat) (pinNumber : Int)
    (hN : 1 ≤ N)
    (hpin : P.PIN_NUMBER < P.IO_STATE_RETURN_SIZE)
    (hcode : P.RETURN_CODE < P.IO_STATE_RETURN_SIZE)
    (hmis : ∀ k, k < N → answerIs (digitalReadMismatch P pinNumber)
      (answer (digitalReadExchange P dev a.m_streamSendDelay pinNumber) k a.m_ioStream) = true) :
    digitalRead P dev (setIOTryCount P a N).2 pinNumber
      = (.ok (.OPERATION_FAILURE, false),
          { (setIOTryCount P a N).2 with
            m_ioStream := afterExchanges
              (digitalReadExchange P dev a.m_streamSendDelay pinNumber) N a.m_ioStream })
    ∧ (afterExchanges (digitalReadExchange P dev a.m_streamSendDelay pinNumber)
          N a.m_ioStream).written
        = a.m_ioStream.written ++ List.replicate N (digitalReadRequest P pinNumber) := by
  refine ⟨?_, afterExchanges_written P dev _ _ _ N _⟩
  have hset : (setIOTryCount P a N).2 = { a with m_ioTryCount := N } := by
    simp [setIOTryCount, Nat.not_lt.mpr hN]
  rw [hset]
  exact digitalRead_of_mismatches P dev { a with m_ioTryCount := N } pinNumber hN hpin hcode hmis

/-- C1, at a concrete input: two tries, pin 7, an unframed line and then a
frame whose result code is the failure sentinel. -/
theorem digitalRead_mismatches_exhaust_tries_witness :
    digitalRead specProtocol scripted
        (setIOTryCount specProtocol
          (session 3 ["garbage".toList, "\x7bdread:7:-1:1\x7d".toList]) 2).2 7
      = (.ok (.OPERATION_FAILURE, false),
          { (setIOTryCount specProtocol
              (session 3 ["garbage".toList, "\x7bdread:7:-1:1\x7d".toList]) 2).2 with
            m_ioStream := afterExchanges (digitalReadExchange specProtocol scripted 0 7) 2
              (session 3 ["garbage".toList, "\x7bdread:7:-1:1\x7d".toList]).m_ioStream })
    ∧ (afterExchanges (digitalReadExchange specProtocol scripted 0 7) 2
          (session 3 ["garbage".toList, "\x7bdread:7:-1:1\x7d".toList]).m_ioStream).written
        = [] ++ List.replicate 2 (digitalReadRequest specProtocol 7) :=
  digitalRead_mismatches_exhaust_tries specProtocol scripted
    (session 3 ["garbage".toList, "\x7bdread:7:-1:1\x7d".toList]) 2 7
    (by decide) (by decide) (by decide) (by decide)

/-- C2: for every try count `N ≥ 1` and every `k` with `1 ≤ k ≤ N`, if the
first `k - 1` responses are protocol mismatches and response number `k` is
well formed, then `digitalRead` returns `OPERATION_SUCCESS` with the value
computed from response number `k` alone, and leaves the port in the state
reached after exactly `k` exchanges, the request frame written `k` times. -/
theorem digitalRead_first_success_returns {σ : Type} (P : Protocol) (dev : Device σ)
    (a : Arduino σ) (N k : Nat) (pinNumber : Int)
    (hk : 1 ≤ k) (hkN : k ≤ N)
    (hpin : P.PIN_NUMBER < P.IO_STATE_RETURN_SIZE)
    (hcode : P.RETURN_CODE < P.IO_STATE_RETURN_SIZE)
    (hmis : ∀ j, j < k - 1 → answerIs (digitalReadMismatch P pinNumber)
      (answer (digitalReadExchange P dev a.m_streamSendDelay pinNumber) j a.m_ioStream) = true)
    (hok : answerIs (digitalReadWellFormed P pinNumber)
      (answer (digitalReadExchange P dev a.m_streamSendDelay pinNumber) (k - 1) a.m_ioStream)
        = true) :
    (∃ states,
      answer (digitalReadExchange P dev a.m_streamSendDelay pinNumber) (k - 1) a.m_ioStream
        = .ok states
      ∧ digitalRead P dev (setIOTryCount P a N).2 pinNumber
        = (.ok (.OPERATION_SUCCESS, digitalReadValue P states),
            { (setIOTryCount P a N).2 with
              m_ioStream := afterExchanges
                (digitalReadExchange P dev a.m_streamSendDelay pinNumber) k a.m_ioStream }))
    ∧ (afterExchanges (digitalReadExchange P dev a.m_streamSendDelay pinNumber)
          k a.m_ioStream).written
        = a.m_ioStream.written ++ List.replicate k (digitalReadRequest P pinNumber) := by
  refine ⟨?_, afterExchanges_written P dev _ _ _ k _⟩
  have hset : (setIOTryCount P a N).2 = { a with m_ioTryCount := N } := by
    simp [setIOTryCount, Nat.not_lt.mpr (Nat.le_trans hk hkN)]
  obtain ⟨m, rfl⟩ : ∃ m, k = m + 1 := ⟨k - 1, by omega⟩
  simp only [Nat.add_sub_cancel] at hmis hok ⊢
  obtain ⟨states, hans, hwf⟩ := answerIs_ok hok
  refine ⟨states, hans, ?_⟩
  rw [hset]
  unfold digitalRead
  simp only []
  rw [tryLoop_continue N _ _ _ m N 0 a.m_ioStream (by omega) (by omega)]
  · rw [tryLoop_return N _ _ _ (N - m) (0 + m) _ states
      (.ok (.OPERATION_SUCCESS, digitalReadValue P states)) (by omega) (by omega) hans]
    · rw [afterExchanges_succ]
    · exact digitalReadBody_wellFormed P _ _ _ _ hwf
  · intro j hj
    obtain ⟨st, hans1, hm⟩ := answerIs_ok (hmis j hj)
    refine ⟨st, hans1, ?_⟩
    rw [digitalReadBody_mismatch P _ _ _ _ hpin hcode hm]
    exact failOrContinue_not_last _ _ _ (by omega)

/-- C2, at a concrete input: three tries, pin 7, a silent first exchange,
a well-formed second response with state 1, and a third line that stays
unread. -/
theorem digitalRead_first_success_returns_witness :
    (∃ states,
      answer (digitalReadExchange specProtocol scripted 0 7) (2 - 1)
          (session 1 [[], "\x7bdread:7:1:1\x7d".toList, "\x7bdread:7:1:0\x7d".toList]).m_ioStream
        = .ok states
      ∧ digitalRead specProtocol scripted
          (setIOTryCount specProtocol
            (session 1 [[], "\x7bdread:7:1:1\x7d".toList, "\x7bdread:7:1:0\x7d".toList]) 3).2 7
        = (.ok (.OPERATION_SUCCESS, digitalReadValue specProtocol states),
            { (setIOTryCount specProtocol
                (session 1 [[], "\x7bdread:7:1:1\x7d".toList, "\x7bdread:7:1:0\x7d".toList])
                3).2 with
              m_ioStream := afterExchanges (digitalReadExchange specProtocol scripted 0 7) 2
                (session 1
                  [[], "\x7bdread:7:1:1\x7d".toList, "\x7bdread:7:1:0\x7d".toList]).m_ioStream }))
    ∧ (afterExchanges (digitalReadExchange specProtocol scripted 0 7) 2
          (session 1
            [[], "\x7bdread:7:1:1\x7d".toList, "\x7bdread:7:1:0\x7d".toList]).m_ioStream).written
        = [] ++ List.replicate 2 (digitalReadRequest specProtocol 7) :=
  digitalRead_first_success_returns specProtocol scripted
    (session 1 [[], "\x7bdread:7:1:1\x7d".toList, "\x7bdread:7:1:0\x7d".toList]) 3 2 7
    (by decide) (by decide) (by decide) (by decide) (by decide) (by decide)

/-! ## The try count -/

/-- C3: `setIOTryCount(0)` throws the configuration error and leaves the
whole session, the port and the stored try count included, as it was;
`setIOTryCount(n)` with `n ≥ 1` does not throw, `ioTryCount()` then returns
`n`, and the port is untouched. -/
theorem setIOTryCount_rejects_zero_stores_positive {σ : Type} (P : Protocol) (a : Arduino σ)
    (n : Nat) :
    ((setIOTryCount P a 0).1
        = .error (.runtime_error
            (P.IO_TRY_COUNT_TOO_LOW_STRING ++ to_string 0 ++ " < 1) ".toList))
      ∧ (setIOTryCount P a 0).2 = a)
    ∧ ((setIOTryCount P a (n + 1)).1 = .ok ()
      ∧ ioTryCount (setIOTryCount P a (n + 1)).2 = n + 1
      ∧ (setIOTryCount P a (n + 1)).2.m_ioStream = a.m_ioStream) := by
  refine ⟨⟨rfl, rfl⟩, ?_, ?_, ?_⟩ <;> simp [setIOTryCount, ioTryCount]

/-! ## The frame splitter of `serialReportRequest` -/

/-- Where `find` reports an occurrence, the pattern fits into the string
from there on. -/
theorem find_some_le {s pat : Str} {pos : Nat} (h : find s pat = some pos) :
    pos + pat.length ≤ s.length := by
  induction s generalizing pos with
  | nil =>
    unfold find at h
    split at h
    · cases h; simp_all
    · cases h
  | cons c cs ih =>
    unfold find at h
    split at h
    · rename_i hp
      cases h
      have := ((startsWith_iff_begins _ _).mp hp).length_le
      simpa using this
    · cases hf : find cs pat with
      | none => rw [hf] at h; cases h
      | some q =>
        rw [hf] at h
        cases h
        have := ih hf
        simp only [List.length_cons]
        omega

/-- The bound on the iterations of the splitting loop is never reached: any
bound of at least the length of the buffer gives the same frames. -/
theorem splitLoop_fuel_irrelevant (n : Nat) :
    ∀ (fuel1 fuel2 : Nat) (returnString : Str) (frames : List Str),
      returnString.length ≤ n → n ≤ fuel1 → n ≤ fuel2 →
      splitLoop fuel1 returnString frames = splitLoop fuel2 returnString frames := by
  induction n with
  | zero =>
    intro fuel1 fuel2 s frames hs _ _
    have hnil : s = [] := List.length_eq_zero.mp (Nat.le_zero.mp hs)
    subst hnil
    cases fuel1 <;> cases fuel2 <;> simp [splitLoop, find]
  | succ n ih =>
    intro fuel1 fuel2 s frames hs h1 h2
    obtain ⟨f1, rfl⟩ : ∃ f, fuel1 = f + 1 := ⟨fuel1 - 1, by omega⟩
    obtain ⟨f2, rfl⟩ : ∃ f, fuel2 = f + 1 := ⟨fuel2 - 1, by omega⟩
    unfold splitLoop
    cases hf : find s "\x7d\x7b".toList with
    | none => rfl
    | some pos =>
      simp only []
      have hle := find_some_le hf
      apply ih f1 f2 _ _ _ (by omega) (by omega)
      simp only [List.length_drop]
      have : "\x7d\x7b".toList.length = 2 := rfl
      omega

/-- C4, evaluated on the code: the buffer `{A:1}{B:2}` is split into the
single frame `{A:1}`, and a buffer of three adjacent frames into the first
two. The loop emits one frame per `}{` and never emits what remains after
the last one, so the last frame is lost; `serialReportRequest` reading that
buffer from the port returns the same single frame. -/
theorem serialReportRequest_loses_last_frame :
    stringsToPrint "\x7bA:1\x7d\x7bB:2\x7d".toList = ["\x7bA:1\x7d".toList]
    ∧ stringsToPrint "\x7bA:1\x7d\x7bB:2\x7d\x7bC:3\x7d".toList
        = ["\x7bA:1\x7d".toList, "\x7bB:2\x7d".toList]
    ∧ (serialReportRequest specProtocol scripted
          (session 3 ["\x7bA:1\x7d\x7bB:2\x7d".toList]) "\x7d".toList).1
        = ["\x7bA:1\x7d".toList] := by
  refine ⟨by decide, by decide, by decide⟩

/-! ## The I/O report -/

theorem ioReportPair_error {P : Protocol} {states : List Str} {e : Fault}
    (h : ioReportPair P states = .error e) : e = .out_of_range ∨ e = .helper_error := by
  unfold ioReportPair at h
  repeat' split at h
  all_goals first
    | (cases h; exact Or.inr rfl)
    | (cases h; exact Or.inl (vat_error ‹_›))
    | cases h

/-- In an attempt that is not the last one the loop over the records never
throws the invalid-data error: an invalid record ends the loop with `break`. -/
theorem ioReportRecords_no_invalid_data (P : Protocol) (tryCount i : Nat)
    (h : i + 1 ≠ tryCount) (what : Str) :
    ∀ (allStates : List Str) (ioReport : IOReport),
      ioReportRecords P tryCount i allStates ioReport ≠ .error (.runtime_error what) := by
  intro allStates
  induction allStates with
  | nil => intro r; simp [ioReportRecords]
  | cons it rest ih =>
    intro r
    unfold ioReportRecords
    simp only [if_neg h]
    repeat' split
    all_goals first
      | exact ih _
      | (intro hc; cases hc; have h1 := vat_error ‹vat _ _ = _›; cases h1)
      | (intro hc; cases hc; have h1 := ioReportPair_error ‹ioReportPair _ _ = _›
         rcases h1 with h1 | h1 <;> cases h1)
      | (intro hc; cases hc)

theorem genericIOReportTaskParse_error {P : Protocol} {line header endHeader : Str} {e : Fault}
    (h : genericIOReportTaskParse P line header endHeader = .error e) : e = .out_of_range := by
  unfold genericIOReportTaskParse at h
  simp only [substrN_lengthMinusOne] at h
  rw [show (if endsWith line P.LINE_ENDING = true then Except.ok line.dropLast
        else (Except.ok line : Except Fault Str))
      = Except.ok (if endsWith line P.LINE_ENDING = true then line.dropLast else line) from by
        split <;> rfl] at h
  simp only [] at h
  generalize (if endsWith line P.LINE_ENDING = true then line.dropLast else line) = rest at h
  by_cases hb : (startsWith rest header && endsWithStr rest endHeader) = true
  · rw [if_pos hb] at h
    cases hs : substr rest (header.length + 1) with
    | error e1 =>
      rw [hs] at h
      cases h
      exact substr_error hs
    | ok v =>
      rw [hs] at h
      cases h
  · rw [if_neg hb] at h
    cases h

/-- With a try count other than one `ioReportRequest` never throws the
invalid-data error, whatever the board sends: only the first iteration of
the outer loop is ever run, and there an invalid record ends in `break`. -/
theorem ioReportRequest_no_invalid_data {σ : Type} (P : Protocol) (dev : Device σ)
    (a : Arduino σ) (what : Str) (h : a.m_ioTryCount ≠ 1) :
    (ioReportRequest P dev a).1 ≠ .error (.runtime_error what) := by
  unfold ioReportRequest
  simp only []
  cases hN : a.m_ioTryCount with
  | zero => simp [tryLoop]
  | succ n =>
    rw [tryLoop, if_pos (Nat.succ_pos n)]
    split
    · rename_i e he
      intro hc
      have := genericIOReportTaskParse_error he
      rw [this] at hc
      cases hc
    · exact ioReportRecords_no_invalid_data P _ 0 (by omega) what _ _

/-- C5, evaluated on the code: with try count 2 and an I/O report whose
second record `a:b` has two fields on every attempt, `ioReportRequest` does
not throw: the `break` leaves the loop over the records and the report built
so far, one digital input, is returned after a single exchange. With try
count 1 the same response raises the invalid-data error. -/
theorem ioReportRequest_returns_partial_report :
    (ioReportRequest specProtocol scripted
        (session 2 [reportWithShortRecord, reportWithShortRecord])).1
      = .ok { digitalInputResults := [(1, 0)], digitalOutputResults := [],
              analogInputResults := [], analogOutputResults := [] }
    ∧ (ioReportRequest specProtocol scripted
        (session 2 [reportWithShortRecord, reportWithShortRecord])).2.m_ioStream.written.length
      = 1
    ∧ (ioReportRequest specProtocol scripted (session 1 [reportWithShortRecord])).1
      = .error (.runtime_error specProtocol.IO_REPORT_INVALID_DATA_STRING) := by
  refine ⟨rfl, rfl, rfl⟩

/-! ## Operations that throw -/

/-- With no field at all and an attempt that is not the last one,
`canCapability` reaches `states.at(...)` and throws, whatever the constants
of the protocol are. -/
theorem canCapabilityBody_nil (P : Protocol) (tryCount i : Nat) (h : i + 1 ≠ tryCount) :
    canCapabilityBody P tryCount i [] = some (.error .out_of_range) := by
  simp [canCapabilityBody, h, vat]

/-- With no field at all `canRead` reaches `states.at(...)` and throws,
whatever the other constants of the protocol are. -/
theorem canReadBody_nil (P : Protocol) (i : Nat) (h : P.CAN_READ_RETURN_SIZE ≠ 0) :
    canReadBody P i [] = some (.error .out_of_range) := by
  unfold canReadBody
  rw [if_neg (by simp [Ne.symm h])]
  split <;> simp [vat]

/-- C6, evaluated on the code: facing a line that is not a frame, so that
`genericIOTask` returns no field, `canCapability` with try count 2 and
`canRead` do not return a status pair: `states.at(...)` is reached with the
empty vector and throws `std::out_of_range`, which nothing catches. With
try count 1 `canCapability` returns the failure pair. -/
theorem canCapability_canRead_throw_on_empty_response :
    (canCapability specProtocol scripted (session 2 ["garbage".toList])).1
      = .error .out_of_range
    ∧ (canRead specProtocol scripted (session 2 ["garbage".toList])).1
      = .error .out_of_range
    ∧ (canCapability specProtocol scripted (session 1 ["garbage".toList])).1
      = .ok (.OPERATION_FAILURE, false) := by
  refine ⟨rfl, rfl, rfl⟩

/-! ## The response parser -/

/-- The parsing part of `genericIOTask` computes the function of the
specification, provided the header does not end in the terminator. -/
theorem genericIOTaskParse_eq_parseResponse (P : Protocol) (line header : Str)
    (hhdr : endsWith header P.TERMINATING_CHARACTER = false) :
    genericIOTaskParse P line header = .ok (parseResponse P line header) := by
  unfold genericIOTaskParse parseResponse
  have hrest : (if endsWith line P.LINE_ENDING = true
        then substrN line 0 (lengthMinusOne line) else Except.ok line)
      = .ok (if [P.LINE_ENDING] <:+ line then line.dropLast else line) := by
    by_cases h : endsWith line P.LINE_ENDING = true
    · rw [if_pos h, if_pos ((endsWith_iff_suffix _ _).mp h), substrN_lengthMinusOne]
    · rw [if_neg h, if_neg (fun h2 => h ((endsWith_iff_suffix _ _).mpr h2))]
  simp only [hrest]
  generalize (if [P.LINE_ENDING] <:+ line then line.dropLast else line) = rest
  by_cases hacc : header <+: rest ∧ [P.TERMINATING_CHARACTER] <:+ rest
  · have hb : (startsWith rest header && endsWith rest P.TERMINATING_CHARACTER) = true := by
      rw [Bool.and_eq_true]
      exact ⟨(startsWith_iff_begins _ _).mpr hacc.1, (endsWith_iff_suffix _ _).mpr hacc.2⟩
    rw [if_pos hb, if_pos hacc]
    obtain ⟨t, rfl⟩ := hacc.1
    have ht : t ≠ [] := by
      rintro rfl
      rw [List.append_nil] at hb
      rw [Bool.and_eq_true] at hb
      rw [hb.2] at hhdr
      exact Bool.noConfusion hhdr
    have hlen : ¬ header.length + 1 > (header ++ t).length := by
      have : 0 < t.length := List.length_pos.mpr ht
      simp only [List.length_append]; omega
    simp only [substr, if_neg hlen, substrN_lengthMinusOne]
  · have hb : ¬ (startsWith rest header && endsWith rest P.TERMINATING_CHARACTER) = true := by
      rw [Bool.and_eq_true]
      rintro ⟨h1, h2⟩
      exact hacc ⟨(startsWith_iff_begins _ _).mp h1, (endsWith_iff_suffix _ _).mp h2⟩
    rw [if_neg hb, if_neg hacc]

/-- C7: the field sequence `genericIOTask` returns is the function
`parseResponse` of the first non-empty line among the lines read before the
time-out (the empty string if there is none), for every header that does
not itself end in the terminator character. -/
theorem genericIOTask_fields_eq_parseResponse {σ : Type} (P : Protocol) (dev : Device σ)
    (s : TStream σ) (stringToSend header : Str) (delay : Nat)
    (hhdr : endsWith header P.TERMINATING_CHARACTER = false) :
    (genericIOTask P dev s stringToSend header delay).1
      = .ok (parseResponse P
          (firstNonEmpty
            (reads dev P.LINE_ENDING (dev.polls + 1) (dev.writeLine s.wire stringToSend)))
          header) := by
  unfold genericIOTask
  simp only []
  rw [genericIOTaskParse_eq_parseResponse P _ _ hhdr]
  unfold genericIOTaskRead
  simp only []
  rw [pollLine_eq_firstNonEmpty]
  cases s.isOpen <;> rfl

/-- C7, at a concrete input: the scripted board delivers a framed line with
a trailing line ending; the fields are `7`, `1`, `1`. -/
theorem genericIOTask_fields_eq_parseResponse_witness :
    (genericIOTask specProtocol scripted
        (session 3 ["\x7bdread:7:1:1\x7d\r".toList]).m_ioStream
        (digitalReadRequest specProtocol 7) specProtocol.DIGITAL_READ_HEADER 0).1
      = .ok (parseResponse specProtocol
          (firstNonEmpty
            (reads scripted specProtocol.LINE_ENDING (scripted.polls + 1)
              (scripted.writeLine (session 3 ["\x7bdread:7:1:1\x7d\r".toList]).m_ioStream.wire
                (digitalReadRequest specProtocol 7))))
          specProtocol.DIGITAL_READ_HEADER)
    ∧ parseResponse specProtocol "\x7bdread:7:1:1\x7d\r".toList specProtocol.DIGITAL_READ_HEADER
      = ["7".toList, "1".toList, "1".toList] :=
  ⟨genericIOTask_fields_eq_parseResponse specProtocol scripted
      (session 3 ["\x7bdread:7:1:1\x7d\r".toList]).m_ioStream
      (digitalReadRequest specProtocol 7) specProtocol.DIGITAL_READ_HEADER 0 (by decide),
    by decide⟩

/-- A line that does not start with the header yields no field. -/
theorem genericIOTaskParse_without_header (P : Protocol) (line header : Str)
    (h : startsWith line header = false) : genericIOTaskParse P line header = .ok [] := by
  have hnp : ¬ header <+: line := fun hp => by
    rw [(startsWith_iff_begins _ _).mpr hp] at h
    exact Bool.noConfusion h
  unfold genericIOTaskParse
  by_cases he : endsWith line P.LINE_ENDING = true
  · rw [if_pos he, substrN_lengthMinusOne]
    have hs : startsWith line.dropLast header = false := by
      rw [Bool.eq_false_iff]
      intro hp
      have hdrop : line.dropLast <+: line := List.dropLast_prefix line
      exact hnp (((startsWith_iff_begins _ _).mp hp).trans hdrop)
    simp only [hs, Bool.false_and]
    rfl
  · rw [if_neg he]
    simp only [h, Bool.false_and]
    rfl

/-- C8 as stated fails: the frame `{dreadX7:1:1}` has the header token
`{dreadX7`, which is not the digital-read header `{dread`, and yet
`digitalRead(7)` returns `(OPERATION_SUCCESS, true)` from it: the header is
tested as a prefix and the character after it is dropped unseen. -/
theorem digitalRead_accepts_other_header_token :
    headerToken "\x7bdreadX7:1:1\x7d".toList ≠ specProtocol.DIGITAL_READ_HEADER
    ∧ (digitalRead specProtocol scripted (session 1 ["\x7bdreadX7:1:1\x7d".toList]) 7).1
      = .ok (.OPERATION_SUCCESS, true) := by
  refine ⟨by decide, rfl⟩

/-- C8, amended: a response that does not start with the digital-read
header is never the basis of a success. For every pin, every try count and
whatever the lines contain, if none of the lines `digitalRead` reads starts
with `DIGITAL_READ_HEADER`, the result is `(OPERATION_FAILURE, false)`, after
as many exchanges as the try count. -/
theorem digitalRead_fails_without_header {σ : Type} (P : Protocol) (dev : Device σ)
    (a : Arduino σ) (pinNumber : Int)
    (hsize : P.IO_STATE_RETURN_SIZE ≠ 0)
    (hno : ∀ k, k < a.m_ioTryCount →
      startsWith (digitalReadLine P dev a pinNumber k) P.DIGITAL_READ_HEADER = false) :
    digitalRead P dev a pinNumber
      = (.ok (.OPERATION_FAILURE, false),
          { a with
            m_ioStream := afterExchanges
              (digitalReadExchange P dev a.m_streamSendDelay pinNumber)
              a.m_ioTryCount a.m_ioStream }) := by
  unfold digitalRead
  simp only []
  by_cases hN : 1 ≤ a.m_ioTryCount
  · rw [tryLoop_all_fail a.m_ioTryCount _ _ _ (.OPERATION_FAILURE, false) _ hN]
    intro k hk
    refine ⟨[], ?_, ?_⟩
    · exact genericIOTaskParse_without_header P _ _ (hno k hk)
    · unfold digitalReadBody
      rw [if_pos (by simpa using Ne.symm hsize)]
  · have h0 : a.m_ioTryCount = 0 := by omega
    rw [h0]
    rfl

/-- C8 amended, at a concrete input: three tries, three lines that carry
well-formed fields behind another header. -/
theorem digitalRead_fails_without_header_witness :
    digitalRead specProtocol scripted
        (session 3 [otherHeaderFrame, otherHeaderFrame, otherHeaderFrame]) 7
      = (.ok (.OPERATION_FAILURE, false),
          { session 3 [otherHeaderFrame, otherHeaderFrame, otherHeaderFrame] with
            m_ioStream := afterExchanges (digitalReadExchange specProtocol scripted 0 7) 3
              (session 3 [otherHeaderFrame, otherHeaderFrame, otherHeaderFrame]).m_ioStream }) :=
  digitalRead_fails_without_header specProtocol scripted
    (session 3 [otherHeaderFrame, otherHeaderFrame, otherHeaderFrame]) 7
    (by decide) (by decide)

/-! ## The CAN operations -/

theorem removeAllCanMasksBody_mismatch (P : Protocol) (i : Nat) (states : List Str)
    (h : removeAllCanMasksMismatch P states = true) :
    removeAllCanMasksBody P i states
      = failOrContinue P.IO_TRY_COUNT i (.OPERATION_FAILURE, false) := by
  unfold removeAllCanMasksBody
  by_cases hlen : states.length = 1
  · rw [if_neg (by simpa using hlen)]
    obtain ⟨code, hc⟩ : ∃ code, states[0]? = some code :=
      ⟨states[0], List.getElem?_eq_getElem (by omega)⟩
    have hce : code = P.OPERATION_FAILURE_STRING := by
      simpa [removeAllCanMasksMismatch, hlen, hc] using h
    rw [vat_eq_ok hc]
    simp only [hce, if_true]
  · rw [if_pos hlen]

/-- The stored try count has no part in the CAN operations: changing it
changes neither what they return nor what they do to the port. -/
theorem can_operations_ignore_ioTryCount {σ : Type} (P : Protocol) (dev : Device σ)
    (a : Arduino σ) (N : Nat) (canMaskType : CanMaskType) (mask : Str) (message : CanMessage) :
    ((canRead P dev { a with m_ioTryCount := N }).1 = (canRead P dev a).1
      ∧ (canRead P dev { a with m_ioTryCount := N }).2.m_ioStream
        = (canRead P dev a).2.m_ioStream)
    ∧ ((canWrite P dev { a with m_ioTryCount := N } message).1 = (canWrite P dev a message).1
      ∧ (canWrite P dev { a with m_ioTryCount := N } message).2.m_ioStream
        = (canWrite P dev a message).2.m_ioStream)
    ∧ ((addCanMask P dev { a with m_ioTryCount := N } canMaskType mask).1
        = (addCanMask P dev a canMaskType mask).1
      ∧ (addCanMask P dev { a with m_ioTryCount := N } canMaskType mask).2.m_ioStream
        = (addCanMask P dev a canMaskType mask).2.m_ioStream)
    ∧ ((removeCanMask P dev { a with m_ioTryCount := N } canMaskType mask).1
        = (removeCanMask P dev a canMaskType mask).1
      ∧ (removeCanMask P dev { a with m_ioTryCount := N } canMaskType mask).2.m_ioStream
        = (removeCanMask P dev a canMaskType mask).2.m_ioStream)
    ∧ ((removeAllCanMasks P dev { a with m_ioTryCount := N } canMaskType).1
        = (removeAllCanMasks P dev a canMaskType).1
      ∧ (removeAllCanMasks P dev { a with m_ioTryCount := N } canMaskType).2.m_ioStream
        = (removeAllCanMasks P dev a canMaskType).2.m_ioStream) := by
  refine ⟨⟨rfl, rfl⟩, ⟨rfl, rfl⟩, ?_, ?_, ⟨rfl, rfl⟩⟩ <;> cases canMaskType <;> exact ⟨rfl, rfl⟩

/-- C9, on the code: whatever try count `N ≥ 1` is installed with
`setIOTryCount`, `removeAllCanMasks` facing protocol mismatches only returns
failure after exactly `IO_TRY_COUNT` exchanges, the compile-time bound of
its loop, with the request written `IO_TRY_COUNT` times: `N` has no part in
the result. -/
theorem removeAllCanMasks_tries_IO_TRY_COUNT {σ : Type} (P : Protocol) (dev : Device σ)
    (a : Arduino σ) (N : Nat) (canMaskType : CanMaskType)
    (hN : 1 ≤ N) (hT : 1 ≤ P.IO_TRY_COUNT)
    (hmis : ∀ k, k < P.IO_TRY_COUNT → answerIs (removeAllCanMasksMismatch P)
      (answer (removeAllCanMasksExchange P dev a.m_streamSendDelay canMaskType) k a.m_ioStream)
        = true) :
    removeAllCanMasks P dev (setIOTryCount P a N).2 canMaskType
      = (.ok (.OPERATION_FAILURE, false),
          { (setIOTryCount P a N).2 with
            m_ioStream := afterExchanges
              (removeAllCanMasksExchange P dev a.m_streamSendDelay canMaskType)
              P.IO_TRY_COUNT a.m_ioStream })
    ∧ (afterExchanges (removeAllCanMasksExchange P dev a.m_streamSendDelay canMaskType)
          P.IO_TRY_COUNT a.m_ioStream).written
        = a.m_ioStream.written ++ List.replicate P.IO_TRY_COUNT
            (clearAllHeader P canMaskType ++ [P.TERMINATING_CHARACTER]) := by
  refine ⟨?_, afterExchanges_written P dev _ _ _ P.IO_TRY_COUNT _⟩
  have hset : (setIOTryCount P a N).2 = { a with m_ioTryCount := N } := by
    simp [setIOTryCount, Nat.not_lt.mpr hN]
  rw [hset]
  unfold removeAllCanMasks
  simp only []
  rw [tryLoop_all_fail P.IO_TRY_COUNT _ _ _ (.OPERATION_FAILURE, false) _ hT]
  intro k hk
  obtain ⟨states, hans, hm⟩ := answerIs_ok (hmis k hk)
  exact ⟨states, hans, removeAllCanMasksBody_mismatch P _ _ hm⟩

/-- C9, at a concrete input: try count 5 installed, five unframed lines
pending; three exchanges are made, the compile-time bound being three. -/
theorem removeAllCanMasks_tries_IO_TRY_COUNT_witness :
    (removeAllCanMasks specProtocol scripted
        (setIOTryCount specProtocol
          (session 3 ["a".toList, "b".toList, "c".toList, "d".toList, "e".toList]) 5).2
        .POSITIVE
      = (.ok (.OPERATION_FAILURE, false),
          { (setIOTryCount specProtocol
              (session 3 ["a".toList, "b".toList, "c".toList, "d".toList, "e".toList]) 5).2 with
            m_ioStream := afterExchanges
              (removeAllCanMasksExchange specProtocol scripted 0 .POSITIVE)
              specProtocol.IO_TRY_COUNT
              (session 3
                ["a".toList, "b".toList, "c".toList, "d".toList, "e".toList]).m_ioStream })
    ∧ (afterExchanges (removeAllCanMasksExchange specProtocol scripted 0 .POSITIVE)
          specProtocol.IO_TRY_COUNT
          (session 3
            ["a".toList, "b".toList, "c".toList, "d".toList, "e".toList]).m_ioStream).written
        = [] ++ List.replicate specProtocol.IO_TRY_COUNT
            (clearAllHeader specProtocol .POSITIVE ++ [specProtocol.TERMINATING_CHARACTER]))
    ∧ specProtocol.IO_TRY_COUNT = 3 :=
  ⟨removeAllCanMasks_tries_IO_TRY_COUNT specProtocol scripted
      (session 3 ["a".toList, "b".toList, "c".toList, "d".toList, "e".toList]) 5 .POSITIVE
      (by decide) (by decide) (by decide),
    rfl⟩

theorem canReadBody_full_layout (P : Protocol) (i : Nat) (states : List Str)
    (hsz : P.CAN_READ_RETURN_SIZE ≠ P.CAN_READ_BLANK_RETURN_SIZE)
    (h : canReadFullLayout P states = true) :
    canReadBody P i states
      = failOrContinue P.IO_TRY_COUNT i (.OPERATION_FAILURE, emptyMessage) := by
  have hlen : states.length = P.CAN_READ_RETURN_SIZE := by
    simpa [canReadFullLayout] using h
  unfold canReadBody
  rw [if_pos ⟨hlen, by rw [hlen]; exact hsz⟩]

/-- C10, on the code: a response that splits into exactly the full layout,
`CAN_READ_RETURN_SIZE` fields, is a failed attempt of `canRead` whatever its
result code is, because the first test of the loop reads `==` where
`canListen` reads `!=`. When every response has the full layout, `canRead`
returns `(OPERATION_FAILURE, emptyMessage)` after `IO_TRY_COUNT` exchanges. -/
theorem canRead_rejects_full_layout {σ : Type} (P : Protocol) (dev : Device σ)
    (a : Arduino σ) (hT : 1 ≤ P.IO_TRY_COUNT)
    (hsz : P.CAN_READ_RETURN_SIZE ≠ P.CAN_READ_BLANK_RETURN_SIZE)
    (hfull : ∀ k, k < P.IO_TRY_COUNT → answerIs (canReadFullLayout P)
      (answer (canReadExchange P dev a.m_streamSendDelay) k a.m_ioStream) = true) :
    canRead P dev a
      = (.ok (.OPERATION_FAILURE, emptyMessage),
          { a with
            m_ioStream := afterExchanges (canReadExchange P dev a.m_streamSendDelay)
              P.IO_TRY_COUNT a.m_ioStream }) := by
  unfold canRead
  simp only []
  rw [tryLoop_all_fail P.IO_TRY_COUNT _ _ _ (.OPERATION_FAILURE, emptyMessage) _ hT]
  intro k hk
  obtain ⟨states, hans, hm⟩ := answerIs_ok (hfull k hk)
  exact ⟨states, hans, canReadBody_full_layout P _ _ hsz hm⟩

/-- C10, at a concrete input: three frames with message id 1, the data
bytes 2 to 9 and the result code 1, which is not the failure sentinel. -/
theorem canRead_rejects_full_layout_witness :
    canRead specProtocol scripted (session 3 [fullCanFrame, fullCanFrame, fullCanFrame])
      = (.ok (.OPERATION_FAILURE, emptyMessage),
          { session 3 [fullCanFrame, fullCanFrame, fullCanFrame] with
            m_ioStream := afterExchanges (canReadExchange specProtocol scripted 0)
              specProtocol.IO_TRY_COUNT
              (session 3 [fullCanFrame, fullCanFrame, fullCanFrame]).m_ioStream }) :=
  canRead_rejects_full_layout specProtocol scripted
    (session 3 [fullCanFrame, fullCanFrame, fullCanFrame])
    (by decide) (by decide) (by decide)

/-! ## What a success comes from -/

/-- A value the loop returns is the fall-through value or was returned by
the body in one of the iterations, from the answer of that exchange. -/
theorem tryLoop_ok_from_body {σ R : Type} (bound : Nat)
    (exchange : TStream σ → Except Fault (List Str) × TStream σ)
    (body : Nat → List Str → Option (Except Fault R)) (fallthrough : R) :
    ∀ (left i : Nat) (s : TStream σ) (r : R),
      (tryLoop bound exchange body fallthrough left i s).1 = .ok r →
      r = fallthrough ∨ ∃ k states, i + k < bound ∧ answer exchange k s = .ok states
        ∧ body (i + k) states = some (.ok r) := by
  intro left
  induction left with
  | zero =>
    intro i s r h
    left
    simp only [tryLoop] at h
    cases h
    rfl
  | succ left ih =>
    intro i s r h
    rw [tryLoop] at h
    by_cases hi : i < bound
    · rw [if_pos hi] at h
      cases hans : (exchange s).1 with
      | error e => simp only [hans] at h; cases h
      | ok states =>
        simp only [hans] at h
        cases hb : body i states with
        | some x =>
          simp only [hb] at h
          right
          exact ⟨0, states, by omega, hans, by rw [Nat.add_zero, hb, h]⟩
        | none =>
          simp only [hb] at h
          rcases ih (i + 1) (exchange s).2 r h with h1 | ⟨k, st, hk, ha, hbk⟩
          · exact Or.inl h1
          · right
            refine ⟨k + 1, st, by omega, ha, ?_⟩
            have e : i + (k + 1) = i + 1 + k := by omega
            rw [e]; exact hbk
    · rw [if_neg hi] at h
      left
      cases h
      rfl

theorem failOrContinue_eq_some {R : Type} {tryCount i : Nat} {failure : R}
    {r : Except Fault R} (h : failOrContinue tryCount i failure = some r) : r = .ok failure := by
  unfold failOrContinue at h
  split at h
  · cases h; rfl
  · cases h

/-- What a success of the body of `digitalRead` tells about the response. -/
theorem digitalReadBody_success {P : Protocol} {tryCount : Nat} {pinNumber : Int} {i : Nat}
    {states : List Str} {v : Bool}
    (h : digitalReadBody P tryCount pinNumber i states = some (.ok (.OPERATION_SUCCESS, v))) :
    states.length = P.IO_STATE_RETURN_SIZE
      ∧ states[P.PIN_NUMBER]? = some (to_string pinNumber)
      ∧ (∃ code, states[P.RETURN_CODE]? = some code ∧ code ≠ P.OPERATION_FAILURE_STRING)
      ∧ ∃ state n, states[P.STATE]? = some state ∧ P.decStringToInt state = some n
          ∧ v = (n == 1) := by
  have hfail : ∀ {r : Except Fault (IOStatus × Bool)},
      failOrContinue tryCount i (IOStatus.OPERATION_FAILURE, false) = some r →
      r ≠ .ok (.OPERATION_SUCCESS, v) := by
    intro r hr hc
    rw [failOrContinue_eq_some hr] at hc
    cases hc
  unfold digitalReadBody at h
  by_cases hlen : states.length = P.IO_STATE_RETURN_SIZE
  · rw [if_neg (by simpa using hlen)] at h
    cases hp : states[P.PIN_NUMBER]? with
    | none => rw [vat_eq_error hp] at h; cases h
    | some pin =>
      rw [vat_eq_ok hp] at h
      simp only [] at h
      by_cases hpe : to_string pinNumber = pin
      · rw [if_neg (by simpa using hpe)] at h
        cases hc : states[P.RETURN_CODE]? with
        | none => rw [vat_eq_error hc] at h; cases h
        | some code =>
          rw [vat_eq_ok hc] at h
          simp only [] at h
          by_cases hce : code = P.OPERATION_FAILURE_STRING
          · rw [if_pos hce] at h
            exact absurd rfl (hfail h)
          · rw [if_neg hce] at h
            cases hs : states[P.STATE]? with
            | none =>
              rw [vat_eq_error hs] at h
              exact absurd rfl (hfail h)
            | some state =>
              rw [vat_eq_ok hs] at h
              simp only [] at h
              cases hd : P.decStringToInt state with
              | none =>
                rw [hd] at h
                exact absurd rfl (hfail h)
              | some n =>
                rw [hd] at h
                simp only [Option.some.injEq, Except.ok.injEq, Prod.mk.injEq, true_and] at h
                exact ⟨hlen, by rw [hpe], ⟨code, rfl, hce⟩, state, n, rfl, hd, h.symm⟩
      · rw [if_pos hpe] at h
        exact absurd rfl (hfail h)
  · rw [if_pos hlen] at h
    exact absurd rfl (hfail h)

/-! ## The state field of `digitalRead` -/

/-- C11 as stated fails: the response `[7, 1, 2]` has the state field `2`,
neither `0` nor `1`, with a valid field count, pin echo and result code, and
`digitalRead(7)` returns `(OPERATION_SUCCESS, false)` from it. -/
theorem digitalRead_accepts_state_two :
    answer (digitalReadExchange specProtocol scripted 0 7) 0
        (session 1 ["\x7bdread:7:1:2\x7d".toList]).m_ioStream
      = .ok ["7".toList, "1".toList, "2".toList]
    ∧ (digitalRead specProtocol scripted (session 1 ["\x7bdread:7:1:2\x7d".toList]) 7).1
      = .ok (.OPERATION_SUCCESS, false) := by
  refine ⟨rfl, rfl⟩

/-- C11, amended: `digitalRead` never returns `OPERATION_SUCCESS` from a
response whose state field is not an integer for `decStringToInt`. Whenever
it returns `(OPERATION_SUCCESS, v)`, one of the responses it obtained has a
state field that converts to an integer `n`, and `v` is `n == 1`; and a
response whose state field does not convert is a failed attempt, retried or
surfaced as failure on the last attempt, even when its field count, pin
echo and result code are valid. -/
theorem digitalRead_success_needs_integer_state {σ : Type} (P : Protocol) (dev : Device σ)
    (a : Arduino σ) (pinNumber : Int) :
    (∀ v, (digitalRead P dev a pinNumber).1 = .ok (.OPERATION_SUCCESS, v) →
      ∃ k states state n, k < a.m_ioTryCount
        ∧ answer (digitalReadExchange P dev a.m_streamSendDelay pinNumber) k a.m_ioStream
          = .ok states
        ∧ states[P.STATE]? = some state ∧ P.decStringToInt state = some n ∧ v = (n == 1))
    ∧ (∀ (i : Nat) (states : List Str) (code : Str),
        states.length = P.IO_STATE_RETURN_SIZE →
        states[P.PIN_NUMBER]? = some (to_string pinNumber) →
        states[P.RETURN_CODE]? = some code → code ≠ P.OPERATION_FAILURE_STRING →
        (states[P.STATE]?).bind P.decStringToInt = none →
        digitalReadBody P a.m_ioTryCount pinNumber i states
          = failOrContinue a.m_ioTryCount i (.OPERATION_FAILURE, false)) := by
  constructor
  · intro v h
    unfold digitalRead at h
    simp only [] at h
    rcases tryLoop_ok_from_body _ _ _ _ _ _ _ _ h with hf | ⟨k, states, hk, hans, hb⟩
    · cases hf
    · obtain ⟨_, _, _, state, n, hs, hd, hv⟩ := digitalReadBody_success hb
      exact ⟨k, states, state, n, by omega, hans, hs, hd, hv⟩
  · intro i states code hlen hp hc hce hstate
    unfold digitalReadBody
    rw [if_neg (by simpa using hlen), vat_eq_ok hp]
    simp only [ne_eq, not_true_eq_false, if_false]
    rw [vat_eq_ok hc]
    simp only []
    rw [if_neg hce]
    cases hs : states[P.STATE]? with
    | none => rw [vat_eq_error hs]
    | some state =>
      rw [vat_eq_ok hs]
      have : P.decStringToInt state = none := by simpa [hs] using hstate
      simp only [this]

/-- C11 amended, at a concrete input: try count 2, pin 7, a first response
with the state field `x` and a second with the state field `2`; the result
`(OPERATION_SUCCESS, false)` comes from the integer 2, and the first
response is a failed attempt. -/
theorem digitalRead_success_needs_integer_state_witness :
    (∃ k states state n, k < 2
        ∧ answer (digitalReadExchange specProtocol scripted 0 7) k
            (session 2 ["\x7bdread:7:1:x\x7d".toList, "\x7bdread:7:1:2\x7d".toList]).m_ioStream
          = .ok states
        ∧ states[specProtocol.STATE]? = some state
        ∧ specProtocol.decStringToInt state = some n ∧ false = (n == 1))
    ∧ digitalReadBody specProtocol 2 7 0 ["7".toList, "1".toList, "x".toList]
      = failOrContinue 2 0 (.OPERATION_FAILURE, false) :=
  ⟨(digitalRead_success_needs_integer_state specProtocol scripted
      (session 2 ["\x7bdread:7:1:x\x7d".toList, "\x7bdread:7:1:2\x7d".toList]) 7).1 false rfl,
    (digitalRead_success_needs_integer_state specProtocol scripted
      (session 2 ["\x7bdread:7:1:x\x7d".toList, "\x7bdread:7:1:2\x7d".toList]) 7).2
      0 ["7".toList, "1".toList, "x".toList] "1".toList rfl rfl rfl (by decide) rfl⟩

/-! ## Writing a pin and reading it back -/

/-- A response `[pin, success code, state]` whose state field converts to
an integer is well formed for `digitalRead` and `digitalWrite`. -/
theorem digitalReadWellFormed_of_ioStateFields {P : Protocol} {pinNumber : Int} {state : Str}
    {states : List Str} {n : Int} (hdec : P.decStringToInt state = some n)
    (h : ioStateFields P pinNumber state states = true) :
    digitalReadWellFormed P pinNumber states = true
      ∧ digitalReadValue P states = (n == 1) := by
  simp only [ioStateFields, Bool.and_eq_true, beq_iff_eq, bne_iff_ne, ne_eq] at h
  obtain ⟨⟨⟨⟨hlen, hp⟩, hcs⟩, hne⟩, hs⟩ := h
  constructor
  · simp only [digitalReadWellFormed, Bool.and_eq_true, beq_iff_eq, bne_iff_ne, ne_eq]
    refine ⟨⟨⟨⟨hlen, hp⟩, hcs⟩, hne⟩, ?_⟩
    rw [hs, Option.some_bind, hdec]
    rfl
  · simp only [digitalReadValue, hs, Option.some_bind, hdec]
    by_cases h1 : n = 1 <;> simp [h1]

/-- An operation with the loop body of `digitalRead` whose first response is
`[pin, success code, state]` returns success at once, whatever the try count
of at least one. -/
theorem tryLoop_digitalReadBody_first {σ : Type} (P : Protocol) (tryCount : Nat)
    (exchange : TStream σ → Except Fault (List Str) × TStream σ) (pinNumber : Int)
    (state : Str) (n : Int) (s : TStream σ) (hN : 1 ≤ tryCount)
    (hdec : P.decStringToInt state = some n)
    (h : answerIs (ioStateFields P pinNumber state) (answer exchange 0 s) = true) :
    tryLoop tryCount exchange (digitalReadBody P tryCount pinNumber)
        (.OPERATION_FAILURE, false) tryCount 0 s
      = (.ok (.OPERATION_SUCCESS, n == 1), (exchange s).2) := by
  obtain ⟨states, hans, hf⟩ := answerIs_ok h
  obtain ⟨hwf, hval⟩ := digitalReadWellFormed_of_ioStateFields hdec hf
  rw [tryLoop_return tryCount _ _ _ tryCount 0 s states
    (.ok (.OPERATION_SUCCESS, n == 1)) (by omega) (by omega) hans]
  rw [digitalReadBody_wellFormed P _ _ _ _ hwf, hval]

/-- C12: on a firmware that answers the digital-write frame with
`[pin, success code, written state]` and the digital-read frame that follows
with `[pin, success code, that state]`, for every pin, every state and every
try count of at least one, `digitalWrite(pin, state)` returns
`(OPERATION_SUCCESS, state)` and the `digitalRead(pin)` that follows returns
`(OPERATION_SUCCESS, state)`. The conversion of the state fields is that of
a decimal parser: `1` converts to one and `0` to an integer other than one. -/
theorem digitalWrite_then_digitalRead {σ : Type} (P : Protocol) (dev : Device σ)
    (a : Arduino σ) (pinNumber : Int) (state : Bool)
    (hN : 1 ≤ a.m_ioTryCount)
    (hone : P.decStringToInt "1".toList = some 1)
    (hzero : ∃ n, P.decStringToInt "0".toList = some n ∧ n ≠ 1)
    (hw : answerIs (ioStateFields P pinNumber (to_string_bool state))
      (answer (digitalWriteExchange P dev a.m_streamSendDelay pinNumber state) 0 a.m_ioStream)
        = true)
    (hr : answerIs (ioStateFields P pinNumber (to_string_bool state))
      (answer (digitalReadExchange P dev a.m_streamSendDelay pinNumber) 0
        (digitalWrite P dev a pinNumber state).2.m_ioStream) = true) :
    (digitalWrite P dev a pinNumber state).1 = .ok (.OPERATION_SUCCESS, state)
    ∧ (digitalRead P dev (digitalWrite P dev a pinNumber state).2 pinNumber).1
      = .ok (.OPERATION_SUCCESS, state) := by
  obtain ⟨n, hdec, hn⟩ : ∃ n, P.decStringToInt (to_string_bool state) = some n
      ∧ (n == 1) = state := by
    cases state with
    | true => exact ⟨1, hone, rfl⟩
    | false =>
      obtain ⟨n, h0, hne⟩ := hzero
      exact ⟨n, h0, by simpa using hne⟩
  constructor
  · unfold digitalWrite
    simp only []
    rw [tryLoop_digitalReadBody_first P _ _ pinNumber _ n _ hN hdec hw, hn]
  · unfold digitalRead
    simp only []
    have hN2 : 1 ≤ (digitalWrite P dev a pinNumber state).2.m_ioTryCount := hN
    rw [show (digitalWrite P dev a pinNumber state).2.m_streamSendDelay = a.m_streamSendDelay
      from rfl]
    rw [tryLoop_digitalReadBody_first P _ _ pinNumber _ n _ hN2 hdec hr, hn]

/-- C12, at a concrete input: the simulated firmware `echoBoard`, try count
3, pin 7, state true; the hypotheses on the two answers hold there, and
writing false and reading back gives false. -/
theorem digitalWrite_then_digitalRead_witness :
    ((digitalWrite specProtocol echoBoard (boardSession 3) 7 true).1
        = .ok (.OPERATION_SUCCESS, true)
      ∧ (digitalRead specProtocol echoBoard
          (digitalWrite specProtocol echoBoard (boardSession 3) 7 true).2 7).1
        = .ok (.OPERATION_SUCCESS, true))
    ∧ (digitalRead specProtocol echoBoard
          (digitalWrite specProtocol echoBoard (boardSession 3) 7 false).2 7).1
        = .ok (.OPERATION_SUCCESS, false) :=
  ⟨digitalWrite_then_digitalRead specProtocol echoBoard (boardSession 3) 7 true
      (by decide) (by decide) (by decide) (by decide) (by decide),
    rfl⟩

/-! ## `digitalWriteAll` -/

theorem pushPins_forall₂ {P : Protocol} {fields : List Str} {pins : List Int}
    (h : pushPins P fields = some pins) :
    List.Forall₂ (fun field n => P.decStringToInt field = some n) fields pins := by
  induction fields generalizing pins with
  | nil =>
    simp only [pushPins, Option.some.injEq] at h
    subst h
    exact List.Forall₂.nil
  | cons f rest ih =>
    unfold pushPins at h
    cases hd : P.decStringToInt f with
    | none => rw [hd] at h; cases h
    | some n =>
      rw [hd] at h
      simp only [] at h
      cases hr : pushPins P rest with
      | none => rw [hr] at h; cases h
      | some ns =>
        rw [hr] at h
        cases h
        exact List.Forall₂.cons hd (ih hr)

/-- What a success of the body of `digitalWriteAll` tells: the pins returned
are the integers of all fields but the last two, sorted. -/
theorem digitalWriteAllBody_success {P : Protocol} {tryCount : Nat} {state : Bool} {i : Nat}
    {states : List Str} {pins : List Int}
    (h : digitalWriteAllBody P tryCount state i states
      = some (.ok (.OPERATION_SUCCESS, pins))) :
    ∃ ints, pushPins P states.dropLast.dropLast = some ints
      ∧ pins = ints.insertionSort (· ≤ ·) := by
  have hfail : ∀ {r : Except Fault (IOStatus × List Int)},
      failOrContinue tryCount i (IOStatus.OPERATION_FAILURE, ([] : List Int)) = some r →
      r ≠ .ok (.OPERATION_SUCCESS, pins) := by
    intro r hr hc
    rw [failOrContinue_eq_some hr] at hc
    cases hc
  unfold digitalWriteAllBody at h
  split at h
  · exact absurd rfl (hfail h)
  · split at h
    · exact absurd rfl (hfail h)
    · split at h
      · cases h
      · split at h
        · exact absurd rfl (hfail h)
        · split at h
          · cases h
          · split at h
            · exact absurd rfl (hfail h)
            · split at h
              · exact absurd rfl (hfail h)
              · rename_i ints hints
                simp only [Option.some.injEq, Except.ok.injEq, Prod.mk.injEq, true_and] at h
                exact ⟨ints, hints, h.symm⟩

/-- Every success of `digitalWriteAll` comes from one of the responses: the
pins returned are the sorted integers of its pin fields. -/
theorem digitalWriteAll_success {σ : Type} (P : Protocol) (dev : Device σ) (a : Arduino σ)
    (state : Bool) (pins : List Int)
    (h : (digitalWriteAll P dev a state).1 = .ok (.OPERATION_SUCCESS, pins)) :
    ∃ k states ints, k < a.m_ioTryCount
      ∧ answer (digitalWriteAllExchange P dev a.m_streamSendDelay state) k a.m_ioStream
        = .ok states
      ∧ List.Forall₂ (fun field n => P.decStringToInt field = some n)
          states.dropLast.dropLast ints
      ∧ pins = ints.insertionSort (· ≤ ·) := by
  unfold digitalWriteAll at h
  simp only [] at h
  rcases tryLoop_ok_from_body _ _ _ _ _ _ _ _ h with hf | ⟨k, states, hk, hans, hb⟩
  · cases hf
  · obtain ⟨ints, hp, hs⟩ := digitalWriteAllBody_success hb
    exact ⟨k, states, ints, by omega, hans, pushPins_forall₂ hp, hs⟩

/-- C13: whenever `digitalWriteAll(state)` returns `OPERATION_SUCCESS`, the
list returned is in ascending order and is a permutation of the integers
converted from the pin fields, all fields but the last two, of one of the
responses obtained. -/
theorem digitalWriteAll_success_sorted_perm {σ : Type} (P : Protocol) (dev : Device σ)
    (a : Arduino σ) (state : Bool) (pins : List Int)
    (h : (digitalWriteAll P dev a state).1 = .ok (.OPERATION_SUCCESS, pins)) :
    ∃ k states ints, k < a.m_ioTryCount
      ∧ answer (digitalWriteAllExchange P dev a.m_streamSendDelay state) k a.m_ioStream
        = .ok states
      ∧ List.Forall₂ (fun field n => P.decStringToInt field = some n)
          states.dropLast.dropLast ints
      ∧ pins.Sorted (· ≤ ·) ∧ pins.Perm ints := by
  obtain ⟨k, states, ints, hk, hans, hf, hs⟩ := digitalWriteAll_success P dev a state pins h
  refine ⟨k, states, ints, hk, hans, hf, ?_, ?_⟩
  · rw [hs]; exact List.sorted_insertionSort _ _
  · rw [hs]; exact List.perm_insertionSort _ _

/-- C13, at a concrete input: the response lists the pins 5, 3, 4 and then
the state 1 and the result code 1; the pins come back as 3, 4, 5. -/
theorem digitalWriteAll_success_sorted_perm_witness :
    (digitalWriteAll specProtocol scripted
        (session 3 ["\x7bdwriteall:5:3:4:1:1\x7d".toList]) true).1
      = .ok (.OPERATION_SUCCESS, ([3, 4, 5] : List Int))
    ∧ ∃ k states ints, k < 3
      ∧ answer (digitalWriteAllExchange specProtocol scripted 0 true) k
          (session 3 ["\x7bdwriteall:5:3:4:1:1\x7d".toList]).m_ioStream = .ok states
      ∧ List.Forall₂ (fun field n => specProtocol.decStringToInt field = some n)
          states.dropLast.dropLast ints
      ∧ ([3, 4, 5] : List Int).Sorted (· ≤ ·) ∧ ([3, 4, 5] : List Int).Perm ints :=
  ⟨rfl, digitalWriteAll_success_sorted_perm specProtocol scripted
    (session 3 ["\x7bdwriteall:5:3:4:1:1\x7d".toList]) true [3, 4, 5] rfl⟩

/-- C14 as stated fails: the accepted response lists pin 3 twice, and
`digitalWriteAll(true)` returns `OPERATION_SUCCESS` with the list `[3, 3, 4]`,
which has a duplicate: the vector is sorted and nothing removes repeated
entries. -/
theorem digitalWriteAll_keeps_duplicates :
    (digitalWriteAll specProtocol scripted
        (session 3 ["\x7bdwriteall:3:4:3:1:1\x7d".toList]) true).1
      = .ok (.OPERATION_SUCCESS, ([3, 3, 4] : List Int))
    ∧ ¬ ([3, 3, 4] : List Int).Nodup := by
  refine ⟨rfl, by decide⟩

/-- C14, amended: whenever `digitalWriteAll(state)` returns
`OPERATION_SUCCESS`, the list returned is in ascending order and repeats a
pin exactly as often as the pin fields of the accepted response do: it has
no duplicates if and only if those fields convert to distinct integers, and
it is then strictly ascending. -/
theorem digitalWriteAll_success_nodup_iff {σ : Type} (P : Protocol) (dev : Device σ)
    (a : Arduino σ) (state : Bool) (pins : List Int)
    (h : (digitalWriteAll P dev a state).1 = .ok (.OPERATION_SUCCESS, pins)) :
    ∃ k states ints, k < a.m_ioTryCount
      ∧ answer (digitalWriteAllExchange P dev a.m_streamSendDelay state) k a.m_ioStream
        = .ok states
      ∧ List.Forall₂ (fun field n => P.decStringToInt field = some n)
          states.dropLast.dropLast ints
      ∧ pins.Sorted (· ≤ ·)
      ∧ (∀ n, pins.count n = ints.count n)
      ∧ (pins.Nodup ↔ ints.Nodup)
      ∧ (ints.Nodup → pins.Sorted (· < ·)) := by
  obtain ⟨k, states, ints, hk, hans, hf, hs⟩ := digitalWriteAll_success P dev a state pins h
  have hperm : pins.Perm ints := by rw [hs]; exact List.perm_insertionSort _ _
  have hsorted : pins.Sorted (· ≤ ·) := by rw [hs]; exact List.sorted_insertionSort _ _
  refine ⟨k, states, ints, hk, hans, hf, hsorted, fun n => hperm.count_eq n, hperm.nodup_iff, ?_⟩
  intro hnd
  exact hsorted.lt_of_le (hperm.nodup_iff.mpr hnd)

/-- C14 amended, at a concrete input: the pin fields 5, 3, 4 are distinct and
the list returned, 3, 4, 5, is strictly ascending. -/
theorem digitalWriteAll_success_nodup_iff_witness :
    ∃ k states ints, k < 3
      ∧ answer (digitalWriteAllExchange specProtocol scripted 0 true) k
          (session 3 ["\x7bdwriteall:5:3:4:1:1\x7d".toList]).m_ioStream = .ok states
      ∧ List.Forall₂ (fun field n => specProtocol.decStringToInt field = some n)
          states.dropLast.dropLast ints
      ∧ ([3, 4, 5] : List Int).Sorted (· ≤ ·)
      ∧ (∀ n, ([3, 4, 5] : List Int).count n = ints.count n)
      ∧ (([3, 4, 5] : List Int).Nodup ↔ ints.Nodup)
      ∧ (ints.Nodup → ([3, 4, 5] : List Int).Sorted (· < ·)) :=
  digitalWriteAll_success_nodup_iff specProtocol scripted
    (session 3 ["\x7bdwriteall:5:3:4:1:1\x7d".toList]) true [3, 4, 5] rfl

theorem digitalWriteAllBody_echoDiffers (P : Protocol) (tryCount : Nat) (state : Bool) (i : Nat)
    (states : List Str) (hmin : 2 ≤ P.DIGITAL_WRITE_ALL_MINIMIM_RETURN_SIZE)
    (h : echoDiffers state states = true) :
    digitalWriteAllBody P tryCount state i states
      = failOrContinue tryCount i (.OPERATION_FAILURE, []) := by
  unfold digitalWriteAllBody
  split
  · rfl
  · split
    · rfl
    · rename_i h0 hlt
      have hlen : 2 ≤ states.length := by omega
      cases hl : states.getLast? with
      | none =>
        have : states = [] := List.getLast?_eq_none_iff.mp hl
        simp [this] at hlen
      | some code =>
        simp only []
        split
        · rfl
        · cases hd : states.dropLast.getLast? with
          | none =>
            have : states.dropLast = [] := List.getLast?_eq_none_iff.mp hd
            have hl2 := congrArg List.length this
            simp only [List.length_dropLast, List.length_nil] at hl2
            omega
          | some echoed =>
            simp only []
            have hne : echoed ≠ expectedEcho state := by
              intro he
              simp [echoDiffers, hd, he] at h
            rw [if_pos hne]

/-- C15: for every try count of at least one and every requested state, if
in every response to `digitalWriteAll(state)` the echoed state field, the
last field but one, differs from `1` for true and from `0` for false, then
`digitalWriteAll` returns `(OPERATION_FAILURE, [])`, after as many exchanges
as the try count: no pin is returned, whatever the pin fields and the result
code are. The minimum size of a response is at least two. -/
theorem digitalWriteAll_echo_mismatch_fails {σ : Type} (P : Protocol) (dev : Device σ)
    (a : Arduino σ) (state : Bool)
    (hN : 1 ≤ a.m_ioTryCount)
    (hmin : 2 ≤ P.DIGITAL_WRITE_ALL_MINIMIM_RETURN_SIZE)
    (hecho : ∀ k, k < a.m_ioTryCount → answerIs (echoDiffers state)
      (answer (digitalWriteAllExchange P dev a.m_streamSendDelay state) k a.m_ioStream) = true) :
    digitalWriteAll P dev a state
      = (.ok (.OPERATION_FAILURE, []),
          { a with
            m_ioStream := afterExchanges
              (digitalWriteAllExchange P dev a.m_streamSendDelay state)
              a.m_ioTryCount a.m_ioStream }) := by
  unfold digitalWriteAll
  simp only []
  rw [tryLoop_all_fail a.m_ioTryCount _ _ _ (.OPERATION_FAILURE, []) _ hN]
  intro k hk
  obtain ⟨states, hans, hm⟩ := answerIs_ok (hecho k hk)
  exact ⟨states, hans, digitalWriteAllBody_echoDiffers P _ _ _ _ hmin hm⟩

/-- C15, at a concrete input: try count 2, state true, two responses with
valid pins and result code that echo the state 0. -/
theorem digitalWriteAll_echo_mismatch_fails_witness :
    digitalWriteAll specProtocol scripted
        (session 2 ["\x7bdwriteall:5:3:4:0:1\x7d".toList,
          "\x7bdwriteall:5:3:4:0:1\x7d".toList]) true
      = (.ok (.OPERATION_FAILURE, []),
          { session 2 ["\x7bdwriteall:5:3:4:0:1\x7d".toList,
              "\x7bdwriteall:5:3:4:0:1\x7d".toList] with
            m_ioStream := afterExchanges (digitalWriteAllExchange specProtocol scripted 0 true) 2
              (session 2 ["\x7bdwriteall:5:3:4:0:1\x7d".toList,
                "\x7bdwriteall:5:3:4:0:1\x7d".toList]).m_ioStream }) :=
  digitalWriteAll_echo_mismatch_fails specProtocol scripted
    (session 2 ["\x7bdwriteall:5:3:4:0:1\x7d".toList, "\x7bdwriteall:5:3:4:0:1\x7d".toList])
    true (by decide) (by decide) (by decide)

/-! ## `setAnalogToDigitalThreshold` -/

/-- What a success of the body of `setAnalogToDigitalThreshold` tells: the
echoed field is the decimal rendering of the threshold and the value
returned is its conversion. -/
theorem setAnalogToDigitalThresholdBody_success {P : Protocol} {tryCount : Nat}
    {threshold : Int} {i : Nat} {states : List Str} {v : Int}
    (h : setAnalogToDigitalThresholdBody P tryCount threshold i states
      = some (.ok (.OPERATION_SUCCESS, v))) :
    states[P.AD_RETURN_STATE]? = some (to_string threshold)
      ∧ P.decStringToInt (to_string threshold) = some v := by
  have hfail : ∀ {r : Except Fault (IOStatus × Int)},
      failOrContinue tryCount i (IOStatus.OPERATION_FAILURE, (0 : Int)) = some r →
      r ≠ .ok (.OPERATION_SUCCESS, v) := by
    intro r hr hc
    rw [failOrContinue_eq_some hr] at hc
    cases hc
  unfold setAnalogToDigitalThresholdBody at h
  by_cases hlen : states.length = P.A_TO_D_THRESHOLD_RETURN_SIZE
  · rw [if_neg (by simpa using hlen)] at h
    cases he : states[P.AD_RETURN_STATE]? with
    | none => rw [vat_eq_error he] at h; cases h
    | some echoed =>
      rw [vat_eq_ok he] at h
      simp only [] at h
      by_cases hee : to_string threshold = echoed
      · rw [if_neg (by simpa using hee)] at h
        cases hc : vat states P.AD_OPERATION_RESULT with
        | error e => rw [hc] at h; cases h
        | ok code =>
          rw [hc] at h
          simp only [] at h
          by_cases hce : code = P.OPERATION_FAILURE_STRING
          · rw [if_pos hce] at h
            exact absurd rfl (hfail h)
          · rw [if_neg hce] at h
            cases hd : P.decStringToInt echoed with
            | none =>
              rw [hd] at h
              exact absurd rfl (hfail h)
            | some n =>
              rw [hd] at h
              simp only [Option.some.injEq, Except.ok.injEq, Prod.mk.injEq, true_and] at h
              subst h
              subst hee
              exact ⟨rfl, hd⟩
      · rw [if_pos hee] at h
        exact absurd rfl (hfail h)
  · rw [if_pos hlen] at h
    exact absurd rfl (hfail h)

/-- C17: for every threshold `t`, negative ones included, a response to
`setAnalogToDigitalThreshold(t)` whose echoed value differs from the decimal
rendering of `t` is a failed attempt whatever its other fields are, the
result code included; and whenever the operation returns
`(OPERATION_SUCCESS, v)`, `v` is `t`. `decStringToInt` is a decimal parser:
what it makes of the decimal rendering of `t`, if anything, is `t`. -/
theorem setAnalogToDigitalThreshold_echo_then_value {σ : Type} (P : Protocol)
    (dev : Device σ) (a : Arduino σ) (threshold : Int)
    (hdec : ∀ v, P.decStringToInt (to_string threshold) = some v → v = threshold) :
    (∀ (i : Nat) (states : List Str) (echoed : Str),
        states[P.AD_RETURN_STATE]? = some echoed → echoed ≠ to_string threshold →
        setAnalogToDigitalThresholdBody P a.m_ioTryCount threshold i states
          = failOrContinue a.m_ioTryCount i (.OPERATION_FAILURE, 0))
    ∧ (∀ v, (setAnalogToDigitalThreshold P dev a threshold).1 = .ok (.OPERATION_SUCCESS, v) →
        v = threshold) := by
  constructor
  · intro i states echoed he hne
    unfold setAnalogToDigitalThresholdBody
    by_cases hlen : states.length = P.A_TO_D_THRESHOLD_RETURN_SIZE
    · rw [if_neg (by simpa using hlen), vat_eq_ok he]
      simp only []
      rw [if_pos (fun h => hne h.symm)]
    · rw [if_pos hlen]
  · intro v h
    unfold setAnalogToDigitalThreshold at h
    simp only [] at h
    rcases tryLoop_ok_from_body _ _ _ _ _ _ _ _ h with hf | ⟨k, states, _, _, hb⟩
    · cases hf
    · exact hdec v (setAnalogToDigitalThresholdBody_success hb).2

/-- C17, at a concrete input: threshold -5, a first response that echoes -6
with a success code, a second that echoes -5. -/
theorem setAnalogToDigitalThreshold_echo_then_value_witness :
    setAnalogToDigitalThresholdBody specProtocol 2 (-5) 0 ["1".toList, "-6".toList]
      = failOrContinue 2 0 (.OPERATION_FAILURE, 0)
    ∧ (setAnalogToDigitalThreshold specProtocol scripted
        (session 2 ["\x7batodchange:1:-6\x7d".toList, "\x7batodchange:1:-5\x7d".toList])
        (-5)).1 = .ok (.OPERATION_SUCCESS, -5) :=
  ⟨(setAnalogToDigitalThreshold_echo_then_value specProtocol scripted
      (session 2 ["\x7batodchange:1:-6\x7d".toList, "\x7batodchange:1:-5\x7d".toList]) (-5)
      (fun v h => by
        have h2 : specProtocol.decStringToInt (to_string (-5)) = some (-5) := by decide
        rw [h2] at h
        exact (Option.some.inj h).symm)).1 0 ["1".toList, "-6".toList] "-6".toList
      rfl (by decide),
    rfl⟩

/-! ## Decimal digits -/

theorem digitChar_facts : ∀ d, d < 10 →
    (Nat.digitChar d).isDigit = true ∧ (Nat.digitChar d).toNat - '0'.toNat = d
      ∧ isspace (Nat.digitChar d) = false ∧ Nat.digitChar d ≠ '-' ∧ Nat.digitChar d ≠ '+'
      ∧ Nat.digitChar d ≠ ':' ∧ Nat.digitChar d ≠ '\r' := by
  decide

theorem toDigitsCore_head (fuel : Nat) : ∀ (n : Nat) (ds : Str), n < fuel →
    ∃ d rest, d < 10 ∧ Nat.toDigitsCore 10 fuel n ds = Nat.digitChar d :: rest := by
  induction fuel with
  | zero => intro n ds h; omega
  | succ f ih =>
    intro n ds h
    rw [Nat.toDigitsCore]
    by_cases h0 : n / 10 = 0
    · simp only [h0, if_true]
      exact ⟨n % 10, ds, Nat.mod_lt _ (by omega), rfl⟩
    · simp only [h0, if_false]
      exact ih (n / 10) _ (by omega)

theorem toDigitsCore_chars (fuel : Nat) : ∀ (n : Nat) (ds : Str) (c : Char),
    c ∈ Nat.toDigitsCore 10 fuel n ds → c ∈ ds ∨ ∃ d, d < 10 ∧ c = Nat.digitChar d := by
  induction fuel with
  | zero => intro n ds c h; exact Or.inl (by simpa [Nat.toDigitsCore] using h)
  | succ f ih =>
    intro n ds c h
    rw [Nat.toDigitsCore] at h
    by_cases h0 : n / 10 = 0
    · simp only [h0, if_true, List.mem_cons] at h
      rcases h with h | h
      · exact Or.inr ⟨n % 10, Nat.mod_lt _ (by omega), h⟩
      · exact Or.inl h
    · simp only [h0, if_false] at h
      rcases ih _ _ _ h with h1 | h1
      · rcases List.mem_cons.mp h1 with h2 | h2
        · exact Or.inr ⟨n % 10, Nat.mod_lt _ (by omega), h2⟩
        · exact Or.inl h2
      · exact Or.inr h1

theorem toDigitsCore_value (fuel : Nat) : ∀ (n : Nat) (ds : Str), n < fuel →
    (Nat.toDigitsCore 10 fuel n ds).foldl (fun v c => 10 * v + (c.toNat - '0'.toNat)) 0
      = ds.foldl (fun v c => 10 * v + (c.toNat - '0'.toNat)) n := by
  induction fuel with
  | zero => intro n ds h; omega
  | succ f ih =>
    intro n ds h
    rw [Nat.toDigitsCore]
    have hd := (digitChar_facts (n % 10) (Nat.mod_lt _ (by omega))).2.1
    by_cases h0 : n / 10 = 0
    · simp only [h0, if_true, List.foldl_cons, hd]
      congr 1
      have := Nat.div_add_mod n 10
      omega
    · simp only [h0, if_false]
      rw [ih (n / 10) _ (by omega)]
      simp only [List.foldl_cons, hd]
      congr 1
      have := Nat.div_add_mod n 10
      omega

/-- On an attempt that is not the last one, the body of `canCapability`
returns success from a response whose result field is the failure sentinel. -/
theorem canCapabilityBody_sentinel_not_last (P : Protocol) (tryCount i : Nat)
    (states : List Str) (state : Str) (n : Int) (hi : i + 1 ≠ tryCount)
    (hcode : states[P.CAN_OPERATION_RESULT]? = some P.OPERATION_FAILURE_STRING)
    (hs : states[P.CAN_RETURN_STATE]? = some state) (hd : P.decStringToInt state = some n) :
    canCapabilityBody P tryCount i states = some (.ok (.OPERATION_SUCCESS, n == 1)) := by
  unfold canCapabilityBody
  rw [if_neg (fun h => hi h.2), vat_eq_ok hcode]
  simp only []
  rw [if_neg (fun h => hi h.2), vat_eq_ok hs]
  simp only [hd]

/-- C19, evaluated on the code: with try count 2 the first response is
`[-1, 1]`, its result field the failure sentinel `-1`, and `canCapability`
returns `(OPERATION_SUCCESS, true)` from it after one exchange: the test of
the result code has no `else continue`, so on an attempt that is not the
last one control goes on to the conversion of the state field. With try
count 1 the same response gives `(OPERATION_FAILURE, false)`. -/
theorem canCapability_succeeds_on_failure_sentinel :
    answer (fun s => genericIOTask specProtocol scripted s
          (specProtocol.CAN_BUS_ENABLED_HEADER ++ [specProtocol.LINE_ENDING])
          specProtocol.CAN_BUS_ENABLED_HEADER 0) 0
        (session 2 ["\x7bcanbus:-1:1\x7d".toList, "\x7bcanbus:-1:1\x7d".toList]).m_ioStream
      = .ok [specProtocol.OPERATION_FAILURE_STRING, "1".toList]
    ∧ (canCapability specProtocol scripted
        (session 2 ["\x7bcanbus:-1:1\x7d".toList, "\x7bcanbus:-1:1\x7d".toList])).1
      = .ok (.OPERATION_SUCCESS, true)
    ∧ (canCapability specProtocol scripted
        (session 2 ["\x7bcanbus:-1:1\x7d".toList,
          "\x7bcanbus:-1:1\x7d".toList])).2.m_ioStream.written.length = 1
    ∧ (canCapability specProtocol scripted (session 1 ["\x7bcanbus:-1:1\x7d".toList])).1
      = .ok (.OPERATION_FAILURE, false) := by
  refine ⟨rfl, rfl, rfl, rfl⟩

/-! ## The pin catalogue -/

set_option maxRecDepth 100000 in
/-- C20: for each of the boards UNO, NANO and MEGA, after
`assignPinsAndIdentifiers` the keys of `m_gpioPins` are exactly the pins of
the catalogue of the board, each once; every entry holds the pin number of
its key; and its mode is analog input when the pin is in the analog pin set
of the board and digital input with pull-up otherwise. -/
theorem assignPinsAndIdentifiers_gpioPins (arduinoType : ArduinoType) :
    (assignPinsAndIdentifiers arduinoType).m_availablePins = pinCatalog arduinoType
    ∧ (assignPinsAndIdentifiers arduinoType).m_availableAnalogPins = analogPinSet arduinoType
    ∧ (pinCatalog arduinoType).Nodup
    ∧ (assignPinsAndIdentifiers arduinoType).m_gpioPins.map Prod.fst = pinCatalog arduinoType
    ∧ ∀ e ∈ (assignPinsAndIdentifiers arduinoType).m_gpioPins,
        e.2.pinNumber = e.1
        ∧ e.2.ioType
          = if e.1 ∈ analogPinSet arduinoType then IOType.ANALOG_INPUT
            else IOType.DIGITAL_INPUT_PULLUP := by
  cases arduinoType <;> decide

/-! ## The simulated firmware, for every pin -/

theorem to_string_chars (n : Int) :
    to_string n ≠ [] ∧ ∀ c ∈ to_string n, c ≠ ':' ∧ c ≠ '\r' := by
  have hnat : ∀ m : Nat, Nat.toDigits 10 m ≠ []
      ∧ ∀ c ∈ Nat.toDigits 10 m, c ≠ ':' ∧ c ≠ '\r' := by
    intro m
    constructor
    · obtain ⟨d, rest, _, h⟩ := toDigitsCore_head (m + 1) m [] (by omega)
      intro hnil
      have h' : Nat.toDigits 10 m = Nat.digitChar d :: rest := h
      rw [hnil] at h'
      cases h'
    · intro c hc
      rcases toDigitsCore_chars _ _ _ _ hc with h | ⟨e, he, rfl⟩
      · cases h
      · exact ⟨(digitChar_facts e he).2.2.2.2.2.1, (digitChar_facts e he).2.2.2.2.2.2⟩
  cases n with
  | ofNat m => exact hnat m
  | negSucc m =>
    constructor
    · exact List.cons_ne_nil _ _
    · intro c hc
      rcases List.mem_cons.mp hc with h | h
      · subst h; exact ⟨by decide, by decide⟩
      · exact (hnat (m + 1)).2 c h

theorem pieces_last (d : Char) (seg : Str) (h : ∀ c ∈ seg, c ≠ d) :
    ∀ cur : Str, pieces d cur seg = [cur ++ seg] := by
  induction seg with
  | nil => intro cur; simp [pieces]
  | cons c cs ih =>
    intro cur
    rw [pieces, if_neg (h c (List.mem_cons_self _ _)),
      ih (fun x hx => h x (List.mem_cons_of_mem _ hx))]
    simp

theorem pieces_segment (d : Char) (seg rest : Str) (h : ∀ c ∈ seg, c ≠ d) :
    ∀ cur : Str, pieces d cur (seg ++ d :: rest) = (cur ++ seg) :: pieces d [] rest := by
  induction seg with
  | nil => intro cur; simp [pieces]
  | cons c cs ih =>
    intro cur
    rw [List.cons_append, pieces, if_neg (h c (List.mem_cons_self _ _)),
      ih (fun x hx => h x (List.mem_cons_of_mem _ hx))]
    simp

/-- The fields of `header:pin:state` for texts without a colon. -/
theorem pieces_three (header pin state : Str) (hh : ∀ c ∈ header, c ≠ ':')
    (hp : ∀ c ∈ pin, c ≠ ':') (hs : ∀ c ∈ state, c ≠ ':') :
    pieces ':' [] (header ++ ':' :: (pin ++ ':' :: state)) = [header, pin, state] := by
  rw [pieces_segment ':' header _ hh, pieces_segment ':' pin _ hp, pieces_last ':' state hs]
  simp

/-- The fields of `header:pin` for texts without a colon. -/
theorem pieces_two (header pin : Str) (hh : ∀ c ∈ header, c ≠ ':')
    (hp : ∀ c ∈ pin, c ≠ ':') :
    pieces ':' [] (header ++ ':' :: pin) = [header, pin] := by
  rw [pieces_segment ':' header _ hh, pieces_last ':' pin hp]
  simp

theorem stripAllFromString_end (body : Str) (c : Char) (h : ∀ x ∈ body, x ≠ c) :
    stripAllFromString (body ++ [c]) c = body := by
  unfold stripAllFromString
  rw [List.filter_append, List.filter_eq_self.mpr (fun x hx => by simpa using h x hx)]
  simp

theorem digitalWriteRequest_shape (pinNumber : Int) (state : Bool) :
    digitalWriteRequest specProtocol pinNumber state
      = ("\x7bdwrite".toList ++ ':' :: (to_string pinNumber ++ ':' :: to_string_bool state))
          ++ ['\r'] := by
  have e1 : ":".toList = [':'] := rfl
  have e2 : specProtocol.DIGITAL_WRITE_HEADER = "\x7bdwrite".toList := rfl
  have e3 : specProtocol.LINE_ENDING = '\r' := rfl
  simp only [digitalWriteRequest, e1, e2, e3, List.append_assoc, List.singleton_append,
    List.cons_append, List.nil_append]

theorem digitalReadRequest_shape (pinNumber : Int) :
    digitalReadRequest specProtocol pinNumber
      = ("\x7bdread".toList ++ ':' :: to_string pinNumber) ++ ['\r'] := by
  have e1 : ":".toList = [':'] := rfl
  have e2 : specProtocol.DIGITAL_READ_HEADER = "\x7bdread".toList := rfl
  have e3 : specProtocol.LINE_ENDING = '\r' := rfl
  simp only [digitalReadRequest, e1, e2, e3, List.append_assoc, List.singleton_append,
    List.cons_append, List.nil_append]

theorem to_string_bool_chars (state : Bool) :
    to_string_bool state = expectedEcho state
      ∧ ∀ c ∈ to_string_bool state, c ≠ ':' ∧ c ≠ '\r' := by
  cases state <;> exact ⟨rfl, by decide⟩

/-- What the simulated firmware does with a digital-write frame. -/
theorem echoBoard_writeLine_dwrite (w : Board) (pinNumber : Int) (state : Bool) :
    echoBoard.writeLine w (digitalWriteRequest specProtocol pinNumber state)
      = { stored := (to_string pinNumber, to_string_bool state) :: w.stored,
          pending := "\x7bdwrite:".toList ++ to_string pinNumber ++ ":1:".toList
            ++ to_string_bool state ++ "\x7d".toList } := by
  obtain ⟨_, hp⟩ := to_string_chars pinNumber
  obtain ⟨_, hs⟩ := to_string_bool_chars state
  have hh : ∀ c ∈ "\x7bdwrite".toList, c ≠ ':' ∧ c ≠ '\r' := by decide
  have hstrip : stripAllFromString (digitalWriteRequest specProtocol pinNumber state) '\r'
      = "\x7bdwrite".toList ++ ':' :: (to_string pinNumber ++ ':' :: to_string_bool state) := by
    rw [digitalWriteRequest_shape]
    apply stripAllFromString_end
    intro x hx
    rcases List.mem_append.mp hx with h | h
    · exact (hh x h).2
    · rcases List.mem_cons.mp h with h | h
      · subst h; decide
      · rcases List.mem_append.mp h with h | h
        · exact (hp x h).2
        · rcases List.mem_cons.mp h with h | h
          · subst h; decide
          · exact (hs x h).2
  show (match pieces ':' [] (stripAllFromString
      (digitalWriteRequest specProtocol pinNumber state) '\r') with
    | [header, pin, state] =>
      if header = "\x7bdwrite".toList then
        ({ stored := (pin, state) :: w.stored,
           pending := "\x7bdwrite:".toList ++ pin ++ ":1:".toList ++ state
             ++ "\x7d".toList } : Board)
      else { w with pending := [] }
    | [header, pin] =>
      if header = "\x7bdread".toList then
        { w with
          pending := "\x7bdread:".toList ++ pin ++ ":1:".toList ++ w.lookup pin
            ++ "\x7d".toList }
      else { w with pending := [] }
    | _ => { w with pending := [] }) = _
  rw [hstrip, pieces_three _ _ _ (fun c hc => (hh c hc).1) (fun c hc => (hp c hc).1)
    (fun c hc => (hs c hc).1)]
  simp only [if_true]

/-- What the simulated firmware does with a digital-read frame. -/
theorem echoBoard_writeLine_dread (w : Board) (pinNumber : Int) :
    echoBoard.writeLine w (digitalReadRequest specProtocol pinNumber)
      = { w with
          pending := "\x7bdread:".toList ++ to_string pinNumber ++ ":1:".toList
            ++ w.lookup (to_string pinNumber) ++ "\x7d".toList } := by
  obtain ⟨_, hp⟩ := to_string_chars pinNumber
  have hh : ∀ c ∈ "\x7bdread".toList, c ≠ ':' ∧ c ≠ '\r' := by decide
  have hstrip : stripAllFromString (digitalReadRequest specProtocol pinNumber) '\r'
      = "\x7bdread".toList ++ ':' :: to_string pinNumber := by
    rw [digitalReadRequest_shape]
    apply stripAllFromString_end
    intro x hx
    rcases List.mem_append.mp hx with h | h
    · exact (hh x h).2
    · rcases List.mem_cons.mp h with h | h
      · subst h; decide
      · exact (hp x h).2
  show (match pieces ':' [] (stripAllFromString
      (digitalReadRequest specProtocol pinNumber) '\r') with
    | [header, pin, state] =>
      if header = "\x7bdwrite".toList then
        ({ stored := (pin, state) :: w.stored,
           pending := "\x7bdwrite:".toList ++ pin ++ ":1:".toList ++ state
             ++ "\x7d".toList } : Board)
      else { w with pending := [] }
    | [header, pin] =>
      if header = "\x7bdread".toList then
        { w with
          pending := "\x7bdread:".toList ++ pin ++ ":1:".toList ++ w.lookup pin
            ++ "\x7d".toList }
      else { w with pending := [] }
    | _ => { w with pending := [] }) = _
  rw [hstrip, pieces_two _ _ (fun c hc => (hh c hc).1) (fun c hc => (hp c hc).1)]
  simp only [if_true]

/-- The fields `genericIOTask` makes of the frame `header:pin:1:state}`. -/
theorem genericIOTaskParse_ioState_frame (header pin state : Str)
    (hhdr : endsWith header '\x7d' = false)
    (hp : pin ≠ []) (hpc : ∀ c ∈ pin, c ≠ ':')
    (hs : state ≠ []) (hsc : ∀ c ∈ state, c ≠ ':') :
    genericIOTaskParse specProtocol
        ((header ++ ':' :: (pin ++ ':' :: '1' :: ':' :: state)) ++ ['\x7d']) header
      = .ok [pin, ['1'], state] := by
  have hterm : specProtocol.TERMINATING_CHARACTER = '\x7d' := rfl
  have hle : specProtocol.LINE_ENDING = '\r' := rfl
  rw [genericIOTaskParse_eq_parseResponse specProtocol _ _ (by rw [hterm]; exact hhdr)]
  unfold parseResponse
  rw [hterm, hle]
  have hbody : (header ++ ':' :: (pin ++ ':' :: '1' :: ':' :: state)) ++ ['\x7d']
      = header ++ ':' :: ((pin ++ ':' :: '1' :: ':' :: state) ++ ['\x7d']) := by
    simp only [List.append_assoc, List.cons_append]
  have hnotle : ¬ ['\r'] <:+ (header ++ ':' :: (pin ++ ':' :: '1' :: ':' :: state)) ++ ['\x7d'] := by
    intro h
    have h2 := (endsWith_iff_suffix _ _).mpr h
    unfold endsWith at h2
    rw [List.getLast?_concat] at h2
    exact absurd h2 (by decide)
  have hsuf : ['\x7d'] <:+ (header ++ ':' :: (pin ++ ':' :: '1' :: ':' :: state)) ++ ['\x7d'] :=
    List.suffix_append _ _
  have hpre : header <+: (header ++ ':' :: (pin ++ ':' :: '1' :: ':' :: state)) ++ ['\x7d'] := by
    rw [List.append_assoc]
    exact ⟨_, rfl⟩
  simp only [if_neg hnotle, if_pos (And.intro hpre hsuf)]
  have hdrop : (List.drop (header.length + 1)
        ((header ++ ':' :: (pin ++ ':' :: '1' :: ':' :: state)) ++ ['\x7d'])).dropLast
      = pin ++ ':' :: ('1' :: ':' :: state) := by
    rw [hbody, List.drop_append]
    show ((pin ++ ':' :: '1' :: ':' :: state) ++ ['\x7d']).dropLast = _
    rw [List.dropLast_concat]
  rw [hdrop]
  show Except.ok (splitNonEmpty (pin ++ ':' :: ('1' :: ':' :: state)) ':') = _
  congr 1
  unfold splitNonEmpty
  rw [pieces_segment ':' pin _ hpc]
  have h1 : pieces ':' [] ('1' :: ':' :: state) = [['1'], state] := by
    have := pieces_segment ':' ['1'] state (by decide) []
    rw [pieces_last ':' state hsc] at this
    simpa using this
  rw [h1]
  simp [hp, hs]

theorem genericIOTaskRead_echoBoard (s : TStream Board) (stringToSend : Str) (delay : Nat) :
    (genericIOTaskRead specProtocol echoBoard s stringToSend delay).1
        = (echoBoard.writeLine s.wire stringToSend).pending
      ∧ (genericIOTaskRead specProtocol echoBoard s stringToSend delay).2.wire
        = { echoBoard.writeLine s.wire stringToSend with pending := [] } := by
  unfold genericIOTaskRead
  cases s.isOpen <;> exact ⟨rfl, rfl⟩

/-- The simulated firmware answers a digital-write frame with
`[pin, 1, written state]` and stores the state. -/
theorem echoBoard_answers_write (s : TStream Board) (delay : Nat) (pinNumber : Int)
    (state : Bool) :
    (digitalWriteExchange specProtocol echoBoard delay pinNumber state s).1
        = .ok [to_string pinNumber, ['1'], to_string_bool state]
      ∧ (digitalWriteExchange specProtocol echoBoard delay pinNumber state s).2.wire.stored
        = (to_string pinNumber, to_string_bool state) :: s.wire.stored := by
  obtain ⟨hp, hpc⟩ := to_string_chars pinNumber
  obtain ⟨hr1, hr2⟩ := genericIOTaskRead_echoBoard s
    (digitalWriteRequest specProtocol pinNumber state) delay
  unfold digitalWriteExchange genericIOTask
  simp only []
  rw [hr1, hr2, echoBoard_writeLine_dwrite]
  refine ⟨?_, rfl⟩
  have hshape : "\x7bdwrite:".toList ++ to_string pinNumber ++ ":1:".toList
        ++ to_string_bool state ++ "\x7d".toList
      = ("\x7bdwrite".toList ++ ':' :: (to_string pinNumber ++ ':' :: '1' :: ':'
          :: to_string_bool state)) ++ ['\x7d'] := by
    have e1 : "\x7bdwrite:".toList = "\x7bdwrite".toList ++ [':'] := rfl
    have e2 : ":1:".toList = [':', '1', ':'] := rfl
    have e3 : "\x7d".toList = ['\x7d'] := rfl
    simp only [e1, e2, e3, List.append_assoc, List.singleton_append, List.cons_append,
      List.nil_append]
  show genericIOTaskParse specProtocol _ "\x7bdwrite".toList = _
  rw [hshape]
  exact genericIOTaskParse_ioState_frame _ _ _ (by decide) hp (fun c hc => (hpc c hc).1)
    (by cases state <;> decide) (fun c hc => ((to_string_bool_chars state).2 c hc).1)

/-- The simulated firmware answers a digital-read frame with
`[pin, 1, stored state]`. -/
theorem echoBoard_answers_read (s : TStream Board) (delay : Nat) (pinNumber : Int)
    (hstored : s.wire.lookup (to_string pinNumber) ≠ [])
    (hcolon : ∀ c ∈ s.wire.lookup (to_string pinNumber), c ≠ ':') :
    (digitalReadExchange specProtocol echoBoard delay pinNumber s).1
      = .ok [to_string pinNumber, ['1'], s.wire.lookup (to_string pinNumber)] := by
  obtain ⟨hp, hpc⟩ := to_string_chars pinNumber
  obtain ⟨hr1, _⟩ := genericIOTaskRead_echoBoard s
    (digitalReadRequest specProtocol pinNumber) delay
  unfold digitalReadExchange genericIOTask
  simp only []
  rw [hr1, echoBoard_writeLine_dread]
  have hshape : "\x7bdread:".toList ++ to_string pinNumber ++ ":1:".toList
        ++ s.wire.lookup (to_string pinNumber) ++ "\x7d".toList
      = ("\x7bdread".toList ++ ':' :: (to_string pinNumber ++ ':' :: '1' :: ':'
          :: s.wire.lookup (to_string pinNumber))) ++ ['\x7d'] := by
    have e1 : "\x7bdread:".toList = "\x7bdread".toList ++ [':'] := rfl
    have e2 : ":1:".toList = [':', '1', ':'] := rfl
    have e3 : "\x7d".toList = ['\x7d'] := rfl
    simp only [e1, e2, e3, List.append_assoc, List.singleton_append, List.cons_append,
      List.nil_append]
  show genericIOTaskParse specProtocol _ "\x7bdread".toList = _
  rw [hshape]
  exact genericIOTaskParse_ioState_frame _ _ _ (by decide) hp (fun c hc => (hpc c hc).1)
    hstored hcolon

theorem ioStateFields_specProtocol (pinNumber : Int) (state : Str) :
    ioStateFields specProtocol pinNumber state [to_string pinNumber, ['1'], state] = true := by
  have e1 : specProtocol.IO_STATE_RETURN_SIZE = 3 := rfl
  have e2 : specProtocol.PIN_NUMBER = 0 := rfl
  have e3 : specProtocol.RETURN_CODE = 1 := rfl
  have e4 : specProtocol.STATE = 2 := rfl
  have e5 : specProtocol.OPERATION_FAILURE_STRING = ['-', '1'] := rfl
  simp [ioStateFields, e1, e2, e3, e4, e5]

theorem decStringToInt_to_string_bool (state : Bool) :
    ∃ n, specProtocol.decStringToInt (to_string_bool state) = some n ∧ (n == 1) = state := by
  cases state
  · exact ⟨0, by decide, by decide⟩
  · exact ⟨1, by decide, by decide⟩

/-- On the simulated firmware `echoBoard`, which stores the state written
per pin and answers a digital-write frame with `[pin, 1, written state]` and
a digital-read frame with `[pin, 1, stored state]`: for every session with a
try count of at least one, every pin and every state,
`digitalWrite(pin, state)` returns `(OPERATION_SUCCESS, state)` and the
`digitalRead(pin)` that follows returns `(OPERATION_SUCCESS, state)`. -/
theorem echoBoard_digitalWrite_then_digitalRead (a : Arduino Board) (pinNumber : Int)
    (state : Bool) (hN : 1 ≤ a.m_ioTryCount) :
    (digitalWrite specProtocol echoBoard a pinNumber state).1 = .ok (.OPERATION_SUCCESS, state)
    ∧ (digitalRead specProtocol echoBoard
        (digitalWrite specProtocol echoBoard a pinNumber state).2 pinNumber).1
      = .ok (.OPERATION_SUCCESS, state) := by
  obtain ⟨n, hdec, hn⟩ := decStringToInt_to_string_bool state
  obtain ⟨hw1, hw2⟩ := echoBoard_answers_write a.m_ioStream a.m_streamSendDelay pinNumber state
  have hw : answerIs (ioStateFields specProtocol pinNumber (to_string_bool state))
      (answer (digitalWriteExchange specProtocol echoBoard a.m_streamSendDelay pinNumber state)
        0 a.m_ioStream) = true := by
    show answerIs _ (digitalWriteExchange specProtocol echoBoard a.m_streamSendDelay
      pinNumber state a.m_ioStream).1 = true
    rw [hw1]
    exact ioStateFields_specProtocol pinNumber _
  have hwrite : digitalWrite specProtocol echoBoard a pinNumber state
      = (.ok (.OPERATION_SUCCESS, state),
          { a with
            m_ioStream := (digitalWriteExchange specProtocol echoBoard a.m_streamSendDelay
              pinNumber state a.m_ioStream).2 }) := by
    unfold digitalWrite
    simp only []
    rw [tryLoop_digitalReadBody_first specProtocol _ _ pinNumber _ n _ hN hdec hw, hn]
  refine ⟨by rw [hwrite], ?_⟩
  rw [hwrite]
  have hlook : (digitalWriteExchange specProtocol echoBoard a.m_streamSendDelay
      pinNumber state a.m_ioStream).2.wire.lookup (to_string pinNumber)
        = to_string_bool state := by
    unfold Board.lookup
    rw [hw2]
    simp
  have hr1 := echoBoard_answers_read
    (digitalWriteExchange specProtocol echoBoard a.m_streamSendDelay
      pinNumber state a.m_ioStream).2 a.m_streamSendDelay pinNumber
    (by rw [hlook]; cases state <;> decide)
    (by rw [hlook]; exact fun c hc => ((to_string_bool_chars state).2 c hc).1)
  rw [hlook] at hr1
  have hr : answerIs (ioStateFields specProtocol pinNumber (to_string_bool state))
      (answer (digitalReadExchange specProtocol echoBoard a.m_streamSendDelay pinNumber) 0
        (digitalWriteExchange specProtocol echoBoard a.m_streamSendDelay
          pinNumber state a.m_ioStream).2) = true := by
    show answerIs _ (digitalReadExchange specProtocol echoBoard a.m_streamSendDelay pinNumber
      (digitalWriteExchange specProtocol echoBoard a.m_streamSendDelay
        pinNumber state a.m_ioStream).2).1 = true
    rw [hr1]
    exact ioStateFields_specProtocol pinNumber _
  unfold digitalRead
  simp only []
  rw [tryLoop_digitalReadBody_first specProtocol _ _ pinNumber _ n _ hN hdec hr, hn]

/-! ## The time-out around an exchange -/

/-- C25: for every execution of `genericIOTask` the time-out of the port
after the call is the time-out before it, whatever the response and whether
it is accepted, rejected with the empty sequence, or makes the parser throw.
The per-call time-out `SERIAL_REPORT_REQUEST_TIME_LIMIT` is what the port
carries while the request is written and the response polled: the port
after the call is the port at the end of the polling, which carries the
per-call time-out, with the saved time-out put back. -/
theorem genericIOTask_restores_timeout {σ : Type} (P : Protocol) (dev : Device σ)
    (s : TStream σ) (stringToSend header : Str) (delay : Nat) :
    (genericIOTask P dev s stringToSend header delay).2.timeout = s.timeout
    ∧ (pollLine dev P.LINE_ENDING dev.polls
        (((if !s.isOpen then s.openPort else s).setTimeout
          P.SERIAL_REPORT_REQUEST_TIME_LIMIT).writeLine dev stringToSend)).2.timeout
        = P.SERIAL_REPORT_REQUEST_TIME_LIMIT
    ∧ (genericIOTask P dev s stringToSend header delay).2
        = (pollLine dev P.LINE_ENDING dev.polls
            (((if !s.isOpen then s.openPort else s).setTimeout
              P.SERIAL_REPORT_REQUEST_TIME_LIMIT).writeLine dev stringToSend)).2.setTimeout
            s.timeout := by
  have hopen : (if !s.isOpen then s.openPort else s).timeout = s.timeout := by
    cases s.isOpen <;> rfl
  refine ⟨?_, ?_, ?_⟩
  · unfold genericIOTask genericIOTaskRead
    simp only [TStream.setTimeout]
    exact hopen
  · rw [(pollLine_written dev _ _ _).2.2]
    rfl
  · unfold genericIOTask genericIOTaskRead
    simp only []
    rw [hopen]

/-! ## The serial report without a delimiter -/

/-- C26: `serialReportRequest` with the empty delimiter returns the report
whose only entry is the empty string and reads nothing: the state of the
wire and the lines written are those before the call, whatever is pending. -/
theorem serialReportRequest_empty_delimiter {σ : Type} (P : Protocol) (dev : Device σ)
    (a : Arduino σ) :
    (serialReportRequest P dev a []).1 = [[]]
    ∧ (serialReportRequest P dev a []).2.m_ioStream.wire = a.m_ioStream.wire
    ∧ (serialReportRequest P dev a []).2.m_ioStream.written = a.m_ioStream.written := by
  refine ⟨rfl, ?_, ?_⟩
  · unfold serialReportRequest
    simp only [if_true]
    cases a.m_ioStream.isOpen <;> rfl
  · unfold serialReportRequest
    simp only [if_true]
    cases a.m_ioStream.isOpen <;> rfl

/-! ## The loop body shared by the pin operations -/

/-- The body of `digitalRead` is the shared body with the conversion
`decStringToInt(...) == 1`. -/
theorem digitalReadBody_eq_ioStateBody (P : Protocol) (tryCount : Nat) (pinNumber : Int)
    (i : Nat) (states : List Str) :
    digitalReadBody P tryCount pinNumber i states
      = ioStateBody P P.IO_STATE_RETURN_SIZE
          (fun state => (P.decStringToInt state).map (fun n => n == 1)) false
          tryCount pinNumber i states := by
  unfold digitalReadBody ioStateBody
  split
  · rfl
  · cases vat states P.PIN_NUMBER with
    | error e => rfl
    | ok pin =>
      simp only []
      split
      · rfl
      · cases vat states P.RETURN_CODE with
        | error e => rfl
        | ok code =>
          simp only []
          split
          · rfl
          · cases vat states P.STATE with
            | error e => rfl
            | ok state =>
              simp only []
              cases P.decStringToInt state <;> rfl

/-- On a response `[pin, success code, state]` whose state field converts,
the shared body returns success with the converted value. -/
theorem ioStateBody_ioStateFields {R : Type} (P : Protocol) (convert : Str → Option R)
    (failure : R) (tryCount : Nat) (pinNumber : Int) (i : Nat) (states : List Str)
    (state : Str) (v : R) (hconv : convert state = some v)
    (h : ioStateFields P pinNumber state states = true) :
    ioStateBody P P.IO_STATE_RETURN_SIZE convert failure tryCount pinNumber i states
      = some (.ok (.OPERATION_SUCCESS, v)) := by
  simp only [ioStateFields, Bool.and_eq_true, beq_iff_eq, bne_iff_ne, ne_eq] at h
  obtain ⟨⟨⟨⟨hlen, hp⟩, hcs⟩, hne⟩, hs⟩ := h
  obtain ⟨code, hc⟩ := Option.isSome_iff_exists.mp hcs
  unfold ioStateBody
  rw [if_neg (by simpa using hlen), vat_eq_ok hp]
  simp only [ne_eq, not_true_eq_false, if_false]
  rw [vat_eq_ok hc]
  simp only []
  rw [if_neg (by intro hcode; exact hne (by rw [hc, hcode])), vat_eq_ok hs]
  simp only [hconv]

/-- The shared body with a conversion followed by `f` is the shared body
with the conversion alone, its pair mapped: the value of a success through
`f`, the value of a failure replaced. -/
theorem ioStateBody_map {R R' : Type} (P : Protocol) (returnSize : Nat)
    (convert : Str → Option R) (f : R → R') (failure : R) (failure' : R')
    (g : IOStatus × R → IOStatus × R')
    (hfail : g (.OPERATION_FAILURE, failure) = (.OPERATION_FAILURE, failure'))
    (hok : ∀ v, g (.OPERATION_SUCCESS, v) = (.OPERATION_SUCCESS, f v))
    (tryCount : Nat) (pinNumber : Int) (i : Nat) (states : List Str) :
    ioStateBody P returnSize (fun state => (convert state).map f) failure'
        tryCount pinNumber i states
      = (ioStateBody P returnSize convert failure tryCount pinNumber i states).map
          (Except.map g) := by
  have hfc : failOrContinue tryCount i (IOStatus.OPERATION_FAILURE, failure')
      = (failOrContinue tryCount i (IOStatus.OPERATION_FAILURE, failure)).map
          (Except.map g) := by
    unfold failOrContinue
    split
    · simp [Except.map, hfail]
    · rfl
  unfold ioStateBody
  split
  · exact hfc
  · cases vat states P.PIN_NUMBER with
    | error e => rfl
    | ok pin =>
      simp only []
      split
      · exact hfc
      · cases vat states P.RETURN_CODE with
        | error e => rfl
        | ok code =>
          simp only []
          split
          · exact hfc
          · cases vat states P.STATE with
            | error e => exact hfc
            | ok state =>
              simp only []
              cases convert state with
              | none => exact hfc
              | some v => simp [Except.map, hok]

/-- A loop whose body and fall-through value are those of another loop
mapped through `g` returns the result of that loop mapped through `g`, and
leaves the port in the same state. -/
theorem tryLoop_map {σ R R' : Type} (bound : Nat)
    (exchange : TStream σ → Except Fault (List Str) × TStream σ)
    (body : Nat → List Str → Option (Except Fault R))
    (body' : Nat → List Str → Option (Except Fault R')) (fallthrough : R) (g : R → R')
    (hbody : ∀ i states, body' i states = (body i states).map (Except.map g)) :
    ∀ (left i : Nat) (s : TStream σ),
      tryLoop bound exchange body' (g fallthrough) left i s
        = (Except.map g (tryLoop bound exchange body fallthrough left i s).1,
            (tryLoop bound exchange body fallthrough left i s).2) := by
  intro left
  induction left with
  | zero => intro i s; rfl
  | succ left ih =>
    intro i s
    rw [tryLoop, tryLoop]
    by_cases hi : i < bound
    · rw [if_pos hi, if_pos hi]
      cases hans : (exchange s).1 with
      | error e => rfl
      | ok states =>
        simp only []
        rw [hbody i states]
        cases hb : body i states with
        | none => simp only [Option.map_none']; exact ih (i + 1) (exchange s).2
        | some r => rfl
    · rw [if_neg hi, if_neg hi]
      rfl

/-- What the shared body returns is the failure pair or a success whose
value is the conversion of the state field. -/
theorem ioStateBody_ok {R : Type} {P : Protocol} {returnSize : Nat} {convert : Str → Option R}
    {failure : R} {tryCount : Nat} {pinNumber : Int} {i : Nat} {states : List Str}
    {r : IOStatus × R}
    (h : ioStateBody P returnSize convert failure tryCount pinNumber i states = some (.ok r)) :
    r = (.OPERATION_FAILURE, failure)
      ∨ ∃ state v, states[P.STATE]? = some state ∧ convert state = some v
          ∧ r = (.OPERATION_SUCCESS, v) := by
  have hfail : ∀ {x : Except Fault (IOStatus × R)},
      failOrContinue tryCount i (IOStatus.OPERATION_FAILURE, failure) = some x →
      x = .ok r → r = (.OPERATION_FAILURE, failure) := by
    intro x hx hr
    rw [failOrContinue_eq_some hx] at hr
    cases hr
    rfl
  unfold ioStateBody at h
  split at h
  · exact Or.inl (hfail h rfl)
  · cases hp : vat states P.PIN_NUMBER with
    | error e => rw [hp] at h; cases h
    | ok pin =>
      rw [hp] at h
      simp only [] at h
      split at h
      · exact Or.inl (hfail h rfl)
      · cases hc : vat states P.RETURN_CODE with
        | error e => rw [hc] at h; cases h
        | ok code =>
          rw [hc] at h
          simp only [] at h
          split at h
          · exact Or.inl (hfail h rfl)
          · cases hs : states[P.STATE]? with
            | none => rw [vat_eq_error hs] at h; exact Or.inl (hfail h rfl)
            | some state =>
              rw [vat_eq_ok hs] at h
              simp only [] at h
              cases hv : convert state with
              | none => rw [hv] at h; exact Or.inl (hfail h rfl)
              | some v =>
                rw [hv] at h
                cases h
                exact Or.inr ⟨state, v, rfl, hv, rfl⟩

/-- An operation with the shared body whose first response is
`[pin, success code, state]` with a state field that converts returns
success at once, whatever the try count of at least one. -/
theorem tryLoop_ioStateBody_first {σ R : Type} (P : Protocol) (convert : Str → Option R)
    (failure : R) (tryCount : Nat)
    (exchange : TStream σ → Except Fault (List Str) × TStream σ) (pinNumber : Int)
    (state : Str) (v : R) (s : TStream σ) (hN : 1 ≤ tryCount)
    (hconv : convert state = some v)
    (h : answerIs (ioStateFields P pinNumber state) (answer exchange 0 s) = true) :
    tryLoop tryCount exchange
        (ioStateBody P P.IO_STATE_RETURN_SIZE convert failure tryCount pinNumber)
        (.OPERATION_FAILURE, failure) tryCount 0 s
      = (.ok (.OPERATION_SUCCESS, v), (exchange s).2) := by
  obtain ⟨states, hans, hf⟩ := answerIs_ok h
  rw [tryLoop_return tryCount _ _ _ tryCount 0 s states
    (.ok (.OPERATION_SUCCESS, v)) (by omega) (by omega) hans]
  exact ioStateBody_ioStateFields P convert failure tryCount pinNumber 0 states state v hconv hf

/-! ## `digitalRead` and `softDigitalRead` on the same response -/

/-- C28: let the first response to `digitalRead(pin)` in one session and the
first response to `softDigitalRead(pin)` in another be the same accepted
field sequence `[pin, success code, state]`, whose state field converts to
the integer `n`, the try counts being at least one. Then `digitalRead`
returns `(OPERATION_SUCCESS, n == 1)`, true exactly when `n = 1`;
`softDigitalRead` returns `(OPERATION_SUCCESS, n != 0)`, true exactly when
`n ≠ 0`; and the two results are equal exactly when `n` is `0` or `1`. -/
theorem digitalRead_softDigitalRead_truth {σ τ : Type} (P : Protocol) (dev : Device σ)
    (dev' : Device τ) (a : Arduino σ) (a' : Arduino τ) (pinNumber : Int) (states : List Str)
    (state : Str) (n : Int) (hN : 1 ≤ a.m_ioTryCount) (hN' : 1 ≤ a'.m_ioTryCount)
    (hfields : ioStateFields P pinNumber state states = true)
    (hdec : P.decStringToInt state = some n)
    (hans : answer (digitalReadExchange P dev a.m_streamSendDelay pinNumber) 0 a.m_ioStream
      = .ok states)
    (hans' : answer (fun s => genericIOTask P dev' s
        (pinRequest P P.SOFT_DIGITAL_READ_HEADER pinNumber) P.SOFT_DIGITAL_READ_HEADER
        a'.m_streamSendDelay) 0 a'.m_ioStream = .ok states) :
    (digitalRead P dev a pinNumber).1 = .ok (.OPERATION_SUCCESS, n == 1)
    ∧ (softDigitalRead P dev' a' pinNumber).1 = .ok (.OPERATION_SUCCESS, n != 0)
    ∧ ((n == 1) = true ↔ n = 1)
    ∧ ((n != 0) = true ↔ n ≠ 0)
    ∧ ((digitalRead P dev a pinNumber).1 = (softDigitalRead P dev' a' pinNumber).1
        ↔ n = 0 ∨ n = 1) := by
  have h1 : (digitalRead P dev a pinNumber).1 = .ok (.OPERATION_SUCCESS, n == 1) := by
    unfold digitalRead
    simp only []
    rw [tryLoop_digitalReadBody_first P a.m_ioTryCount _ pinNumber state n a.m_ioStream hN hdec
      (by rw [hans]; exact hfields)]
  have h2 : (softDigitalRead P dev' a' pinNumber).1 = .ok (.OPERATION_SUCCESS, n != 0) := by
    unfold softDigitalRead ioStateOperation
    simp only []
    rw [tryLoop_ioStateBody_first P _ _ a'.m_ioTryCount _ pinNumber state (n != 0)
      a'.m_ioStream hN' (by rw [hdec]; rfl) (by rw [hans']; exact hfields)]
  refine ⟨h1, h2, by simp, by simp, ?_⟩
  rw [h1, h2]
  constructor
  · intro h
    have hb : (n == 1) = (n != 0) := by
      injection h with h
      exact (Prod.mk.inj h).2
    by_cases h0 : n = 0
    · exact Or.inl h0
    · by_cases h1 : n = 1
      · exact Or.inr h1
      · have e1 : (n == 1) = false := by simp [h1]
        have e2 : (n != 0) = true := by simp [h0]
        rw [e1, e2] at hb
        cases hb
  · rintro (h | h) <;> subst h <;> rfl

/-- C28 at a concrete input: the response `[7, 1, 2]` to `digitalRead(7)` and
to `softDigitalRead(7)`; the first returns `false`, the second `true`. -/
theorem digitalRead_softDigitalRead_truth_witness :
    (digitalRead specProtocol scripted (session 1 ["\x7bdread:7:1:2\x7d".toList]) 7).1
      = .ok (.OPERATION_SUCCESS, (2 : Int) == 1)
    ∧ (softDigitalRead specProtocol scripted (session 1 ["\x7bsdread:7:1:2\x7d".toList]) 7).1
      = .ok (.OPERATION_SUCCESS, (2 : Int) != 0)
    ∧ (((2 : Int) == 1) = true ↔ (2 : Int) = 1)
    ∧ (((2 : Int) != 0) = true ↔ (2 : Int) ≠ 0)
    ∧ ((digitalRead specProtocol scripted (session 1 ["\x7bdread:7:1:2\x7d".toList]) 7).1
        = (softDigitalRead specProtocol scripted
            (session 1 ["\x7bsdread:7:1:2\x7d".toList]) 7).1
        ↔ (2 : Int) = 0 ∨ (2 : Int) = 1) :=
  digitalRead_softDigitalRead_truth specProtocol scripted scripted
    (session 1 ["\x7bdread:7:1:2\x7d".toList]) (session 1 ["\x7bsdread:7:1:2\x7d".toList]) 7
    ["7".toList, "1".toList, "2".toList] "2".toList 2 (by decide) (by decide) (by decide) rfl
    rfl rfl

/-! ## `analogRead` and `analogReadRaw` -/

/-- The loop of `analogRead` is the loop of `analogReadRaw` with the pair
it returns mapped: the value of a success through `analogToVoltage`, the
value of a failure replaced by `0.00`. The port ends in the same state. -/
theorem analogRead_eq_map_analogReadRaw {σ : Type} (P : Protocol) (D : Doubles)
    (dev : Device σ) (a : Arduino σ) (pinNumber : Int) :
    analogRead P D dev a pinNumber
      = (Except.map (fun r : IOStatus × Int =>
            match r.1 with
            | .OPERATION_SUCCESS => (IOStatus.OPERATION_SUCCESS, D.analogToVoltage r.2)
            | .OPERATION_FAILURE => (IOStatus.OPERATION_FAILURE, D.zero))
          (analogReadRaw P dev a pinNumber).1,
        (analogReadRaw P dev a pinNumber).2) := by
  have key : tryLoop a.m_ioTryCount
        (fun s => genericIOTask P dev s (pinRequest P P.ANALOG_READ_HEADER pinNumber)
          P.ANALOG_READ_HEADER a.m_streamSendDelay)
        (ioStateBody P P.IO_STATE_RETURN_SIZE
          (fun state => (P.decStringToInt state).map D.analogToVoltage) D.zero
          a.m_ioTryCount pinNumber)
        (IOStatus.OPERATION_FAILURE, D.zero) a.m_ioTryCount 0 a.m_ioStream
      = _ :=
    tryLoop_map a.m_ioTryCount
      (fun s => genericIOTask P dev s (pinRequest P P.ANALOG_READ_HEADER pinNumber)
        P.ANALOG_READ_HEADER a.m_streamSendDelay)
      (ioStateBody P P.IO_STATE_RETURN_SIZE P.decStringToInt 0 a.m_ioTryCount pinNumber)
      (ioStateBody P P.IO_STATE_RETURN_SIZE
        (fun state => (P.decStringToInt state).map D.analogToVoltage) D.zero
        a.m_ioTryCount pinNumber)
      (IOStatus.OPERATION_FAILURE, (0 : Int))
      (fun r : IOStatus × Int =>
        match r.1 with
        | .OPERATION_SUCCESS => (IOStatus.OPERATION_SUCCESS, D.analogToVoltage r.2)
        | .OPERATION_FAILURE => (IOStatus.OPERATION_FAILURE, D.zero))
      (fun i states => ioStateBody_map P P.IO_STATE_RETURN_SIZE P.decStringToInt
        D.analogToVoltage 0 D.zero _ rfl (fun _ => rfl) a.m_ioTryCount pinNumber i states)
      a.m_ioTryCount 0 a.m_ioStream
  unfold analogRead analogReadRaw ioStateOperation
  simp only []
  rw [key]

/-- A failure of `analogReadRaw` carries the value `0`. -/
theorem analogReadRaw_failure_value {σ : Type} (P : Protocol) (dev : Device σ) (a : Arduino σ)
    (pinNumber : Int) (n : Int)
    (h : (analogReadRaw P dev a pinNumber).1 = .ok (.OPERATION_FAILURE, n)) : n = 0 := by
  unfold analogReadRaw ioStateOperation at h
  simp only [] at h
  rcases tryLoop_ok_from_body _ _ _ _ _ _ _ _ h with hf | ⟨k, states, _, _, hb⟩
  · exact (Prod.mk.inj hf).2
  · rcases ioStateBody_ok hb with hr | ⟨_, _, _, _, hr⟩
    · exact (Prod.mk.inj hr).2
    · cases (Prod.mk.inj hr).1

/-- C27: for every try count, pin and sequence of responses, `analogRead(pin)`
and `analogReadRaw(pin)` leave the session in the same state (the same
request frames written, the same responses consumed from the wire) and
succeed or fail together: when `analogReadRaw` returns
`(OPERATION_SUCCESS, n)`, `analogRead` returns `OPERATION_SUCCESS` with
`analogToVoltage(n)`; when `analogReadRaw` returns `OPERATION_FAILURE`, its
value is `0` and `analogRead` returns `(OPERATION_FAILURE, 0.00)`; an
exception leaves one exactly when it leaves the other; and every result of
`analogRead` arises in one of these ways. -/
theorem analogRead_analogReadRaw_agree {σ : Type} (P : Protocol) (D : Doubles)
    (dev : Device σ) (a : Arduino σ) (pinNumber : Int) :
    (analogRead P D dev a pinNumber).2 = (analogReadRaw P dev a pinNumber).2
    ∧ (∀ n, (analogReadRaw P dev a pinNumber).1 = .ok (.OPERATION_SUCCESS, n) →
        (analogRead P D dev a pinNumber).1 = .ok (.OPERATION_SUCCESS, D.analogToVoltage n))
    ∧ (∀ n, (analogReadRaw P dev a pinNumber).1 = .ok (.OPERATION_FAILURE, n) →
        n = 0 ∧ (analogRead P D dev a pinNumber).1 = .ok (.OPERATION_FAILURE, D.zero))
    ∧ (∀ e, (analogReadRaw P dev a pinNumber).1 = .error e ↔
        (analogRead P D dev a pinNumber).1 = .error e)
    ∧ (∀ status v, (analogRead P D dev a pinNumber).1 = .ok (status, v) →
        ∃ n, (analogReadRaw P dev a pinNumber).1 = .ok (status, n)) := by
  rw [analogRead_eq_map_analogReadRaw]
  refine ⟨rfl, ?_, ?_, ?_, ?_⟩
  · intro n h
    simp only [h]
    rfl
  · intro n h
    refine ⟨analogReadRaw_failure_value P dev a pinNumber n h, ?_⟩
    simp only [h]
    rfl
  · intro e
    cases h : (analogReadRaw P dev a pinNumber).1 with
    | error e' => simp [Except.map]
    | ok r => simp [Except.map]
  · intro status v h
    cases hr : (analogReadRaw P dev a pinNumber).1 with
    | error e' => simp only [hr] at h; cases h
    | ok r =>
      obtain ⟨st, n⟩ := r
      simp only [hr] at h
      cases st with
      | OPERATION_SUCCESS =>
        injection h with h
        exact ⟨n, by rw [← (Prod.mk.inj h).1]⟩
      | OPERATION_FAILURE =>
        injection h with h
        exact ⟨n, by rw [← (Prod.mk.inj h).1]⟩

/-- C27 at concrete inputs: the response `[7, 1, 512]` makes both succeed,
with the raw value 512 and the voltage converted from 512; a response for
another pin makes both fail with `0` and `0.00`. -/
theorem analogRead_analogReadRaw_agree_witness :
    (analogRead specProtocol specDoubles scripted
        (session 3 ["\x7baread:7:1:512\x7d".toList]) 7).1
      = .ok (.OPERATION_SUCCESS, specDoubles.analogToVoltage 512)
    ∧ ((0 : Int) = 0 ∧ (analogRead specProtocol specDoubles scripted
        (session 1 ["\x7baread:8:1:512\x7d".toList]) 7).1
      = .ok (.OPERATION_FAILURE, specDoubles.zero)) :=
  ⟨(analogRead_analogReadRaw_agree specProtocol specDoubles scripted
      (session 3 ["\x7baread:7:1:512\x7d".toList]) 7).2.1 512 rfl,
    (analogRead_analogReadRaw_agree specProtocol specDoubles scripted
      (session 1 ["\x7baread:8:1:512\x7d".toList]) 7).2.2.1 0 rfl⟩

/-! ## The pin field of `analogWrite` -/

/-- The digits of a natural number determine it. -/
theorem toDigits_injective {m n : Nat} (h : Nat.toDigits 10 m = Nat.toDigits 10 n) : m = n := by
  have hm := toDigitsCore_value (m + 1) m [] (by omega)
  have hn := toDigitsCore_value (n + 1) n [] (by omega)
  have hm' : digitsValue (Nat.toDigits 10 m) = m := by
    simpa [digitsValue, Nat.toDigits] using hm
  have hn' : digitsValue (Nat.toDigits 10 n) = n := by
    simpa [digitsValue, Nat.toDigits] using hn
  rw [← hm', ← hn', h]

/-- The digits of a natural number do not start with a minus sign. -/
theorem toDigits_ne_minus (m : Nat) (rest : Str) : Nat.toDigits 10 m ≠ '-' :: rest := by
  obtain ⟨d, tail, hd, hhead⟩ := toDigitsCore_head (m + 1) m [] (by omega)
  intro h
  have h' : Nat.toDigits 10 m = Nat.digitChar d :: tail := hhead
  rw [h'] at h
  exact (digitChar_facts d hd).2.2.2.1 (List.cons.inj h).1

/-- `std::to_string` renders different integers differently. -/
theorem to_string_injective {m n : Int} (h : to_string m = to_string n) : m = n := by
  cases m with
  | ofNat a =>
    cases n with
    | ofNat b =>
      have : a = b := toDigits_injective h
      rw [this]
    | negSucc b => exact absurd h (toDigits_ne_minus a _)
  | negSucc a =>
    cases n with
    | ofNat b => exact absurd h.symm (toDigits_ne_minus b _)
    | negSucc b =>
      have h' : Nat.toDigits 10 (a + 1) = Nat.toDigits 10 (b + 1) := (List.cons.inj h).2
      have : a + 1 = b + 1 := toDigits_injective h'
      have hab : a = b := by omega
      rw [hab]

/-- The pin field of the frame `analogWrite` sends is the rendering of
`voltageToAnalog(pinNumber)`, the pin field of the frame `analogWriteRaw`
sends is the rendering of `pinNumber`. -/
theorem analogWrite_requests (P : Protocol) (D : Doubles) (pinNumber : Int) (state : D.Double)
    (raw : Int) :
    analogWriteRequest P D pinNumber state
      = P.ANALOG_WRITE_HEADER ++ ":".toList
          ++ to_string (D.voltageToAnalog (D.ofInt pinNumber)) ++ ":".toList
          ++ D.to_string state ++ [P.LINE_ENDING]
    ∧ analogWriteRawRequest P pinNumber raw
      = P.ANALOG_WRITE_HEADER ++ ":".toList ++ to_string pinNumber ++ ":".toList
          ++ to_string raw ++ [P.LINE_ENDING] :=
  ⟨rfl, rfl⟩

/-- A response of the expected size whose pin field is the rendering of an
integer other than `pinNumber` is a failed attempt of the shared body. -/
theorem ioStateBody_other_pin {R : Type} (P : Protocol) (returnSize : Nat)
    (convert : Str → Option R) (failure : R) (tryCount : Nat) (pinNumber echoed : Int)
    (i : Nat) (states : List Str) (hne : echoed ≠ pinNumber)
    (hpin : states[P.PIN_NUMBER]? = some (to_string echoed)) :
    ioStateBody P returnSize convert failure tryCount pinNumber i states
      = failOrContinue tryCount i (.OPERATION_FAILURE, failure) := by
  unfold ioStateBody
  split
  · rfl
  · rw [vat_eq_ok hpin]
    simp only []
    rw [if_pos (fun h => hne (to_string_injective h).symm)]

/-- For a pin that `voltageToAnalog` does not map to itself, `analogWrite`
fails against every firmware that echoes the pin field it received: each of
the `m_ioTryCount` attempts ends at the pin echo test. -/
theorem analogWrite_fails_on_echo {σ : Type} (P : Protocol) (D : Doubles) (dev : Device σ)
    (a : Arduino σ) (pinNumber : Int) (state : D.Double) (hN : 1 ≤ a.m_ioTryCount)
    (hne : D.voltageToAnalog (D.ofInt pinNumber) ≠ pinNumber)
    (hecho : ∀ k, k < a.m_ioTryCount → ∃ states,
      answer (fun s => genericIOTask P dev s (analogWriteRequest P D pinNumber state)
        P.ANALOG_WRITE_HEADER a.m_streamSendDelay) k a.m_ioStream = .ok states
      ∧ states[P.PIN_NUMBER]? = some (to_string (D.voltageToAnalog (D.ofInt pinNumber)))) :
    (analogWrite P D dev a pinNumber state).1 = .ok (.OPERATION_FAILURE, D.zero) := by
  unfold analogWrite ioStateOperation
  simp only []
  rw [tryLoop_all_fail a.m_ioTryCount _ _ _ (IOStatus.OPERATION_FAILURE, D.zero) a.m_ioStream hN]
  intro k hk
  obtain ⟨states, hans, hp⟩ := hecho k hk
  exact ⟨states, hans, ioStateBody_other_pin P _ _ _ _ pinNumber _ k states hne hp⟩

/-- C23 fails on the code: `analogWrite(7, 2.5)` sends the frame
`{awrite:1432:2.500000`, whose pin field is the rendering of
`voltageToAnalog(7)`, not of the pin. The firmware that echoes the pin field
it received answers `[1432, 1, 2.500000]`; the echo is compared with `7`, and
after three attempts `analogWrite` returns `OPERATION_FAILURE`. The sibling
`analogWriteRaw(7, 512)` sends `{awrite:7:512` and succeeds against the same
firmware. -/
theorem analogWrite_pin_field_is_converted :
    analogWriteRequest specProtocol specDoubles 7 (2500000 : Int)
      = "\x7bawrite:1432:2.500000\r".toList
    ∧ answer (fun s => genericIOTask specProtocol mirrorBoard s
          (analogWriteRequest specProtocol specDoubles 7 (2500000 : Int))
          specProtocol.ANALOG_WRITE_HEADER 0) 0 (mirrorSession 3).m_ioStream
        = .ok ["1432".toList, "1".toList, "2.500000".toList]
    ∧ (analogWrite specProtocol specDoubles mirrorBoard (mirrorSession 3) 7 (2500000 : Int)).1
        = .ok (.OPERATION_FAILURE, (0 : Int))
    ∧ (analogWrite specProtocol specDoubles mirrorBoard (mirrorSession 3) 7
          (2500000 : Int)).2.m_ioStream.written
        = List.replicate 3 "\x7bawrite:1432:2.500000\r".toList
    ∧ analogWriteRawRequest specProtocol 7 512 = "\x7bawrite:7:512\r".toList
    ∧ (analogWriteRaw specProtocol mirrorBoard (mirrorSession 3) 7 512).1
        = .ok (.OPERATION_SUCCESS, 512) := by
  refine ⟨by decide, rfl, rfl, by decide, by decide, rfl⟩

/-! ## `canWrite` against `canRead` -/

/-- The loop that appends the data bytes puts the same text behind whatever
string it starts from. -/
theorem appendBytes_init (states : List Str) : ∀ (positions : List Nat) (init r : Str),
    appendBytes states positions init = .ok r →
    ∃ bytes, r = init ++ bytes
      ∧ ∀ init', appendBytes states positions init' = .ok (init' ++ bytes) := by
  intro positions
  induction positions with
  | nil =>
    intro init r h
    simp only [appendBytes] at h
    cases h
    exact ⟨[], by simp, fun init' => by simp [appendBytes]⟩
  | cons p ps ih =>
    intro init r h
    rw [appendBytes] at h
    cases hb : vat states p with
    | error e => rw [hb] at h; cases h
    | ok b =>
      rw [hb] at h
      simp only [] at h
      obtain ⟨bytes, hr, hall⟩ := ih _ r h
      refine ⟨":".toList ++ b ++ bytes, ?_, ?_⟩
      · rw [hr]; simp [List.append_assoc]
      · intro init'
        rw [appendBytes, hb]
        simp only []
        rw [hall (init' ++ ":".toList ++ b)]
        simp [List.append_assoc]

/-- Past its tests, the body of `canRead` decodes the id followed by
`":" + field` for each data byte. -/
theorem canReadBody_message (P : Protocol) (i : Nat) (states : List Str) (id code : Str)
    (hsize : ¬ (states.length = P.CAN_READ_RETURN_SIZE
      ∧ states.length ≠ P.CAN_READ_BLANK_RETURN_SIZE))
    (hblank : states.length ≠ P.CAN_READ_BLANK_RETURN_SIZE)
    (hcode : states[P.CAN_IO_OPERATION_RESULT]? = some code)
    (hne : code ≠ P.OPERATION_FAILURE_STRING) (hid : states[P.MESSAGE_ID]? = some id) :
    canReadBody P i states = decodeCan P (appendBytes states (bytePositions P) id) := by
  unfold canReadBody
  rw [if_neg hsize, if_neg hblank, vat_eq_ok hcode]
  simp only []
  rw [if_neg hne, vat_eq_ok hid]

/-- Past its tests, the body of `canWrite` decodes the id followed by `":"`
and then by `":" + field` for each data byte. -/
theorem canWriteBody_message (P : Protocol) (i : Nat) (states : List Str) (id code : Str)
    (hsize : ¬ (states.length = P.CAN_READ_RETURN_SIZE
      ∧ states.length ≠ P.CAN_READ_BLANK_RETURN_SIZE))
    (hlen : states.length = P.CAN_WRITE_RETURN_SIZE)
    (hcode : states[P.CAN_IO_OPERATION_RESULT]? = some code)
    (hne : code ≠ P.OPERATION_FAILURE_STRING) (hid : states[P.MESSAGE_ID]? = some id) :
    canWriteBody P i states
      = decodeCan P (appendBytes states (bytePositions P) (id ++ ":".toList)) := by
  unfold canWriteBody
  rw [if_neg hsize, if_neg (by simpa using hlen), vat_eq_ok hcode]
  simp only []
  rw [if_neg hne, vat_eq_ok hid]

/-- Whatever the constants of the protocol: on a field sequence that both
`canRead` and `canWrite` take past their tests, the string `canWrite` hands
to the decoder is the string `canRead` hands to it with one more `:` behind
the id. -/
theorem canWrite_message_doubles_colon (P : Protocol) (i : Nat) (states : List Str)
    (id code : Str)
    (hsize : ¬ (states.length = P.CAN_READ_RETURN_SIZE
      ∧ states.length ≠ P.CAN_READ_BLANK_RETURN_SIZE))
    (hblank : states.length ≠ P.CAN_READ_BLANK_RETURN_SIZE)
    (hlen : states.length = P.CAN_WRITE_RETURN_SIZE)
    (hcode : states[P.CAN_IO_OPERATION_RESULT]? = some code)
    (hne : code ≠ P.OPERATION_FAILURE_STRING) (hid : states[P.MESSAGE_ID]? = some id)
    (r : Str) (hr : appendBytes states (bytePositions P) id = .ok r) :
    ∃ bytes, canReadBody P i states = decodeCan P (.ok (id ++ bytes))
      ∧ canWriteBody P i states = decodeCan P (.ok (id ++ ":".toList ++ bytes))
      ∧ id ++ ":".toList ++ bytes ≠ id ++ bytes := by
  obtain ⟨bytes, hrb, hall⟩ := appendBytes_init states (bytePositions P) id r hr
  refine ⟨bytes, ?_, ?_, ?_⟩
  · rw [canReadBody_message P i states id code hsize hblank hcode hne hid, hall id]
  · rw [canWriteBody_message P i states id code hsize hlen hcode hne hid,
      hall (id ++ ":".toList)]
  · intro h
    have := congrArg List.length h
    simp at this

/-- With `CAN_WRITE_RETURN_SIZE` equal to `CAN_READ_RETURN_SIZE` and
different from the blank size, the body of `canWrite` takes no field
sequence past its two size tests. -/
theorem canWriteBody_rejects_all (P : Protocol) (i : Nat) (states : List Str)
    (hsame : P.CAN_WRITE_RETURN_SIZE = P.CAN_READ_RETURN_SIZE)
    (hblank : P.CAN_READ_RETURN_SIZE ≠ P.CAN_READ_BLANK_RETURN_SIZE) :
    canWriteBody P i states
      = failOrContinue P.IO_TRY_COUNT i (.OPERATION_FAILURE, emptyMessage) := by
  unfold canWriteBody
  by_cases h : states.length = P.CAN_READ_RETURN_SIZE
  · rw [if_pos ⟨h, by rw [h]; exact hblank⟩]
  · rw [if_neg (fun hc => h hc.1), if_pos (by rw [hsame]; exact h)]

/-- C22 fails on the code. On the fields `[1, 2, ..., 9, 1]` the string
`canRead` builds for the decoder is `1:2:3:4:5:6:7:8:9`, the one `canWrite`
builds starts from `1:` and is `1::2:3:4:5:6:7:8:9`. The field counts differ
as well: a response of eleven fields is a success of `canRead` and a failure
of `canWrite`. And the acknowledgement of the full layout, which `canListen`
accepts and decodes from the single-colon string, is a failure of
`canWrite`. -/
theorem canWrite_does_not_mirror_canRead :
    appendBytes fullCanFields (bytePositions specProtocol) "1".toList
      = .ok "1:2:3:4:5:6:7:8:9".toList
    ∧ appendBytes fullCanFields (bytePositions specProtocol) ("1".toList ++ ":".toList)
      = .ok "1::2:3:4:5:6:7:8:9".toList
    ∧ (canRead specProtocol scripted
        (session 3 ["\x7bcanread:1:2:3:4:5:6:7:8:9:1:0\x7d".toList])).1
      = .ok (.OPERATION_SUCCESS,
          { id := 1, frame := 0, length := 8, dataPacket := [2, 3, 4, 5, 6, 7, 8, 9] })
    ∧ (canWrite specProtocol scripted
        (session 3 ["\x7bcanwrite:1:2:3:4:5:6:7:8:9:1:0\x7d".toList]) emptyMessage).1
      = .ok (.OPERATION_FAILURE, emptyMessage)
    ∧ (canListen specProtocol scripted (session 3 [fullCanWriteFrame]) 0).1
      = .ok (.OPERATION_SUCCESS,
          { id := 1, frame := 0, length := 8, dataPacket := [2, 3, 4, 5, 6, 7, 8, 9] })
    ∧ (canWrite specProtocol scripted (session 3 [fullCanWriteFrame]) emptyMessage).1
      = .ok (.OPERATION_FAILURE, emptyMessage) := by
  refine ⟨rfl, rfl, rfl, rfl, rfl, rfl⟩

/-! ## `canListen` and the frames of neither header -/

/-- A line that does not contain `CAN_EMPTY_READ_SUCCESS_STRING`, or is at
most ten characters longer than it, is classified as it was read. -/
theorem canListenCut_unchanged (P : Protocol) (returnString : Str)
    (h : find returnString P.CAN_EMPTY_READ_SUCCESS_STRING = none
      ∨ returnString.length ≤ P.CAN_EMPTY_READ_SUCCESS_STRING.length + 10) :
    canListenCut P returnString = returnString := by
  unfold canListenCut
  rw [if_neg]
  rintro ⟨hf, hl⟩
  rcases h with h | h
  · rw [h] at hf; cases hf
  · omega

/-- A line that after the cut starts with neither header is a failed
attempt of `canListen`. -/
theorem canListenBody_neither (P : Protocol) (i : Nat) (returnString : Str)
    (hread : startsWith (canListenCut P returnString) P.CAN_READ_HEADER = false)
    (hwrite : startsWith (canListenCut P returnString) P.CAN_WRITE_HEADER = false) :
    canListenBody P i returnString
      = failOrContinue P.IO_TRY_COUNT i (.OPERATION_FAILURE, emptyMessage) := by
  unfold canListenBody
  simp only [hread, hwrite, Bool.false_and, Bool.false_eq_true, if_false]

/-- C24 as stated fails: the line `JJJJJJJJJJJ{canread:1}` starts with
neither the CAN-read header nor the CAN-write header. It contains the
blank-success marker and is more than ten characters longer than it, so its
first eleven characters are dropped; what is left is the marker, and
`canListen` returns `OPERATION_SUCCESS` from this line. -/
theorem canListen_success_from_other_start :
    startsWith markerAfterNoise specProtocol.CAN_READ_HEADER = false
    ∧ startsWith markerAfterNoise specProtocol.CAN_WRITE_HEADER = false
    ∧ canListenCut specProtocol markerAfterNoise = "\x7bcanread:1\x7d".toList
    ∧ (canListen specProtocol scripted (session 3 [markerAfterNoise]) 0).1
      = .ok (.OPERATION_SUCCESS, emptyMessage) := by
  refine ⟨by decide, by decide, by decide, rfl⟩

/-- C24, amended: in `canListen` a line that starts with neither the
CAN-read header nor the CAN-write header once its first
`CAN_EMPTY_READ_SUCCESS_STRING.length()` characters are dropped where the cut
applies (the line as read where it does not: it lacks the marker or is at
most ten characters longer than it) is a failed attempt, retried or returned
as `(OPERATION_FAILURE, empty message)` on the last attempt and never a
success; and when every line read is such, `canListen` returns
`(OPERATION_FAILURE, empty message)` after one write and exactly
`IO_TRY_COUNT` reads. -/
theorem canListen_neither_header_fails {σ : Type} (P : Protocol) (dev : Device σ)
    (a : Arduino σ) (delay : Nat)
    (hlines : ∀ k, k < P.IO_TRY_COUNT → ∃ line,
      answer (canListenExchange P dev) k
          (a.m_ioStream.writeLine dev (P.CAN_READ_HEADER ++ [P.TERMINATING_CHARACTER]))
        = .ok [line]
      ∧ startsWith (canListenCut P line) P.CAN_READ_HEADER = false
      ∧ startsWith (canListenCut P line) P.CAN_WRITE_HEADER = false) :
    (canListen P dev a delay).1 = .ok (.OPERATION_FAILURE, emptyMessage)
    ∧ (canListen P dev a delay).2.m_ioStream
      = afterExchanges (canListenExchange P dev) P.IO_TRY_COUNT
          (a.m_ioStream.writeLine dev (P.CAN_READ_HEADER ++ [P.TERMINATING_CHARACTER]))
    ∧ (canListen P dev a delay).2.m_ioStream.written
      = a.m_ioStream.written ++ [P.CAN_READ_HEADER ++ [P.TERMINATING_CHARACTER]]
    ∧ (∀ (i : Nat) (line : Str),
        startsWith (canListenCut P line) P.CAN_READ_HEADER = false →
        startsWith (canListenCut P line) P.CAN_WRITE_HEADER = false →
        canListenBody P i line
          = failOrContinue P.IO_TRY_COUNT i (.OPERATION_FAILURE, emptyMessage))
    ∧ (∀ line : Str, find line P.CAN_EMPTY_READ_SUCCESS_STRING = none
        ∨ line.length ≤ P.CAN_EMPTY_READ_SUCCESS_STRING.length + 10 →
        canListenCut P line = line) := by
  have hloop : tryLoop P.IO_TRY_COUNT (canListenExchange P dev)
        (fun i line => canListenBody P i (line.headD []))
        (IOStatus.OPERATION_FAILURE, emptyMessage) P.IO_TRY_COUNT 0
        (a.m_ioStream.writeLine dev (P.CAN_READ_HEADER ++ [P.TERMINATING_CHARACTER]))
      = (.ok (.OPERATION_FAILURE, emptyMessage),
          afterExchanges (canListenExchange P dev) P.IO_TRY_COUNT
            (a.m_ioStream.writeLine dev (P.CAN_READ_HEADER ++ [P.TERMINATING_CHARACTER]))) := by
    by_cases h0 : P.IO_TRY_COUNT = 0
    · rw [h0]; rfl
    · apply tryLoop_all_fail _ _ _ _ _ _ (by omega)
      intro k hk
      obtain ⟨line, hans, hr, hw⟩ := hlines k hk
      exact ⟨[line], hans, canListenBody_neither P k line hr hw⟩
  have hwritten : ∀ (n : Nat) (s : TStream σ),
      (afterExchanges (canListenExchange P dev) n s).written = s.written := by
    intro n
    induction n with
    | zero => intro s; rfl
    | succ n ih => intro s; rw [afterExchanges, ih]; rfl
  refine ⟨?_, ?_, ?_, fun i line => canListenBody_neither P i line,
    fun line => canListenCut_unchanged P line⟩
  · unfold canListen
    simp only []
    rw [hloop]
  · unfold canListen
    simp only []
    rw [hloop]
  · unfold canListen
    simp only []
    rw [hloop, hwritten]
    rfl

/-- C24, amended, at a concrete input: three lines `{foo:1}` and a fourth
line that would be a success. `canListen` fails after three reads and the
fourth line is still on the wire. -/
theorem canListen_neither_header_fails_witness :
    (canListen specProtocol scripted
        (session 3 ["\x7bfoo:1\x7d".toList, "\x7bfoo:1\x7d".toList, "\x7bfoo:1\x7d".toList,
          "\x7bcanread:1\x7d".toList]) 0).1
      = .ok (.OPERATION_FAILURE, emptyMessage)
    ∧ (canListen specProtocol scripted
        (session 3 ["\x7bfoo:1\x7d".toList, "\x7bfoo:1\x7d".toList, "\x7bfoo:1\x7d".toList,
          "\x7bcanread:1\x7d".toList]) 0).2.m_ioStream
      = afterExchanges (canListenExchange specProtocol scripted) specProtocol.IO_TRY_COUNT
          ((session 3 ["\x7bfoo:1\x7d".toList, "\x7bfoo:1\x7d".toList, "\x7bfoo:1\x7d".toList,
            "\x7bcanread:1\x7d".toList]).m_ioStream.writeLine scripted
            (specProtocol.CAN_READ_HEADER ++ [specProtocol.TERMINATING_CHARACTER])) :=
  ⟨(canListen_neither_header_fails specProtocol scripted
      (session 3 ["\x7bfoo:1\x7d".toList, "\x7bfoo:1\x7d".toList, "\x7bfoo:1\x7d".toList,
        "\x7bcanread:1\x7d".toList]) 0
      (by
        intro k hk
        have hk3 : k < 3 := hk
        interval_cases k
        · exact ⟨"\x7bfoo:1\x7d".toList, rfl, by decide, by decide⟩
        · exact ⟨"\x7bfoo:1\x7d".toList, rfl, by decide, by decide⟩
        · exact ⟨"\x7bfoo:1\x7d".toList, rfl, by decide, by decide⟩)).1,
    (canListen_neither_header_fails specProtocol scripted
      (session 3 ["\x7bfoo:1\x7d".toList, "\x7bfoo:1\x7d".toList, "\x7bfoo:1\x7d".toList,
        "\x7bcanread:1\x7d".toList]) 0
      (by
        intro k hk
        have hk3 : k < 3 := hk
        interval_cases k
        · exact ⟨"\x7bfoo:1\x7d".toList, rfl, by decide, by decide⟩
        · exact ⟨"\x7bfoo:1\x7d".toList, rfl, by decide, by decide⟩
        · exact ⟨"\x7bfoo:1\x7d".toList, rfl, by decide, by decide⟩)).2.1⟩

/-! ## The try count of a session -/

/-- The loop of `canReportRequest` leaves the try count and the send delay
as they are. -/
theorem canReportLoop_ioTryCount {σ : Type} (P : Protocol) (dev : Device σ) :
    ∀ (left i : Nat) (a : Arduino σ),
      (canReportLoop P dev left i a).2.m_ioTryCount = a.m_ioTryCount := by
  intro left
  induction left with
  | zero => intro i a; rfl
  | succ left ih =>
    intro i a
    rw [canReportLoop]
    split
    · split
      · rfl
      · split
        · split
          · rfl
          · rw [ih]; rfl
        · rfl
    · rfl

/-- A call other than `setIOTryCount` leaves the stored try count as it is;
`setIOTryCount(n)` stores `n` when `n` is at least one and leaves the count
as it is when it throws. -/
theorem runCall_ioTryCount {σ : Type} (P : Protocol) (D : Doubles) (dev : Device σ)
    (a : Arduino σ) (c : Call D) :
    (runCall P D dev a c).m_ioTryCount
      = match c with
        | .setIOTryCount n => if n < 1 then a.m_ioTryCount else n
        | _ => a.m_ioTryCount := by
  cases c with
  | setIOTryCount n =>
    simp only [runCall, setIOTryCount]
    split <;> rfl
  | serialReportRequest delimiter =>
    simp only [runCall, serialReportRequest]
    split <;> rfl
  | addCanMask canMaskType mask => cases canMaskType <;> rfl
  | removeCanMask canMaskType mask => cases canMaskType <;> rfl
  | canReportRequest => exact canReportLoop_ioTryCount P dev _ _ a
  | _ => rfl

/-- C21: directly after construction the stored try count is 3, and after
any sequence of calls on the session (`setIOTryCount` with any argument,
accepted or rejected, `setStreamSendDelay`, and the typed operations, whatever
they return or throw) it is at least 1. -/
theorem ioTryCount_at_least_one {σ : Type} (P : Protocol) (D : Doubles) (dev : Device σ)
    (arduinoType : ArduinoType) (tStream : TStream σ) (calls : List (Call D)) :
    ioTryCount (construct P arduinoType tStream).1 = 3
    ∧ 1 ≤ ioTryCount (session_after P D dev (construct P arduinoType tStream).1 calls) := by
  have hinit : ioTryCount (construct P arduinoType tStream).1 = 3 := by
    unfold construct ioTryCount
    simp only []
    split <;> rfl
  have hstep : ∀ (a : Arduino σ) (c : Call D), 1 ≤ a.m_ioTryCount →
      1 ≤ (runCall P D dev a c).m_ioTryCount := by
    intro a c h
    rw [runCall_ioTryCount]
    cases c with
    | setIOTryCount n =>
      simp only []
      split <;> omega
    | _ => exact h
  have hall : ∀ (cs : List (Call D)) (a : Arduino σ), 1 ≤ a.m_ioTryCount →
      1 ≤ (session_after P D dev a cs).m_ioTryCount := by
    intro cs
    induction cs with
    | nil => intro a h; exact h
    | cons c cs ih =>
      intro a h
      exact ih (runCall P D dev a c) (hstep a c h)
  refine ⟨hinit, hall calls _ ?_⟩
  have : (construct P arduinoType tStream).1.m_ioTryCount = 3 := hinit
  omega

/-! ## The splitting step of `serialReportRequest`, frame by frame -/

/-- Whether a pattern starts a string is decided by as many characters as
the pattern has. -/
theorem isPrefixOf_take (pat : Str) : ∀ (l : Str) (n : Nat), pat.length ≤ n →
    pat.isPrefixOf (l.take n) = pat.isPrefixOf l := by
  induction pat with
  | nil => intro l n _; simp
  | cons p ps ih =>
    intro l n hn
    obtain ⟨m, rfl⟩ : ∃ m, n = m + 1 := ⟨n - 1, by simp at hn; omega⟩
    cases l with
    | nil => rfl
    | cons c cs =>
      simp only [List.take_succ_cons, List.isPrefixOf]
      rw [ih cs m (by simp at hn; omega)]

/-- A string shorter than the pattern does not contain it. -/
theorem find_short {s pat : Str} (h : s.length < pat.length) : find s pat = none := by
  cases hf : find s pat with
  | none => rfl
  | some pos =>
    have := find_some_le hf
    omega

/-- A string without the pattern has no occurrence of it. -/
theorem occurrences_of_find_none {pat : Str} : ∀ {s : Str}, find s pat = none →
    occurrences pat s = 0 := by
  intro s
  induction s with
  | nil => intro _; rfl
  | cons c cs ih =>
    intro h
    unfold find at h
    split at h
    · cases h
    · rename_i hp
      cases hf : find cs pat with
      | some q => rw [hf] at h; cases h
      | none =>
        rw [occurrences, if_neg hp, ih hf]

/-- What the first occurrence of a two-character pattern `xy` at `pos` tells:
the piece up to and including `pos` ends with `x` and does not contain the
pattern, and what follows that piece has one occurrence less. -/
theorem find_first_occurrence (x y : Char) : ∀ {s : Str} {pos : Nat},
    find s [x, y] = some pos →
    (s.take (pos + 1)).getLast? = some x
      ∧ find (s.take (pos + 1)) [x, y] = none
      ∧ occurrences [x, y] s = occurrences [x, y] (s.drop (pos + 1)) + 1 := by
  intro s
  induction s with
  | nil =>
    intro pos h
    simp [find] at h
  | cons c cs ih =>
    intro pos h
    unfold find at h
    split at h
    · rename_i hp
      cases h
      have hc : x = c := by
        cases cs with
        | nil => simp [List.isPrefixOf] at hp
        | cons d ds =>
          simp only [List.isPrefixOf, Bool.and_eq_true, beq_iff_eq] at hp
          exact hp.1
      refine ⟨?_, ?_, ?_⟩
      · simp [hc]
      · apply find_short
        simp
      · rw [occurrences, if_pos hp]
        simp only [List.drop_succ_cons, List.drop_zero]
        omega
    · rename_i hp
      cases hf : find cs [x, y] with
      | none => rw [hf] at h; cases h
      | some q =>
        rw [hf] at h
        simp only [Option.map_some', Option.some.injEq] at h
        subst h
        obtain ⟨hlast, hnone, hocc⟩ := ih hf
        have hne : cs.take (q + 1) ≠ [] := by
          intro hnil
          rw [hnil] at hlast
          cases hlast
        refine ⟨?_, ?_, ?_⟩
        · obtain ⟨d, ds, hd⟩ := List.exists_cons_of_ne_nil hne
          rw [List.take_succ_cons, hd, List.getLast?_cons_cons, ← hd]
          exact hlast
        · have hp' : ¬ List.isPrefixOf [x, y] (c :: cs.take (q + 1)) = true := by
            have := isPrefixOf_take [x, y] (c :: cs) (q + 1 + 1) (by simp)
            rw [List.take_succ_cons] at this
            rw [this]
            exact hp
          rw [List.take_succ_cons, find, if_neg hp', hnone]
          rfl
        · rw [occurrences, if_neg hp, List.drop_succ_cons, hocc]
          omega

/-- What the splitting loop does on a buffer when the bound is at least its
length: the frames it emits, followed by what is left of the buffer, are the
buffer; each frame ends with `}` and contains no `}{`; there is one frame
per occurrence of `}{` and one iteration per frame; and what is left
contains no `}{`, so the loop has stopped by its own condition. -/
theorem splitLoop_spec : ∀ (fuel : Nat) (returnString : Str) (frames : List Str),
    returnString.length ≤ fuel →
    ∃ emitted, splitLoop fuel returnString frames = frames ++ emitted
      ∧ emitted.flatten ++ splitRest fuel returnString = returnString
      ∧ (∀ f ∈ emitted, endsWith f '\x7d' = true ∧ find f "\x7d\x7b".toList = none)
      ∧ emitted.length = occurrences "\x7d\x7b".toList returnString
      ∧ splitIterations fuel returnString = emitted.length
      ∧ find (splitRest fuel returnString) "\x7d\x7b".toList = none := by
  have hpat : "\x7d\x7b".toList = ['\x7d', '\x7b'] := rfl
  intro fuel
  induction fuel with
  | zero =>
    intro s frames hs
    have hnil : s = [] := List.length_eq_zero.mp (Nat.le_zero.mp hs)
    subst hnil
    exact ⟨[], by simp [splitLoop], by simp [splitRest], by simp, rfl, rfl, rfl⟩
  | succ fuel ih =>
    intro s frames hs
    cases hf : find s "\x7d\x7b".toList with
    | none =>
      refine ⟨[], ?_, ?_, by simp, ?_, ?_, ?_⟩
      · rw [splitLoop, hf]; simp
      · rw [splitRest, hf]; simp
      · rw [occurrences_of_find_none hf]; rfl
      · rw [splitIterations, hf]; rfl
      · rw [splitRest, hf]; exact hf
    | some pos =>
      have hle := find_some_le hf
      have hlen2 : "\x7d\x7b".toList.length = 2 := rfl
      have hdrop : pos + "\x7d\x7b".toList.length - 1 = pos + 1 := by omega
      have hshort : (s.drop (pos + 1)).length ≤ fuel := by
        rw [List.length_drop]; omega
      obtain ⟨emitted, hloop, hjoin, hall, hcount, hiter, hrest⟩ :=
        ih (s.drop (pos + 1)) (frames ++ [s.take (pos + 1)]) hshort
      have hfirst := find_first_occurrence '\x7d' '\x7b' (hpat ▸ hf)
      refine ⟨s.take (pos + 1) :: emitted, ?_, ?_, ?_, ?_, ?_, ?_⟩
      · rw [splitLoop, hf]
        simp only [hdrop]
        rw [hloop, List.append_assoc]
        rfl
      · rw [splitRest, hf]
        simp only [hdrop]
        rw [List.flatten_cons, List.append_assoc, hjoin, List.take_append_drop]
      · intro f hfm
        rcases List.mem_cons.mp hfm with h | h
        · subst h
          refine ⟨?_, ?_⟩
          · simp only [endsWith, hfirst.1]
            rfl
          · rw [hpat]; exact hfirst.2.1
        · exact hall f h
      · rw [List.length_cons, hcount, hpat, hfirst.2.2]
      · rw [splitIterations, hf]
        simp only [hdrop]
        rw [hiter, List.length_cons]
      · rw [splitRest, hf]
        simp only [hdrop]
        exact hrest

/-- C29: for every buffer, the frames the splitting step emits, concatenated
in order, are a prefix of the buffer. When the buffer contains `}{` at least
once (which is to say the count of its occurrences is positive), every frame
ends with `}` and contains no `}{`, and there are as many frames as
occurrences of `}{`; when it contains none, the only frame is the buffer. -/
theorem stringsToPrint_frames (buffer : Str) :
    (stringsToPrint buffer).flatten <+: buffer
    ∧ ((find buffer "\x7d\x7b".toList).isSome ↔ 0 < occurrences "\x7d\x7b".toList buffer)
    ∧ ((find buffer "\x7d\x7b".toList).isSome →
        (∀ f ∈ stringsToPrint buffer,
          endsWith f '\x7d' = true ∧ find f "\x7d\x7b".toList = none)
        ∧ (stringsToPrint buffer).length = occurrences "\x7d\x7b".toList buffer)
    ∧ (find buffer "\x7d\x7b".toList = none → stringsToPrint buffer = [buffer]) := by
  obtain ⟨emitted, hloop, hjoin, hall, hcount, -, -⟩ :=
    splitLoop_spec buffer.length buffer [] (Nat.le_refl _)
  rw [List.nil_append] at hloop
  have hiff : (find buffer "\x7d\x7b".toList).isSome
      ↔ 0 < occurrences "\x7d\x7b".toList buffer := by
    cases hf : find buffer "\x7d\x7b".toList with
    | none =>
      rw [occurrences_of_find_none hf]
      simp
    | some pos =>
      have hpat : "\x7d\x7b".toList = ['\x7d', '\x7b'] := rfl
      have := (find_first_occurrence '\x7d' '\x7b' (hpat ▸ hf)).2.2
      rw [hpat, this]
      simp
  refine ⟨?_, hiff, ?_, ?_⟩
  · unfold stringsToPrint
    split
    · rw [hloop]
      exact ⟨_, hjoin⟩
    · simp
  · intro hsome
    unfold stringsToPrint
    rw [if_pos hsome, hloop]
    exact ⟨hall, hcount⟩
  · intro hnone
    unfold stringsToPrint
    rw [if_neg (by rw [hnone]; simp)]

/-- C29 at a concrete buffer of three adjacent frames, which contains `}{`
twice: two frames, each ending with `}` and free of `}{`. -/
theorem stringsToPrint_frames_witness :
    (∀ f ∈ stringsToPrint "\x7bA:1\x7d\x7bB:2\x7d\x7bC:3\x7d".toList,
      endsWith f '\x7d' = true ∧ find f "\x7d\x7b".toList = none)
    ∧ (stringsToPrint "\x7bA:1\x7d\x7bB:2\x7d\x7bC:3\x7d".toList).length
      = occurrences "\x7d\x7b".toList "\x7bA:1\x7d\x7bB:2\x7d\x7bC:3\x7d".toList :=
  (stringsToPrint_frames "\x7bA:1\x7d\x7bB:2\x7d\x7bC:3\x7d".toList).2.2.1 (by decide)

/-! ## The splitting loop stops -/

/-- C30: the splitting loop stops on every buffer. Each iteration replaces
the remaining buffer by a suffix of it that is strictly shorter; within as
many iterations as the buffer has characters the remaining buffer contains no
`}{`, which is the exit condition of the loop; the number of iterations made
is at most the length of the buffer; and a larger bound changes neither the
frames, nor what remains, nor the number of iterations. -/
theorem splitLoop_terminates (buffer : Str) :
    (∀ (s : Str) (pos : Nat), find s "\x7d\x7b".toList = some pos →
      s.drop (pos + "\x7d\x7b".toList.length - 1) <:+ s
      ∧ (s.drop (pos + "\x7d\x7b".toList.length - 1)).length < s.length)
    ∧ find (splitRest buffer.length buffer) "\x7d\x7b".toList = none
    ∧ splitIterations buffer.length buffer ≤ buffer.length
    ∧ (∀ fuel, buffer.length ≤ fuel →
        splitLoop fuel buffer [] = splitLoop buffer.length buffer []
        ∧ splitRest fuel buffer = splitRest buffer.length buffer
        ∧ splitIterations fuel buffer = splitIterations buffer.length buffer) := by
  obtain ⟨emitted, hloop, hjoin, hall, hcount, hiter, hrest⟩ :=
    splitLoop_spec buffer.length buffer [] (Nat.le_refl _)
  have hocc : ∀ s : Str, occurrences "\x7d\x7b".toList s ≤ s.length := by
    intro s
    induction s with
    | nil => exact Nat.le_refl _
    | cons c cs ih =>
      rw [occurrences, List.length_cons]
      split <;> omega
  refine ⟨?_, hrest, ?_, ?_⟩
  · intro s pos hf
    have hle := find_some_le hf
    have hlen2 : "\x7d\x7b".toList.length = 2 := rfl
    refine ⟨List.drop_suffix _ _, ?_⟩
    rw [List.length_drop]
    omega
  · rw [hiter, hcount]
    exact hocc buffer
  · intro fuel hfuel
    obtain ⟨emitted', hloop', hjoin', -, hcount', hiter', -⟩ :=
      splitLoop_spec fuel buffer [] hfuel
    have hsame : splitLoop fuel buffer [] = splitLoop buffer.length buffer [] :=
      splitLoop_fuel_irrelevant buffer.length fuel buffer.length buffer [] (Nat.le_refl _)
        hfuel (Nat.le_refl _)
    have hem : emitted' = emitted := by
      rw [hloop, hloop'] at hsame
      simpa using hsame
    refine ⟨hsame, ?_, ?_⟩
    · have h1 := hjoin'
      rw [hem] at h1
      exact List.append_cancel_left (h1.trans hjoin.symm)
    · rw [hiter', hiter, hem]

/-- C30 at a concrete buffer: the first `}{` of `{A:1}{B:2}` is at position
4, the loop goes on with the five characters from position 5 on, and a bound
of twelve iterations gives what a bound of ten gives. -/
theorem splitLoop_terminates_witness :
    ("\x7bA:1\x7d\x7bB:2\x7d".toList.drop (4 + "\x7d\x7b".toList.length - 1)
        <:+ "\x7bA:1\x7d\x7bB:2\x7d".toList
      ∧ ("\x7bA:1\x7d\x7bB:2\x7d".toList.drop (4 + "\x7d\x7b".toList.length - 1)).length
        < "\x7bA:1\x7d\x7bB:2\x7d".toList.length)
    ∧ (splitLoop 12 "\x7bA:1\x7d\x7bB:2\x7d".toList []
        = splitLoop "\x7bA:1\x7d\x7bB:2\x7d".toList.length "\x7bA:1\x7d\x7bB:2\x7d".toList []
      ∧ splitRest 12 "\x7bA:1\x7d\x7bB:2\x7d".toList
        = splitRest "\x7bA:1\x7d\x7bB:2\x7d".toList.length "\x7bA:1\x7d\x7bB:2\x7d".toList
      ∧ splitIterations 12 "\x7bA:1\x7d\x7bB:2\x7d".toList
        = splitIterations "\x7bA:1\x7d\x7bB:2\x7d".toList.length
            "\x7bA:1\x7d\x7bB:2\x7d".toList) :=
  ⟨(splitLoop_terminates "\x7bA:1\x7d\x7bB:2\x7d".toList).1
      "\x7bA:1\x7d\x7bB:2\x7d".toList 4 rfl,
    (splitLoop_terminates "\x7bA:1\x7d\x7bB:2\x7d".toList).2.2.2 12 (by decide)⟩

/-! ## The voltage `analogRead` returns -/

/-- A success of `analogRead` comes from one of the responses it obtained:
the state field of that response converts to an integer `raw`, and the value
returned is `analogToVoltage(raw)`. -/
theorem analogRead_success_value {σ : Type} (P : Protocol) (D : Doubles) (dev : Device σ)
    (a : Arduino σ) (pinNumber : Int) (v : D.Double)
    (h : (analogRead P D dev a pinNumber).1 = .ok (.OPERATION_SUCCESS, v)) :
    ∃ k states state raw, k < a.m_ioTryCount
      ∧ answer (fun s => genericIOTask P dev s (pinRequest P P.ANALOG_READ_HEADER pinNumber)
          P.ANALOG_READ_HEADER a.m_streamSendDelay) k a.m_ioStream = .ok states
      ∧ states[P.STATE]? = some state ∧ P.decStringToInt state = some raw
      ∧ v = D.analogToVoltage raw := by
  unfold analogRead ioStateOperation at h
  simp only [] at h
  rcases tryLoop_ok_from_body _ _ _ _ _ _ _ _ h with hf | ⟨k, states, hk, hans, hb⟩
  · cases (Prod.mk.inj hf).1
  · rcases ioStateBody_ok hb with hr | ⟨state, w, hs, hconv, hr⟩
    · cases (Prod.mk.inj hr).1
    · cases hd : P.decStringToInt state with
      | none => rw [hd] at hconv; cases hconv
      | some raw =>
        rw [hd] at hconv
        simp only [Option.map_some', Option.some.injEq] at hconv
        refine ⟨k, states, state, raw, by omega, hans, hs, hd, ?_⟩
        rw [(Prod.mk.inj hr).2, ← hconv]

/-- C16: with the conversion `voltage = raw / 1023 * 5.0` in exact
arithmetic, a success of `analogRead` returns `raw / 1023 * 5`, where `raw`
is the integer that the state field of one of the responses obtained converts
to; and an accepted first response with the integer `raw` makes `analogRead`
return `OPERATION_SUCCESS` with that voltage. The conversion gives 5 at 1023
and 0 at 0 and is linear in `raw`: it is `raw` times `5 / 1023`, it is
additive, and it commutes with the multiplication by an integer. -/
theorem analogRead_voltage {σ : Type} (P : Protocol) (dev : Device σ) (a : Arduino σ)
    (pinNumber : Int) :
    (∀ v : ℚ, (analogRead P exactDoubles dev a pinNumber).1 = .ok (.OPERATION_SUCCESS, v) →
      ∃ k states state raw, k < a.m_ioTryCount
        ∧ answer (fun s => genericIOTask P dev s
            (pinRequest P P.ANALOG_READ_HEADER pinNumber) P.ANALOG_READ_HEADER
            a.m_streamSendDelay) k a.m_ioStream = .ok states
        ∧ states[P.STATE]? = some state ∧ P.decStringToInt state = some raw
        ∧ v = (raw : ℚ) / 1023 * 5)
    ∧ (∀ (state : Str) (raw : Int), 1 ≤ a.m_ioTryCount →
      P.decStringToInt state = some raw →
      answerIs (ioStateFields P pinNumber state)
        (answer (fun s => genericIOTask P dev s
          (pinRequest P P.ANALOG_READ_HEADER pinNumber) P.ANALOG_READ_HEADER
          a.m_streamSendDelay) 0 a.m_ioStream) = true →
      (analogRead P exactDoubles dev a pinNumber).1
        = .ok (.OPERATION_SUCCESS, ((raw : ℚ) / 1023 * 5 : ℚ)))
    ∧ analogToVoltage 1023 = 5
    ∧ analogToVoltage 0 = 0
    ∧ (∀ raw : Int, analogToVoltage raw = (raw : ℚ) * (5 / 1023))
    ∧ (∀ x y : Int, analogToVoltage (x + y) = analogToVoltage x + analogToVoltage y)
    ∧ (∀ c x : Int, analogToVoltage (c * x) = (c : ℚ) * analogToVoltage x) := by
  have hform : ∀ raw : Int, analogToVoltage raw = (raw : ℚ) / 1023 * 5 := by
    intro raw
    simp [analogToVoltage, ANALOG_MAX, VOLTAGE_MAX]
  refine ⟨?_, ?_, ?_, ?_, ?_, ?_, ?_⟩
  · intro v h
    obtain ⟨k, states, state, raw, hk, hans, hs, hd, hv⟩ :=
      analogRead_success_value P exactDoubles dev a pinNumber v h
    exact ⟨k, states, state, raw, hk, hans, hs, hd, hv.trans (hform raw)⟩
  · intro state raw hN hdec hans
    unfold analogRead ioStateOperation
    simp only []
    rw [tryLoop_ioStateBody_first P _ _ a.m_ioTryCount _ pinNumber state
      (exactDoubles.analogToVoltage raw) a.m_ioStream hN (by rw [hdec]; rfl) hans]
    show Except.ok (IOStatus.OPERATION_SUCCESS, analogToVoltage raw) = _
    rw [hform raw]
  · rw [hform]; norm_num
  · rw [hform]; norm_num
  · intro raw; rw [hform]; ring
  · intro x y; rw [hform, hform, hform]; push_cast; ring
  · intro c x; rw [hform, hform]; push_cast; ring

/-- C16 at concrete inputs: the response `[7, 1, 1023]` makes `analogRead(7)`
return 5, and the success it returns from `[7, 1, 512]` is `512 / 1023 * 5`
of a response whose state field converts to an integer. -/
theorem analogRead_voltage_witness :
    (analogRead specProtocol exactDoubles scripted
        (session 3 ["\x7baread:7:1:1023\x7d".toList]) 7).1
      = .ok (.OPERATION_SUCCESS, (((1023 : Int) : ℚ) / 1023 * 5 : ℚ))
    ∧ ∃ k states state raw, k < 3
        ∧ answer (fun s => genericIOTask specProtocol scripted s
            (pinRequest specProtocol specProtocol.ANALOG_READ_HEADER 7)
            specProtocol.ANALOG_READ_HEADER 0) k
            (session 3 ["\x7baread:7:1:512\x7d".toList]).m_ioStream = .ok states
        ∧ states[specProtocol.STATE]? = some state
        ∧ specProtocol.decStringToInt state = some raw
        ∧ analogToVoltage 512 = (raw : ℚ) / 1023 * 5 :=
  ⟨(analogRead_voltage specProtocol scripted
      (session 3 ["\x7baread:7:1:1023\x7d".toList]) 7).2.1 "1023".toList 1023
      (by decide) (by decide) (by decide),
    (analogRead_voltage specProtocol scripted
      (session 3 ["\x7baread:7:1:512\x7d".toList]) 7).1 (analogToVoltage 512) rfl⟩

end ArduinoPC
